import Mathlib

/-!
# DRAGMAP pair selection and MAPQ scoring

A shallow embedding of `src/include/align/Mapq.hpp` and
`src/lib/align/PairBuilder.cpp`, followed by theorems about it.

Conventions of the embedding.

* `int` / `ScoreType` / `MapqType` values are `Int`.  Signed overflow is
  undefined in C++, so the embedding computes the mathematical value; unsigned
  32-bit arithmetic wraps and is written with an explicit `% 2 ^ 32`.
* `double` values are rationals.  A binary64 operation is the exact rational
  operation followed by `fl`, round-to-nearest-even to 53 significant bits
  (exponent range unbounded: no overflow to infinity, no subnormals).
* `double -> int` conversion is `truncQ`, truncation toward zero.
* The transcendental functions of the C math library (`log`, `log2`, `pow`)
  are not part of the repository; they are the fields of `Libm`.
-/

namespace Dragmap

/-! ## Binary64 arithmetic -/

/-- Conversion of a `double` to `int`: truncation toward zero. -/
def truncQ (q : ℚ) : Int := if 0 ≤ q then ⌊q⌋ else ⌈q⌉

/-- Nearest integer, ties to the even one. -/
def roundHalfEven (q : ℚ) : Int :=
  let f := ⌊q⌋
  let r := q - f
  if r < 1 / 2 then f else if 1 / 2 < r then f + 1 else if f % 2 = 0 then f else f + 1

/-- Rounding of an exact result to binary64: nearest value with a 53-bit
significand, ties to even. -/
def fl (q : ℚ) : ℚ :=
  if q = 0 then 0 else
    let e : Int := Int.log 2 |q|
    let u : ℚ := (2 : ℚ) ^ (e - 52)
    (roundHalfEven (q / u) : ℚ) * u

/-- The functions of the C math library used by the sources, on `double`s. -/
structure Libm where
  /-- natural logarithm, `log` -/
  log : ℚ → ℚ
  /-- base-2 logarithm, `std::log2` -/
  log2 : ℚ → ℚ
  /-- power function, `pow` -/
  pow : ℚ → ℚ → ℚ

/-! ## Mapq.hpp -/

/-- The constant `MAPQ_MAX`. -/
def MAPQ_MAX : Int := 60

/-- The constant `HW_MAPQ_MAX`. -/
def HW_MAPQ_MAX : Int := 250

/-- The constant `MAPQ_COEFF = 38912 >> 8`, held in a `double`. -/
def MAPQ_COEFF : ℚ := ((38912 >>> 8 : Nat) : ℚ)

/-- The function `mapqCoeffScaled`: `MAPQ_COEFF * (5.0 / snpCost)`. -/
def mapqCoeffScaled (snpCost : Int) : ℚ :=
  fl (MAPQ_COEFF * fl (5 / (snpCost : ℚ)))

/-- The table `log2_approx_c` of `our_log2`. -/
def log2_approx_c : List Int :=
  [0b0000000, 0b0000001, 0b0000011, 0b0000100, 0b0000110, 0b0000111, 0b0001000, 0b0001010, 0b0001011,
   0b0001101, 0b0001110, 0b0001111, 0b0010001, 0b0010010, 0b0010011, 0b0010100, 0b0010110, 0b0010111,
   0b0011000, 0b0011010, 0b0011011, 0b0011100, 0b0011101, 0b0011111, 0b0100000, 0b0100001, 0b0100010,
   0b0100011, 0b0100101, 0b0100110, 0b0100111, 0b0101000, 0b0101001, 0b0101010, 0b0101100, 0b0101101,
   0b0101110, 0b0101111, 0b0110000, 0b0110001, 0b0110010, 0b0110011, 0b0110100, 0b0110101, 0b0110111,
   0b0111000, 0b0111001, 0b0111010, 0b0111011, 0b0111100, 0b0111101, 0b0111110, 0b0111111, 0b1000000,
   0b1000001, 0b1000010, 0b1000011, 0b1000100, 0b1000101, 0b1000110, 0b1000111, 0b1001000, 0b1001001,
   0b1001010, 0b1001011, 0b1001100, 0b1001101, 0b1001110, 0b1001111, 0b1010000, 0b1010001, 0b1010001,
   0b1010010, 0b1010011, 0b1010100, 0b1010101, 0b1010110, 0b1010111, 0b1011000, 0b1011001, 0b1011010,
   0b1011011, 0b1011011, 0b1011100, 0b1011101, 0b1011110, 0b1011111, 0b1100000, 0b1100001, 0b1100001,
   0b1100010, 0b1100011, 0b1100100, 0b1100101, 0b1100110, 0b1100111, 0b1100111, 0b1101000, 0b1101001,
   0b1101010, 0b1101011, 0b1101011, 0b1101100, 0b1101101, 0b1101110, 0b1101111, 0b1101111, 0b1110000,
   0b1110001, 0b1110010, 0b1110011, 0b1110011, 0b1110100, 0b1110101, 0b1110110, 0b1110110, 0b1110111,
   0b1111000, 0b1111001, 0b1111001, 0b1111010, 0b1111011, 0b1111100, 0b1111100, 0b1111101, 0b1111110,
   0b1111111, 0b1111111]

/-- The function `our_log2`.

* `int logInt = log2(x)` is the truncated binary logarithm of the integer `x`,
  the position of its most significant set bit (`Nat.log2`): the binary64
  logarithm of a positive `int` is exact at the powers of two and stays more
  than a rounding error below the next integer elsewhere.  The source leaves
  `x ≤ 0` undefined (its zero guard is commented out); `Nat.log2` gives 0.
* `& 0x7f` on a two's-complement `int` is the remainder modulo 128.
* the other steps are binary64 operations, each rounded by `fl`, with
  conversions to `int` by `truncQ`.  For `x ≥ 2 ^ 24` the product `x * 128`
  leaves the range of `int`; the embedding keeps its mathematical value. -/
def our_log2 (d : Int) : Int :=
  let x : Int := d
  let logInt : Int := (Nat.log2 x.toNat : Int)
  let norm : ℚ := ((truncQ (fl ((x : ℚ) * 128)) >>> logInt.toNat : Int) : ℚ)
  let normTrunc : Int := truncQ (fl (((truncQ (fl (norm * 128)) : Int) : ℚ) / 128))
  let logFrac : Int := log2_approx_c.getD (normTrunc % 128).toNat 0
  let roundFrac : ℚ := fl (((truncQ (fl ((logFrac : ℚ) * 128)) : Int) : ℚ) / 128)
  truncQ (fl (((logInt * 2 ^ 7 : Int) : ℚ) + roundFrac))

/-- The function `aln2mapq`.  The read length arrives as a `double` and is
converted to the `int` parameter of `our_log2`.  A zero divisor (read length 1)
makes the C++ quotient infinite; the rational quotient is 0. -/
def aln2mapq (snpCost : Int) (read_len_avg : ℚ) : Int :=
  let log2_length : Int := our_log2 (truncQ read_len_avg)
  let aln2mapq : ℚ :=
    fl (mapqCoeffScaled snpCost / (((log2_length * log2_length) >>> (7 : Nat) : Int) : ℚ))
  truncQ (fl (aln2mapq * ((1 <<< 20 : Nat) : ℚ)))

/-- The function `mapq2aln`:
`pow(log(readLength) / log(2), 2) / mapqCoeffScaled(snpCost)`. -/
def mapq2aln (m : Libm) (snpCost : Int) (readLength : ℚ) : ℚ :=
  let mapq2aln : ℚ :=
    fl (m.pow (fl (m.log readLength / m.log 2)) 2 / mapqCoeffScaled snpCost)
  mapq2aln

/-- The function `computeMapq`; `>> 13` on `int` is the arithmetic shift. -/
def computeMapq (snpCost : Int) (as xs : Int) (n1 : ℚ) : Int :=
  let s1 := as
  let s2 := xs
  let a2m_scale : Int := aln2mapq snpCost n1
  let mapq : Int := ((s1 - s2) * a2m_scale) >>> (13 : Nat)
  mapq

/-- Entry `log2_approx_c[i]` of the table (0 outside it). -/
def log2Tab (i : Nat) : Int := log2_approx_c.getD i 0

/-! ## Data model of PairBuilder.cpp

The classes below are declared in headers other than `Mapq.hpp`; their shape
is taken from the specification and from the way `PairBuilder.cpp` uses
them. -/

/-- Modelled from the spec: class `Alignment` (its header is missing), one
candidate placement of one read end: reference position, orientation, score,
the MAPQ and XS fields written by this code, the unmapped flag and the
ineligibility flag. -/
structure Alignment where
  position : Int
  reverseComplement : Bool
  score : Int
  mapq : Int
  xs : Int
  unmapped : Bool
  ineligible : Bool
deriving DecidableEq, Repr, Inhabited

/-- The container `Alignments`, a vector of `Alignment`. -/
abbrev Alignments := List Alignment

/-- Modelled from the spec: `UnpairedAlignments` (its header is missing), the
two per-end pools that own every candidate alignment. -/
structure UnpairedAlignments where
  end0 : Alignments
  end1 : Alignments
deriving DecidableEq, Repr

/-- Modelled from the spec: class `AlignmentPair` (its header is missing), a
pairing of one alignment per read end with a combined score fixed when the pair
is built.  The pair refers to its alignments by identity; a reference is the
index of the alignment in the pool of its end. -/
structure AlignmentPair where
  first : Nat
  second : Nat
  score : Int
deriving DecidableEq, Repr, Inhabited

/-- The container `AlignmentPairs`, a vector of `AlignmentPair`. -/
abbrev AlignmentPairs := List AlignmentPair

/-- The pool `unpairedAlignments[readIdx]`; `readIdx` is `false` for end 0
and `true` for end 1, so that `!readIdx` is the other end. -/
def UnpairedAlignments.get (ua : UnpairedAlignments) (readIdx : Bool) : Alignments :=
  if readIdx then ua.end1 else ua.end0

/-- Replacement of the pool of one end. -/
def UnpairedAlignments.put (ua : UnpairedAlignments) (readIdx : Bool) (l : Alignments) :
    UnpairedAlignments :=
  if readIdx then { ua with end1 := l } else { ua with end0 := l }

/-- The reference held by a pair for one end. -/
def AlignmentPair.idx (p : AlignmentPair) (readIdx : Bool) : Nat :=
  if readIdx then p.second else p.first

/-- The accessor `pair.at(readIdx)`: the alignment the pair refers to. -/
def AlignmentPair.alnAt (p : AlignmentPair) (ua : UnpairedAlignments) (readIdx : Bool) : Alignment :=
  (ua.get readIdx).getD (p.idx readIdx) default

/-- An in-place update of the alignment `pair.at(readIdx)`. -/
def AlignmentPair.modifyAt (p : AlignmentPair) (ua : UnpairedAlignments) (readIdx : Bool)
    (f : Alignment → Alignment) : UnpairedAlignments :=
  ua.put readIdx ((ua.get readIdx).modify f (p.idx readIdx))

/-- The orientation classes of `InsertSizeParameters::Orientation`. -/
inductive Orientation where
  | pe_orient_fr_c
  | pe_orient_rf_c
  | pe_orient_ff_c
  | pe_orient_rr_c
deriving DecidableEq, Repr

/-- Modelled from the spec: `InsertSizeParameters` (its header is missing):
expected orientation, mean insert size and the 4.12 fixed-point sigma factor
returned by `getSigmaFactor()`. -/
structure InsertSizeParameters where
  orientation_ : Orientation
  mean_ : Int
  sigmaFactor : Int
deriving DecidableEq, Repr

/-- Modelled from the spec: `map::SeedChain` (its header is missing), as far
as `computePairPenalty` reads it.  The reference positions are the values held
after their conversion to `int`. -/
structure SeedChain where
  firstReferencePosition : Int
  lastReferencePosition : Int
  lastReadBase : Int
  isReverseComplement : Bool
deriving DecidableEq, Repr

/-- Modelled from the spec: `ReadPair` (its header is missing): the length of
each read and the combined length `readPair.getLength()`. -/
structure ReadPair where
  length0 : Int
  length1 : Int
  length : ℚ
deriving DecidableEq, Repr

/-- The configuration members of `PairBuilder` read by this code. -/
structure PairBuilder where
  /-- the value of `similarity_.getSnpCost()` -/
  snpCost : Int
  alnMinScore_ : Int
  aln_cfg_unpaired_pen_ : Int
  aln_cfg_mapq_min_len_ : Int
deriving DecidableEq, Repr

/-- Collaborators declared outside `Mapq.hpp` and `PairBuilder.cpp`. -/
structure External where
  /-- the C math library -/
  libm : Libm
  /-- the constant `INVALID_SCORE` of `align/Score.hpp` -/
  INVALID_SCORE : Int
  /-- the predicate `Alignment::isDuplicate` -/
  isDuplicate : Alignment → Alignment → Bool
  /-- the predicate `Alignment::isOverlap` -/
  isOverlap : Alignment → Alignment → Bool
  /-- the single-end helper `align::findSecondBestScore(snpCost, alignments,
  best, sub_count)` of `SinglePicker`; `best` is the index of the best
  alignment in `alignments`, and the count it writes is discarded by the
  caller -/
  findSecondBestScore : Int → Alignments → Nat → Int

/-! ## PairBuilder.cpp -/

/-- The ROM `petab_rom_c`. -/
def petab_rom_c : List Int :=
  [0x00, 0x00, 0x00, 0x00, 0x00, 0x00, 0x00, 0x01, 0x01, 0x01, 0x01, 0x01, 0x01, 0x01, 0x01, 0x01, 0x01,
   0x01, 0x02, 0x02, 0x02, 0x02, 0x02, 0x02, 0x02, 0x02, 0x02, 0x02, 0x03, 0x03, 0x03, 0x03, 0x03, 0x03,
   0x03, 0x03, 0x04, 0x04, 0x04, 0x04, 0x04, 0x04, 0x04, 0x04, 0x05, 0x05, 0x05, 0x05, 0x05, 0x05, 0x05,
   0x06, 0x06, 0x06, 0x06, 0x06, 0x06, 0x06, 0x07, 0x07, 0x07, 0x07, 0x07, 0x07, 0x08, 0x08, 0x08, 0x08,
   0x08, 0x08, 0x09, 0x09, 0x09, 0x09, 0x09, 0x0A, 0x0A, 0x0A, 0x0A, 0x0A, 0x0A, 0x0B, 0x0B, 0x0B, 0x0B,
   0x0B, 0x0C, 0x0C, 0x0C, 0x0C, 0x0D, 0x0D, 0x0D, 0x0D, 0x0D, 0x0E, 0x0E, 0x0E, 0x0E, 0x0E, 0x0F, 0x0F,
   0x0F, 0x0F, 0x10, 0x10, 0x10, 0x10, 0x11, 0x11, 0x11, 0x11, 0x12, 0x12, 0x12, 0x12, 0x13, 0x13, 0x13,
   0x13, 0x14, 0x14, 0x14, 0x14, 0x15, 0x15, 0x15, 0x16, 0x16, 0x16, 0x16, 0x17, 0x17, 0x17, 0x18, 0x18,
   0x18, 0x18, 0x19, 0x19, 0x19, 0x1A, 0x1A, 0x1A, 0x1A, 0x1B, 0x1B, 0x1B, 0x1C, 0x1C, 0x1C, 0x1D, 0x1D,
   0x1D, 0x1E, 0x1E, 0x1E, 0x1F, 0x1F, 0x1F, 0x20, 0x20, 0x20, 0x21, 0x21, 0x21, 0x22, 0x22, 0x22, 0x23,
   0x23, 0x23, 0x24, 0x24, 0x25, 0x25, 0x25, 0x26, 0x26, 0x26, 0x27, 0x27, 0x27, 0x28, 0x28, 0x29, 0x29,
   0x29, 0x2A, 0x2A, 0x2B, 0x2B, 0x2B, 0x2C, 0x2C, 0x2D, 0x2D, 0x2D, 0x2E, 0x2E, 0x2F, 0x2F, 0x2F, 0x30,
   0x30, 0x31, 0x31, 0x32, 0x32, 0x32, 0x33, 0x33, 0x34, 0x34, 0x35, 0x35, 0x35, 0x36, 0x36, 0x37, 0x37,
   0x38, 0x38, 0x39, 0x39, 0x39, 0x3A, 0x3A, 0x3B, 0x3B, 0x3C, 0x3C, 0x3D, 0x3D, 0x3E, 0x3E, 0x3F, 0x3F,
   0x40, 0x40, 0x41, 0x41, 0x42, 0x42, 0x42, 0x43, 0x43, 0x44, 0x44, 0x45, 0x45, 0x46, 0x46, 0x47, 0x48,
   0x48, 0x49, 0x49, 0x4A, 0x4A, 0x4B, 0x4B, 0x4C, 0x4C, 0x4D, 0x4D, 0x4E, 0x4E, 0x4F, 0x4F, 0x50, 0x51,
   0x51, 0x52, 0x52, 0x53, 0x53, 0x54, 0x54, 0x55, 0x55, 0x56, 0x57, 0x57, 0x58, 0x58, 0x59, 0x59, 0x5A,
   0x5B, 0x5B, 0x5C, 0x5C, 0x5D, 0x5E, 0x5E, 0x5F, 0x5F, 0x60, 0x61, 0x61, 0x62, 0x62, 0x63, 0x64, 0x64,
   0x65, 0x65, 0x66, 0x67, 0x67, 0x68, 0x68, 0x69, 0x6A, 0x6A, 0x6B, 0x6C, 0x6C, 0x6D, 0x6E, 0x6E, 0x6F,
   0x6F, 0x70, 0x71, 0x71, 0x72, 0x73, 0x73, 0x74, 0x75, 0x75, 0x76, 0x77, 0x77, 0x78, 0x79, 0x79, 0x7A,
   0x7B, 0x7B, 0x7C, 0x7D, 0x7D, 0x7E, 0x7F, 0x7F, 0x80, 0x81, 0x82, 0x82, 0x83, 0x84, 0x84, 0x85, 0x86,
   0x86, 0x87, 0x88, 0x89, 0x89, 0x8A, 0x8B, 0x8B, 0x8C, 0x8D, 0x8E, 0x8E, 0x8F, 0x90, 0x91, 0x91, 0x92,
   0x93, 0x94, 0x94, 0x95, 0x96, 0x97, 0x97, 0x98, 0x99, 0x9A, 0x9A, 0x9B, 0x9C, 0x9D, 0x9D, 0x9E, 0x9F,
   0xA0, 0xA0, 0xA1, 0xA2, 0xA3, 0xA4, 0xA4, 0xA5, 0xA6, 0xA7, 0xA8, 0xA8, 0xA9, 0xAA, 0xAB, 0xAC, 0xAC,
   0xAD, 0xAE, 0xAF, 0xB0, 0xB0, 0xB1, 0xB2, 0xB3, 0xB4, 0xB5, 0xB5, 0xB6, 0xB7, 0xB8, 0xB9, 0xBA, 0xBA,
   0xBB, 0xBC, 0xBD, 0xBE, 0xBF, 0xBF, 0xC0, 0xC1, 0xC2, 0xC3, 0xC4, 0xC5, 0xC5, 0xC6, 0xC7, 0xC8, 0xC9,
   0xCA, 0xCB, 0xCC, 0xCC, 0xCD, 0xCE, 0xCF, 0xD0, 0xD1, 0xD2, 0xD3, 0xD4, 0xD4, 0xD5, 0xD6, 0xD7, 0xD8,
   0xD9, 0xDA, 0xDB, 0xDC, 0xDD, 0xDD, 0xDE, 0xDF, 0xE0, 0xE1, 0xE2, 0xE3, 0xE4, 0xE5, 0xE6, 0xE7, 0xE8,
   0xE9, 0xEA, 0xEA, 0xEB, 0xEC, 0xED, 0xEE, 0xEF, 0xF0, 0xF1, 0xF2, 0xF3, 0xF4, 0xF5, 0xF6, 0xF7, 0xF8,
   0xF9, 0xFA, 0xFB, 0xFC, 0xFD, 0xFE, 0xFF, 0xFF, 0xFF, 0xFF, 0xFF, 0xFF, 0xFF, 0xFF, 0xFF, 0xFF, 0xFF,
   0xFF, 0xFF]

/-- Conversion of an `int` to `uint32_t` / `unsigned`. -/
def toUInt32 (v : Int) : Int := v % 2 ^ 32

/-- Conversion of a 32-bit unsigned value to `int`. -/
def toInt32 (v : Int) : Int := if v % 2 ^ 32 < 2 ^ 31 then v % 2 ^ 32 else v % 2 ^ 32 - 2 ^ 32

/-- The ROM address `ins_prod_q` of `computePairPenalty` for two chains. -/
def petabAddress (insertSizeParameters : InsertSizeParameters) (c1 c2 : SeedChain) : Int :=
  let inp_eff_beg : Int := c1.firstReferencePosition
  let inp_eff_end : Int := c1.lastReferencePosition
  let rct_eff_beg : Int := c2.firstReferencePosition
  let rct_eff_end : Int := c2.lastReferencePosition
  let insert : Int × Int :=
    if insertSizeParameters.orientation_ = Orientation.pe_orient_ff_c ∨
        insertSizeParameters.orientation_ = Orientation.pe_orient_rr_c then
      (toUInt32 (min inp_eff_beg rct_eff_beg), toUInt32 (max inp_eff_end rct_eff_end))
    else if xor (decide (insertSizeParameters.orientation_ = Orientation.pe_orient_fr_c))
        c1.isReverseComplement then
      (toUInt32 inp_eff_beg, toUInt32 rct_eff_end)
    else
      (toUInt32 rct_eff_beg, toUInt32 inp_eff_end)
  let insert_beg : Int := insert.1
  let insert_end : Int := insert.2
  let insert_len : Int := toInt32 (toUInt32 (insert_end - insert_beg + 1))
  let insert_diff : Int := |insert_len - insertSizeParameters.mean_|
  let ins_prod : Int := toUInt32 (insert_diff * insertSizeParameters.sigmaFactor)
  let sigma_factor_frac_bits_c : Nat := 12
  let petab_addr_bits_c : Nat := 9
  let ins_prod_q : Int :=
    (((1 <<< petab_addr_bits_c) - 1 : Nat) &&& (ins_prod.toNat >>> sigma_factor_frac_bits_c) : Nat)
  ins_prod_q

/-- The function `PairBuilder::computePairPenalty`.  The chains are pointers
that may be null.  The two query end gaps the source computes first are never
read and are left out; the computation of the ROM address is `petabAddress`. -/
def computePairPenalty (pb : PairBuilder) (m : Libm)
    (insertSizeParameters : InsertSizeParameters) (readPair : ReadPair)
    (c1 c2 : Option SeedChain) (properPair : Bool) : Int :=
  let m2a_penalty : Int :=
    match c1, c2, properPair with
    | some c1, some c2, true =>
      let ins_prod_q : Int := petabAddress insertSizeParameters c1 c2
      if ins_prod_q < (petab_rom_c.length : Int) then petab_rom_c.getD ins_prod_q.toNat 0
      else pb.aln_cfg_unpaired_pen_
    | _, _, _ => pb.aln_cfg_unpaired_pen_
  let m2a_scale : ℚ := mapq2aln m pb.snpCost readPair.length
  let m2a_prod : Int := truncQ (fl (m2a_scale * (m2a_penalty : ℚ)))
  let m2a_prod_pen : Int := m2a_prod
  m2a_prod_pen

/-- The first loop of `PairBuilder::findSecondBest`: the iterator `ret`, as
the position and the pair it points at (`none` is `pairs.end()`). -/
def findSecondBestLoop (ext : External) (ua : UnpairedAlignments) (best : AlignmentPair)
    (readIdx : Bool) (pairs : List (Nat × AlignmentPair)) (init : Option (Nat × AlignmentPair)) :
    Option (Nat × AlignmentPair) :=
  pairs.foldl
    (fun ret it =>
      if (ret.isNone || decide ((ret.map (fun r => r.2.score)).getD 0 < it.2.score)) &&
          !ext.isDuplicate (best.alnAt ua readIdx) (it.2.alnAt ua readIdx) &&
          ext.isOverlap (best.alnAt ua readIdx) (it.2.alnAt ua readIdx) then
        some it
      else ret)
    init

/-- The loop of `findSecondBest` that counts the pairs scoring in
`(list_pe_min, list_pe_max]`. -/
def countNearSubPairs (pairs : AlignmentPairs) (list_pe_min list_pe_max : Int) (sub_count : Int) :
    Int :=
  pairs.foldl
    (fun c it => if it.score > list_pe_min ∧ it.score ≤ list_pe_max then c + 1 else c)
    sub_count

/-- The loop of `findSecondBest` that computes `other_best_scr`: the best
score at the other end over all candidates except the object the best pair
uses there. -/
def otherBestScore (alnMinScore_ : Int) (others : Alignments) (bestIdx : Nat) : Int :=
  others.enum.foldl
    (fun other_best_scr oe => if oe.1 ≠ bestIdx then max other_best_scr oe.2.score else other_best_scr)
    alnMinScore_

/-- The loop of `findSecondBest` that counts the mapped single-end candidates
scoring in `(list_se_min, list_se_max]`. -/
def countNearSubSingle (alignments : Alignments) (list_se_min list_se_max : Int) (sub_count : Int) :
    Int :=
  alignments.foldl
    (fun c it =>
      if !it.unmapped ∧ it.score > list_se_min ∧ it.score ≤ list_se_max then c + 1 else c)
    sub_count

/-- The function `PairBuilder::findSecondBest`.  The iterator `best` is only
dereferenced, so it is passed as the pair it points at; the result is the
returned iterator (`none` for `pairs.end()`, else position and pair) and the
final value of the reference parameter `sub_count`. -/
def findSecondBest (pb : PairBuilder) (ext : External) (averageReadLength : Int)
    (pairs : AlignmentPairs) (unpairedAlignments : UnpairedAlignments) (best : AlignmentPair)
    (readIdx : Bool) (sub_count : Int) : Option (Nat × AlignmentPair) × Int :=
  let ret := findSecondBestLoop ext unpairedAlignments best readIdx pairs.enum none
  match ret with
  | none => (none, sub_count)
  | some r =>
    let list_pe_max : Int := r.2.score
    let list_pe_min : Int := list_pe_max - pb.snpCost
    let sub_count := countNearSubPairs pairs list_pe_min list_pe_max sub_count
    let other_best_scr : Int :=
      otherBestScore pb.alnMinScore_ (unpairedAlignments.get (!readIdx)) (best.idx (!readIdx))
    let m2a_scale : ℚ := mapq2aln ext.libm pb.snpCost (averageReadLength : ℚ)
    let scaled_max_pen : Int := truncQ (fl (m2a_scale * (pb.aln_cfg_unpaired_pen_ : ℚ)))
    let list_se_max : Int := r.2.score - other_best_scr + scaled_max_pen
    let list_se_min : Int := list_se_max - pb.snpCost
    let sub_count :=
      countNearSubSingle (unpairedAlignments.get readIdx) list_se_min list_se_max sub_count
    (some r, sub_count)

/-- The function `PairBuilder::findSecondBestScore`: the returned score and
the final values of the reference parameters `sub_count` and
`secondBestPeScore`. -/
def findSecondBestScore (pb : PairBuilder) (ext : External) (averageReadLength : Int)
    (pairs : AlignmentPairs) (unpairedAlignments : UnpairedAlignments) (best : AlignmentPair)
    (readIdx : Bool) (sub_count : Int) (secondBestPeScore : Int) : Int × Int × Int :=
  let found :=
    findSecondBest pb ext averageReadLength pairs unpairedAlignments best readIdx sub_count
  let secondBest := found.1
  let sub_count := found.2
  let secondBestSeScore : Int :=
    ext.findSecondBestScore pb.snpCost (unpairedAlignments.get readIdx) (best.idx readIdx)
  match secondBest with
  | some r =>
    let secondBestPeScore := r.2.score
    (max secondBestSeScore (r.2.alnAt unpairedAlignments readIdx).score, sub_count,
      secondBestPeScore)
  | none => (secondBestSeScore, sub_count, secondBestPeScore)

/-- The penalty `sub_mapq_pen_v` of `updateEndMapq`:
`sub_count ? 3.0 * std::log2(sub_count) : 0`, converted to `int`. -/
def subMapqPenalty (m : Libm) (sub_count : Int) : Int :=
  truncQ (if sub_count ≠ 0 then fl (3 * m.log2 (sub_count : ℚ)) else 0)

/-- The function `PairBuilder::updateEndMapq`; the result is the state of the
alignment pools after the call. -/
def updateEndMapq (pb : PairBuilder) (ext : External) (averageReadLength : Int)
    (pairs : AlignmentPairs) (unpairedAlignments : UnpairedAlignments) (best : AlignmentPair)
    (readIdx : Bool) : UnpairedAlignments :=
  if (best.alnAt unpairedAlignments readIdx).unmapped then
    best.modifyAt unpairedAlignments readIdx (fun a => { a with mapq := 0 })
  else
    let sub_count : Int := 0
    let secondBestPairScore : Int := ext.INVALID_SCORE
    let found := findSecondBestScore pb ext averageReadLength pairs unpairedAlignments best
      readIdx sub_count secondBestPairScore
    let secondBestScore : Int := found.1
    let sub_count : Int := found.2.1
    let secondBestPairScore : Int := found.2.2
    let a2m_mapq : Int :=
      computeMapq pb.snpCost best.score (max pb.alnMinScore_ secondBestPairScore)
        ((max pb.aln_cfg_mapq_min_len_ averageReadLength : Int) : ℚ)
    let sub_mapq_pen_v : Int := subMapqPenalty ext.libm sub_count
    let ua1 := best.modifyAt unpairedAlignments readIdx
      (fun a => { a with mapq := a2m_mapq - sub_mapq_pen_v })
    best.modifyAt ua1 readIdx
      (fun a =>
        { a with xs := if secondBestScore ≥ pb.alnMinScore_ then secondBestScore
                       else ext.INVALID_SCORE })

/-- The function `PairBuilder::updateMapq`. -/
def updateMapq (pb : PairBuilder) (ext : External) (readLength : Int) (pairs : AlignmentPairs)
    (unpairedAlignments : UnpairedAlignments) (best : AlignmentPair) : UnpairedAlignments :=
  let ua1 := updateEndMapq pb ext readLength pairs unpairedAlignments best false
  updateEndMapq pb ext readLength pairs ua1 best true

/-- The algorithm `std::max_element(first, last, comp)` over a vector: the
iterator it returns, as position and element (`none` when the range is empty).
The first element is the initial largest; a later element replaces it when
`comp largest element` holds. -/
def max_element {α : Type} (comp : α → α → Bool) (l : List α) : Option (Nat × α) :=
  match l.enum with
  | [] => none
  | first :: rest =>
    some (rest.foldl (fun largest it => if comp largest.2 it.2 then it else largest) first)

/-- The function `PairBuilder::pickBest`: the returned iterator (`none` for
`alignmentPairs.end()`, else the position of the pair) and the state of the
alignment pools after the call. -/
def pickBest (pb : PairBuilder) (ext : External) (readPair : ReadPair)
    (alignmentPairs : AlignmentPairs) (unpairedAlignments : UnpairedAlignments) :
    Option Nat × UnpairedAlignments :=
  if alignmentPairs.isEmpty then (none, unpairedAlignments)
  else
    match max_element (fun left right => decide (left.score < right.score)) alignmentPairs with
    | none => (none, unpairedAlignments)
    | some best =>
      if (best.2.alnAt unpairedAlignments false).ineligible = true ∧
          (best.2.alnAt unpairedAlignments true).ineligible = true then
        (none, unpairedAlignments)
      else
        (some best.1,
          updateMapq pb ext (truncQ readPair.length) alignmentPairs unpairedAlignments best.2)

/-! ## Auxiliary definitions for the theorems -/

/-- The comparison step of `std::max_element` as instantiated by `pickBest`. -/
def maxStep (largest it : Nat × AlignmentPair) : Nat × AlignmentPair :=
  if (fun (left right : AlignmentPair) => decide (left.score < right.score)) largest.2 it.2
  then it else largest

/-- The pair `p` stands at position `i` of `pairs` and is the first pair of
maximum combined score: no pair scores more, every earlier pair scores less. -/
def IsFirstMax (pairs : AlignmentPairs) (i : Nat) (p : AlignmentPair) : Prop :=
  pairs[i]? = some p ∧ (∀ q ∈ pairs, q.score ≤ p.score) ∧
    ∀ j q, j < i → pairs[j]? = some q → q.score < p.score

/-! ## Example data -/

/-- Values of the platform math library (glibc, binary64, written as exact
rationals) at the arguments that occur in the examples of this file; no other
argument is used by them. -/
def exampleLibm : Libm where
  log := fun x =>
    if x = 2 then 6243314768165359 / 9007199254740992
    else if x = 150 then 2820736905422669 / 562949953421312
    else 0
  log2 := fun x =>
    if x = 2 then 1
    else if x = 3 then 892254565955501 / 562949953421312
    else if x = 4 then 2
    else 0
  pow := fun x y => if y = 2 then fl (x * x) else 0

/-- A configuration: SNP cost 5, minimum score 22, unpaired penalty 80,
minimum length 50 for the MAPQ scale. -/
def examplePairBuilder : PairBuilder :=
  { snpCost := 5, alnMinScore_ := 22, aln_cfg_unpaired_pen_ := 80, aln_cfg_mapq_min_len_ := 50 }

/-- Collaborators for the examples: two alignments are duplicates when they
share position and strand, and overlap when they lie within 150 bases of each
other; the single-end helper finds no second best. -/
def exampleExternal : External :=
  { libm := exampleLibm
    INVALID_SCORE := -2147483648
    isDuplicate := fun a b =>
      decide (a.position = b.position) && decide (a.reverseComplement = b.reverseComplement)
    isOverlap := fun a b => decide (|a.position - b.position| < 150)
    findSecondBestScore := fun _ _ _ => -2147483648 }

/-- A pair of 150-base reads. -/
def exampleReadPair : ReadPair := { length0 := 150, length1 := 150, length := 150 }

/-- A mapped, eligible candidate with MAPQ and XS not yet written. -/
def exampleAlignment (position score : Int) (reverseComplement : Bool) : Alignment :=
  { position := position, reverseComplement := reverseComplement, score := score,
    mapq := -1, xs := -2147483648, unmapped := false, ineligible := false }

/-- Insert-size statistics: forward-reverse pairs, mean 500, sigma factor
3860 (standard deviation 50). -/
def exampleInsertSizeParameters : InsertSizeParameters :=
  { orientation_ := Orientation.pe_orient_fr_c, mean_ := 500, sigmaFactor := 3860 }

/-- Pools in which the first candidate of each end is flagged ineligible. -/
def ineligibleTopPools : UnpairedAlignments :=
  { end0 := [{ exampleAlignment 1000 60 false with ineligible := true },
             exampleAlignment 5000 40 false]
    end1 := [{ exampleAlignment 1300 60 true with ineligible := true },
             exampleAlignment 5300 40 true] }

/-- Two candidate pairs over `ineligibleTopPools`: the top-scoring pair joins
the two ineligible candidates, the other pair the two eligible ones. -/
def ineligibleTopPairs : AlignmentPairs :=
  [{ first := 0, second := 0, score := 110 }, { first := 1, second := 1, score := 70 }]

/-- Pools in which every candidate is eligible. -/
def eligiblePools : UnpairedAlignments :=
  { end0 := [exampleAlignment 1000 60 false, exampleAlignment 5000 40 false]
    end1 := [exampleAlignment 1300 60 true, exampleAlignment 5300 40 true] }

/-- Pools whose end-0 candidate is unmapped. -/
def unmappedPools : UnpairedAlignments :=
  { end0 := [{ exampleAlignment 0 0 false with unmapped := true }]
    end1 := [exampleAlignment 1300 60 true] }

/-! ## Auxiliary definitions: the steps of `computePairPenalty` -/

/-- The pair `(insert_beg, insert_end)` of `computePairPenalty`, two
`uint32_t` values. -/
def insertSpan (insertSizeParameters : InsertSizeParameters) (c1 c2 : SeedChain) : Int × Int :=
  let inp_eff_beg : Int := c1.firstReferencePosition
  let inp_eff_end : Int := c1.lastReferencePosition
  let rct_eff_beg : Int := c2.firstReferencePosition
  let rct_eff_end : Int := c2.lastReferencePosition
  if insertSizeParameters.orientation_ = Orientation.pe_orient_ff_c ∨
      insertSizeParameters.orientation_ = Orientation.pe_orient_rr_c then
    (toUInt32 (min inp_eff_beg rct_eff_beg), toUInt32 (max inp_eff_end rct_eff_end))
  else if xor (decide (insertSizeParameters.orientation_ = Orientation.pe_orient_fr_c))
      c1.isReverseComplement then
    (toUInt32 inp_eff_beg, toUInt32 rct_eff_end)
  else
    (toUInt32 rct_eff_beg, toUInt32 inp_eff_end)

/-- The value `insert_len` of `computePairPenalty`. -/
def insertLen (insertSizeParameters : InsertSizeParameters) (c1 c2 : SeedChain) : Int :=
  toInt32 (toUInt32 ((insertSpan insertSizeParameters c1 c2).2
    - (insertSpan insertSizeParameters c1 c2).1 + 1))

/-- The value `insert_diff` of `computePairPenalty`, the deviation of the
insert length from the mean. -/
def insertDiff (insertSizeParameters : InsertSizeParameters) (c1 c2 : SeedChain) : Int :=
  |insertLen insertSizeParameters c1 c2 - insertSizeParameters.mean_|

/-- The value `ins_prod >> sigma_factor_frac_bits_c` of `computePairPenalty`,
the quantized deviation before the address mask. -/
def quantizedDeviation (insertSizeParameters : InsertSizeParameters) (c1 c2 : SeedChain) : Nat :=
  (toUInt32 (insertDiff insertSizeParameters c1 c2 * insertSizeParameters.sigmaFactor)).toNat
    >>> 12

/-- Entry `petab_rom_c[i]` of the ROM (0 outside it). -/
def petabTab (i : Nat) : Int := petab_rom_c.getD i 0

/-- Insert-size statistics with sigma factor 4096, that is 1.0 in 4.12 fixed
point: the quantized deviation is the deviation itself. -/
def unitSigmaParameters : InsertSizeParameters :=
  { orientation_ := Orientation.pe_orient_fr_c, mean_ := 500, sigmaFactor := 4096 }

/-- A seed chain covering the reference interval `[first, last]` and the first
100 read bases. -/
def exampleChain (first last : Int) (isReverseComplement : Bool) : SeedChain :=
  { firstReferencePosition := first, lastReferencePosition := last, lastReadBase := 99,
    isReverseComplement := isReverseComplement }

/-- Check that a list of integers is non-decreasing, entry by entry. -/
def nondecreasing : List Int → Bool
  | a :: b :: t => decide (a ≤ b) && nondecreasing (b :: t)
  | _ => true

/-! ## Auxiliary definitions: the second-best search -/

/-- The filter of the first loop of `findSecondBest`: the alignment of `p` at
`readIdx` is not a duplicate of, and overlaps, the alignment of the best pair
at `readIdx`. -/
def passesFilter (ext : External) (ua : UnpairedAlignments) (best : AlignmentPair)
    (readIdx : Bool) (p : AlignmentPair) : Bool :=
  !ext.isDuplicate (best.alnAt ua readIdx) (p.alnAt ua readIdx) &&
    ext.isOverlap (best.alnAt ua readIdx) (p.alnAt ua readIdx)

/-- The body of the first loop of `findSecondBest`. -/
def secondBestStep (ext : External) (ua : UnpairedAlignments) (best : AlignmentPair)
    (readIdx : Bool) (ret : Option (Nat × AlignmentPair)) (it : Nat × AlignmentPair) :
    Option (Nat × AlignmentPair) :=
  if (ret.isNone || decide ((ret.map (fun r => r.2.score)).getD 0 < it.2.score)) &&
      !ext.isDuplicate (best.alnAt ua readIdx) (it.2.alnAt ua readIdx) &&
      ext.isOverlap (best.alnAt ua readIdx) (it.2.alnAt ua readIdx) then
    some it
  else ret

/-- The pair `p` stands at position `i` of `pairs`, passes the filter `f`, and
is the first pair of maximum combined score among the pairs that pass it. -/
def IsFirstMaxAmong (f : AlignmentPair → Bool) (pairs : AlignmentPairs) (i : Nat)
    (p : AlignmentPair) : Prop :=
  pairs[i]? = some p ∧ f p = true ∧ (∀ q ∈ pairs, f q = true → q.score ≤ p.score) ∧
    ∀ j q, j < i → pairs[j]? = some q → f q = true → q.score < p.score

/-- A configuration with SNP cost 6. -/
def snp6PairBuilder : PairBuilder :=
  { snpCost := 6, alnMinScore_ := 22, aln_cfg_unpaired_pen_ := 80, aln_cfg_mapq_min_len_ := 50 }

/-- Pools with two candidates per end that overlap and are not duplicates of
each other (same strand, 10 bases apart). -/
def overlapPools : UnpairedAlignments :=
  { end0 := [exampleAlignment 1000 50 false, exampleAlignment 1010 45 false]
    end1 := [exampleAlignment 1300 50 true, exampleAlignment 1310 45 true] }

/-- The top pair of `twoPairs`, of combined score 100. -/
def topPair : AlignmentPair := { first := 0, second := 0, score := 100 }

/-- The other pair of `twoPairs`, of combined score `s`. -/
def otherPair (s : Int) : AlignmentPair := { first := 1, second := 1, score := s }

/-- Two candidate pairs over `overlapPools`, scoring 100 and `s`. -/
def twoPairs (s : Int) : AlignmentPairs := [topPair, otherPair s]

/-- The divisor of `aln2mapq`: `(log2_length * log2_length) >> 7` with
`log2_length = our_log2(read_len_avg)`. -/
def aln2mapqDivisor (read_len_avg : ℚ) : Int :=
  let log2_length : Int := our_log2 (truncQ read_len_avg)
  (log2_length * log2_length) >>> (7 : Nat)

/-- Pools with two candidates per end, all of score 50, that overlap and are
not duplicates of each other (same strand, 10 bases apart). -/
def tiePools : UnpairedAlignments :=
  { end0 := [exampleAlignment 1000 50 false, exampleAlignment 1010 50 false]
    end1 := [exampleAlignment 1300 50 true, exampleAlignment 1310 50 true] }

/-- Two candidate pairs over `tiePools` that tie at combined score 100. -/
def tiePairs : AlignmentPairs := [topPair, otherPair 100]

/-- The fields of an alignment other than MAPQ and XS: position, strand,
score, unmapped flag and ineligibility flag. -/
def Alignment.frame (a : Alignment) : Int × Bool × Int × Bool × Bool :=
  (a.position, a.reverseComplement, a.score, a.unmapped, a.ineligible)

/-! ## Binary64 rounding: basic facts -/

theorem truncQ_intCast (z : Int) : truncQ (z : ℚ) = z := by
  unfold truncQ
  split <;> simp

theorem roundHalfEven_intCast (z : Int) : roundHalfEven (z : ℚ) = z := by
  unfold roundHalfEven
  simp

theorem roundHalfEven_nonneg {q : ℚ} (h : 0 ≤ q) : 0 ≤ roundHalfEven q := by
  have hf : 0 ≤ ⌊q⌋ := Int.floor_nonneg.mpr h
  unfold roundHalfEven
  simp only
  split_ifs <;> omega

theorem fl_nonneg {q : ℚ} (h : 0 ≤ q) : 0 ≤ fl q := by
  unfold fl
  split_ifs with h0
  · exact le_refl _
  · simp only
    have hu : (0 : ℚ) < (2 : ℚ) ^ (Int.log 2 |q| - 52) := by positivity
    have := roundHalfEven_nonneg (div_nonneg h hu.le)
    have h2 : (0 : ℚ) ≤ (roundHalfEven (q / (2 : ℚ) ^ (Int.log 2 |q| - 52)) : ℚ) := by exact_mod_cast this
    exact mul_nonneg h2 hu.le

theorem int_log_two_eq {r : ℚ} {e : Int} (hr : 0 < r) (h1 : (2 : ℚ) ^ e ≤ r)
    (h2 : r < (2 : ℚ) ^ (e + 1)) : Int.log 2 r = e := by
  have a : e ≤ Int.log 2 r := (Int.zpow_le_iff_le_log (by norm_num) hr).mp (by exact_mod_cast h1)
  have b : Int.log 2 r < e + 1 := (Int.lt_zpow_iff_log_lt (by norm_num) hr).mp (by exact_mod_cast h2)
  omega

theorem fl_eq_of_bounds {q : ℚ} {e : Int} (h1 : (2 : ℚ) ^ e ≤ |q|)
    (h2 : |q| < (2 : ℚ) ^ (e + 1)) :
    fl q = (roundHalfEven (q / (2 : ℚ) ^ (e - 52)) : ℚ) * (2 : ℚ) ^ (e - 52) := by
  have hpos : 0 < |q| := lt_of_lt_of_le (by positivity) h1
  have hq : q ≠ 0 := abs_pos.mp hpos
  unfold fl
  rw [if_neg hq]
  simp only [int_log_two_eq hpos h1 h2]

theorem fl_dyadic (z j : Int) (hz : |z| < 2 ^ 53) : fl ((z : ℚ) * (2 : ℚ) ^ j) = (z : ℚ) * (2 : ℚ) ^ j := by
  by_cases h0 : z = 0
  · subst h0; simp [fl]
  have hzq : (z : ℚ) ≠ 0 := by exact_mod_cast h0
  have h2 : (2 : ℚ) ≠ 0 := by norm_num
  have hq : (z : ℚ) * (2 : ℚ) ^ j ≠ 0 := mul_ne_zero hzq (zpow_ne_zero _ h2)
  have hpos : 0 < |(z : ℚ) * (2 : ℚ) ^ j| := abs_pos.mpr hq
  set e := Int.log 2 |(z : ℚ) * (2 : ℚ) ^ j| with he
  have hle : (2 : ℚ) ^ e ≤ |(z : ℚ) * (2 : ℚ) ^ j| := by
    have := Int.zpow_log_le_self (R := ℚ) (b := 2) (by norm_num) hpos
    exact_mod_cast this
  have habs : |(z : ℚ) * (2 : ℚ) ^ j| = |(z : ℚ)| * (2 : ℚ) ^ j := by
    rw [abs_mul, abs_of_pos (zpow_pos (by norm_num : (0 : ℚ) < 2) j)]
  have hzlt : |(z : ℚ)| < (2 : ℚ) ^ (53 : Int) := by
    have : ((|z| : Int) : ℚ) < ((2 ^ 53 : Int) : ℚ) := by exact_mod_cast hz
    push_cast at this
    norm_num at this ⊢
    exact this
  have hlt : (2 : ℚ) ^ e < (2 : ℚ) ^ (53 + j) := by
    calc (2 : ℚ) ^ e ≤ |(z : ℚ)| * (2 : ℚ) ^ j := habs ▸ hle
      _ < (2 : ℚ) ^ (53 : Int) * (2 : ℚ) ^ j :=
          mul_lt_mul_of_pos_right hzlt (zpow_pos (by norm_num) j)
      _ = (2 : ℚ) ^ (53 + j) := by rw [zpow_add₀ h2]
  have hej : e < 53 + j := (zpow_lt_zpow_iff_right₀ (by norm_num : (1 : ℚ) < 2)).mp hlt
  obtain ⟨k, hk⟩ : ∃ k : Nat, (k : Int) = j - e + 52 := ⟨(j - e + 52).toNat, by omega⟩
  have hdiv : (z : ℚ) * (2 : ℚ) ^ j / (2 : ℚ) ^ (e - 52) = ((z * 2 ^ k : Int) : ℚ) := by
    have : j = (k : Int) + (e - 52) := by omega
    rw [this, zpow_add₀ h2, ← mul_assoc, mul_div_assoc, div_self (zpow_ne_zero _ h2)]
    push_cast
    simp
  unfold fl
  rw [if_neg hq]
  simp only
  rw [← he, hdiv, roundHalfEven_intCast]
  have : j = (k : Int) + (e - 52) := by omega
  rw [this, zpow_add₀ h2]
  push_cast
  simp [mul_assoc]

theorem fl_intCast (z : Int) (hz : |z| < 2 ^ 53) : fl (z : ℚ) = z := by
  simpa using fl_dyadic z 0 hz

theorem fl_div_128 (z : Int) (hz : |z| < 2 ^ 53) : fl ((z : ℚ) / 128) = (z : ℚ) / 128 := by
  have := fl_dyadic z (-7) hz
  have h : ((2 : ℚ) ^ (-7 : Int)) = 1 / 128 := by norm_num [zpow_neg]
  rw [h] at this
  simpa [div_eq_mul_inv] using this



/-! ## The fixed-point logarithm -/

theorem log2Tab_range : ∀ i : Nat, i < 128 → 0 ≤ log2Tab i ∧ log2Tab i ≤ 127 := by
  decide

theorem log2Tab_step : ∀ i : Nat, i < 127 → log2Tab i ≤ log2Tab (i + 1) := by
  decide

theorem norm_bounds (x k : Nat) (h1 : 2 ^ k ≤ x) (h2 : x < 2 ^ (k + 1)) :
    128 ≤ x * 128 / 2 ^ k ∧ x * 128 / 2 ^ k < 256 := by
  have hp : 0 < 2 ^ k := by positivity
  constructor
  · rw [Nat.le_div_iff_mul_le hp]
    nlinarith
  · rw [Nat.div_lt_iff_lt_mul hp]
    have : 2 ^ (k + 1) = 2 * 2 ^ k := by ring
    nlinarith

theorem our_log2_int (x : Nat) (h1 : 1 ≤ x) (h2 : x < 2 ^ 45) :
    our_log2 (x : Int)
      = (Nat.log2 x : Int) * 128 + log2Tab (x * 128 / 2 ^ Nat.log2 x - 128) := by
  have hx0 : x ≠ 0 := by omega
  have hk1 : 2 ^ Nat.log2 x ≤ x := Nat.log2_self_le hx0
  have hk2 : x < 2 ^ (Nat.log2 x + 1) := Nat.lt_log2_self
  obtain ⟨hn1, hn2⟩ := norm_bounds x (Nat.log2 x) hk1 hk2
  have hk45 : Nat.log2 x < 45 := (Nat.log2_lt hx0).mpr h2
  set k := Nat.log2 x with hk
  set n := x * 128 / 2 ^ k with hn
  have e1 : fl (((x : Int) : ℚ) * 128) = (((x * 128 : Nat) : Int) : ℚ) := by
    have := fl_intCast ((x * 128 : Nat) : Int) (by
      rw [abs_of_nonneg (by positivity)]
      have : x * 128 < 2 ^ 53 := by
        have : (2 : Nat) ^ 53 = 2 ^ 45 * 256 := by norm_num
        omega
      exact_mod_cast this)
    push_cast at this ⊢
    exact this
  have e2 : ((((x * 128 : Nat) : Int)) >>> k : Int) = ((n : Nat) : Int) := by
    rw [Int.shiftRight_eq_div_pow, hn]
    push_cast
    rfl
  have e3 : fl ((((n : Nat) : Int) : ℚ) * 128) = (((n * 128 : Nat) : Int) : ℚ) := by
    have := fl_intCast ((n * 128 : Nat) : Int) (by
      rw [abs_of_nonneg (by positivity)]
      have : n * 128 < 2 ^ 53 := by
        have : (2 : Nat) ^ 53 = 2 ^ 45 * 256 := by norm_num
        omega
      exact_mod_cast this)
    push_cast at this ⊢
    exact this
  have e4 : fl ((((n * 128 : Nat) : Int) : ℚ) / 128) = (((n : Nat) : Int) : ℚ) := by
    rw [fl_div_128 _ (by
      rw [abs_of_nonneg (by positivity)]
      have : n * 128 < 2 ^ 53 := by
        have : (2 : Nat) ^ 53 = 2 ^ 45 * 256 := by norm_num
        omega
      exact_mod_cast this)]
    push_cast
    field_simp
  have e5 : (((n : Nat) : Int) % 128).toNat = n - 128 := by omega
  obtain ⟨ht1, ht2⟩ := log2Tab_range (n - 128) (by omega)
  set t := log2Tab (n - 128) with ht
  have e6 : fl ((t : ℚ) * 128) = ((t * 128 : Int) : ℚ) := by
    have := fl_intCast (t * 128) (by rw [abs_of_nonneg (by omega)]; omega)
    push_cast at this ⊢
    exact this
  have e7 : fl (((t * 128 : Int) : ℚ) / 128) = (t : ℚ) := by
    rw [fl_div_128 _ (by rw [abs_of_nonneg (by omega)]; omega)]
    push_cast
    field_simp
  have e8 : fl ((((k : Int) * 2 ^ 7 : Int) : ℚ) + (t : ℚ)) = (((k : Int) * 128 + t : Int) : ℚ) := by
    have := fl_intCast ((k : Int) * 128 + t) (by rw [abs_of_nonneg (by omega)]; omega)
    push_cast at this ⊢
    exact this
  unfold our_log2
  simp only [Int.toNat_ofNat, e1, truncQ_intCast, e2, e3, e4, e5]
  rw [show log2_approx_c.getD (n - 128) 0 = t from rfl, e6, truncQ_intCast, e7, e8, truncQ_intCast]


theorem log2_unique {x k : Nat} (h1 : 2 ^ k ≤ x) (h2 : x < 2 ^ (k + 1)) : Nat.log2 x = k := by
  have hx0 : x ≠ 0 := by
    have : 0 < 2 ^ k := by positivity
    omega
  have a := (Nat.le_log2 hx0).mpr h1
  have b := (Nat.log2_lt hx0).mpr h2
  omega

/-- C7: for every integer `x` with `1 ≤ x < 2^24`, `our_log2 x` is
`(k << 7) + log2_approx_c[((x * 128) >> k) & 127]`, where `k` is the position of
the most significant set bit of `x`; the binary64 steps of the source change
nothing beyond this integer formula. -/
theorem our_log2_eq_table_lookup (x k : Nat) (h1 : 1 ≤ x) (h2 : x < 2 ^ 24)
    (hk1 : 2 ^ k ≤ x) (hk2 : x < 2 ^ (k + 1)) :
    our_log2 (x : Int)
      = ((k <<< 7 : Nat) : Int) + log2_approx_c.getD (((x * 128) >>> k) &&& 127) 0 := by
  have hk : Nat.log2 x = k := log2_unique hk1 hk2
  have hx : x < 2 ^ 45 := lt_of_lt_of_le h2 (by norm_num)
  obtain ⟨hn1, hn2⟩ := norm_bounds x k hk1 hk2
  rw [our_log2_int x h1 hx, hk, Nat.shiftLeft_eq, Nat.shiftRight_eq_div_pow,
    show (127 : Nat) = 2 ^ 7 - 1 by norm_num, Nat.and_pow_two_sub_one_eq_mod]
  have : x * 128 / 2 ^ k % 2 ^ 7 = x * 128 / 2 ^ k - 128 := by omega
  rw [this]
  simp [log2Tab]

/-- Witness of C7 at `x = 150`, whose most significant bit is bit 7. -/
theorem our_log2_eq_table_lookup_witness :
    (1 ≤ 150 ∧ 150 < 2 ^ 24 ∧ 2 ^ 7 ≤ 150 ∧ 150 < 2 ^ (7 + 1)) ∧
    our_log2 ((150 : Nat) : Int)
      = ((7 <<< 7 : Nat) : Int) + log2_approx_c.getD (((150 * 128) >>> 7) &&& 127) 0 :=
  ⟨by norm_num,
    our_log2_eq_table_lookup 150 7 (by norm_num) (by norm_num) (by norm_num) (by norm_num)⟩

theorem log2Tab_mono {i j : Nat} (hij : i ≤ j) (hj : j < 128) : log2Tab i ≤ log2Tab j := by
  induction j, hij using Nat.le_induction with
  | base => exact le_refl _
  | succ n _ ih => exact le_trans (ih (by omega)) (log2Tab_step n (by omega))

theorem our_log2_bounds (x : Nat) (h1 : 1 ≤ x) (h2 : x < 2 ^ 45) :
    (Nat.log2 x : Int) * 128 ≤ our_log2 (x : Int) ∧
      our_log2 (x : Int) ≤ (Nat.log2 x : Int) * 128 + 127 := by
  have hx0 : x ≠ 0 := by omega
  obtain ⟨hn1, hn2⟩ := norm_bounds x (Nat.log2 x) (Nat.log2_self_le hx0) Nat.lt_log2_self
  obtain ⟨ht1, ht2⟩ := log2Tab_range (x * 128 / 2 ^ Nat.log2 x - 128) (by omega)
  rw [our_log2_int x h1 h2]
  omega

theorem our_log2_mono (x y : Nat) (h1 : 1 ≤ x) (hxy : x ≤ y) (h2 : y < 2 ^ 45) :
    our_log2 (x : Int) ≤ our_log2 (y : Int) := by
  have hx0 : x ≠ 0 := by omega
  have hy0 : y ≠ 0 := by omega
  have hkx : 2 ^ Nat.log2 x ≤ x := Nat.log2_self_le hx0
  have hk : Nat.log2 x ≤ Nat.log2 y := (Nat.le_log2 hy0).mpr (le_trans hkx hxy)
  rcases Nat.eq_or_lt_of_le hk with heq | hlt
  · obtain ⟨hn1, hn2⟩ := norm_bounds y (Nat.log2 y) (Nat.log2_self_le hy0) Nat.lt_log2_self
    rw [our_log2_int x h1 (by omega), our_log2_int y (by omega) h2, heq]
    have hdiv : x * 128 / 2 ^ Nat.log2 y ≤ y * 128 / 2 ^ Nat.log2 y :=
      Nat.div_le_div_right (by omega)
    have := log2Tab_mono (i := x * 128 / 2 ^ Nat.log2 y - 128)
      (j := y * 128 / 2 ^ Nat.log2 y - 128) (by omega) (by omega)
    omega
  · have bx := (our_log2_bounds x h1 (by omega)).2
    have by1 := (our_log2_bounds y (by omega) h2).1
    omega

/-- C8: `our_log2` is monotonically non-decreasing on the range 1..100000,
the steps across a power of two included. -/
theorem our_log2_monotone (x y : Nat) (h1 : 1 ≤ x) (hxy : x ≤ y) (h2 : y ≤ 100000) :
    our_log2 (x : Int) ≤ our_log2 (y : Int) :=
  our_log2_mono x y h1 hxy (lt_of_le_of_lt h2 (by norm_num))

/-- Witness of C8 across the power of two 1024: `our_log2 1023 ≤ our_log2 1024`. -/
theorem our_log2_monotone_witness :
    (1 ≤ 1023 ∧ 1023 ≤ 1024 ∧ 1024 ≤ 100000) ∧
      our_log2 ((1023 : Nat) : Int) ≤ our_log2 ((1024 : Nat) : Int) :=
  ⟨by norm_num, our_log2_monotone 1023 1024 (by norm_num) (by norm_num) (by norm_num)⟩

theorem log2Tab_lower : ∀ i : Nat, i < 128 →
    2 ^ (log2Tab i).toNat * 128 ^ 128 ≤ 2 * (128 + i) ^ 128 := by
  decide

theorem log2Tab_upper : ∀ i : Nat, i < 128 →
    (129 + i) ^ 128 ≤ 2 ^ ((log2Tab i).toNat + 2) * 128 ^ 128 := by
  decide

theorem scaled_pow_lower (k t n x c e : Nat) (hc : 0 < c) (hA : 2 ^ t * c ^ e ≤ 2 * n ^ e)
    (hlo : n * 2 ^ k ≤ x * c) : 2 ^ (k * e + t) ≤ 2 * x ^ e := by
  have hce : 0 < c ^ e := by positivity
  apply Nat.le_of_mul_le_mul_right _ hce
  calc 2 ^ (k * e + t) * c ^ e
      = (2 ^ k) ^ e * (2 ^ t * c ^ e) := by
        have h : 2 ^ (k * e + t) = (2 ^ k) ^ e * 2 ^ t := by rw [pow_add, pow_mul]
        rw [h]; ring
    _ ≤ (2 ^ k) ^ e * (2 * n ^ e) := Nat.mul_le_mul_left _ hA
    _ = 2 * (n * 2 ^ k) ^ e := by rw [mul_pow]; ring
    _ ≤ 2 * (x * c) ^ e := Nat.mul_le_mul_left _ (Nat.pow_le_pow_left hlo _)
    _ = 2 * x ^ e * c ^ e := by rw [mul_pow]; ring

theorem scaled_pow_upper (k t n x c e : Nat) (hc : 0 < c) (hB : (n + 1) ^ e ≤ 2 ^ (t + 2) * c ^ e)
    (hhi : x * c < (n + 1) * 2 ^ k) : x ^ e ≤ 2 ^ (k * e + t + 2) := by
  have hce : 0 < c ^ e := by positivity
  apply Nat.le_of_mul_le_mul_right _ hce
  calc x ^ e * c ^ e
      = (x * c) ^ e := by rw [mul_pow]
    _ ≤ ((n + 1) * 2 ^ k) ^ e := Nat.pow_le_pow_left hhi.le _
    _ = (n + 1) ^ e * (2 ^ k) ^ e := by rw [mul_pow]
    _ ≤ 2 ^ (t + 2) * c ^ e * (2 ^ k) ^ e := Nat.mul_le_mul_right _ hB
    _ = 2 ^ (k * e + t + 2) * c ^ e := by
        have h : 2 ^ (k * e + t + 2) = (2 ^ k) ^ e * 2 ^ (t + 2) := by
          rw [add_assoc, pow_add, pow_mul]
        rw [h]; ring

theorem our_log2_error (x : Nat) (h1 : 1 ≤ x) (h2 : x < 2 ^ 45) :
    2 ^ (our_log2 (x : Int)).toNat ≤ 2 * x ^ 128 ∧
      x ^ 128 ≤ 2 ^ ((our_log2 (x : Int)).toNat + 2) := by
  have hx0 : x ≠ 0 := by omega
  obtain ⟨hn1, hn2⟩ := norm_bounds x (Nat.log2 x) (Nat.log2_self_le hx0) Nat.lt_log2_self
  have hint := our_log2_int x h1 h2
  set k := Nat.log2 x with hk
  have hp : 0 < 2 ^ k := by positivity
  have hlo : x * 128 / 2 ^ k * 2 ^ k ≤ x * 128 := Nat.div_mul_le_self _ _
  have hhi : x * 128 < (x * 128 / 2 ^ k + 1) * 2 ^ k := by
    have := Nat.lt_mul_div_succ (x * 128) hp
    rwa [Nat.mul_comm (2 ^ k)] at this
  set n := x * 128 / 2 ^ k with hn
  obtain ⟨i, hi⟩ : ∃ i, n = 128 + i := ⟨n - 128, by omega⟩
  have hi128 : i < 128 := by omega
  obtain ⟨ht1, _⟩ := log2Tab_range i hi128
  have hA := log2Tab_lower i hi128
  have hB := log2Tab_upper i hi128
  obtain ⟨t, ht⟩ : ∃ t : Nat, log2Tab i = (t : Int) := ⟨(log2Tab i).toNat, by omega⟩
  have hidx : n - 128 = i := by omega
  rw [hidx, ht] at hint
  have hL : (our_log2 (x : Int)).toNat = k * 128 + t := by
    rw [hint]; omega
  rw [ht, Int.toNat_ofNat, ← hi] at hA
  rw [ht, Int.toNat_ofNat, show 129 + i = n + 1 by omega] at hB
  rw [hL]
  exact ⟨scaled_pow_lower k t n x 128 128 (by norm_num) hA hlo,
    scaled_pow_upper k t n x 128 128 (by norm_num) hB hhi⟩

theorem logb_two_pow (L : Nat) : Real.logb 2 ((2 : ℝ) ^ L) = L := by
  rw [Real.logb_pow, Real.logb_self_eq_one (by norm_num), mul_one]

theorem logb_ge_of_pow_le (x L e : Nat) (hx : 1 ≤ x) (h : 2 ^ L ≤ 2 * x ^ e) :
    (L : ℝ) - 1 ≤ e * Real.logb 2 x := by
  have hxr : (0 : ℝ) < x := by exact_mod_cast hx
  have h1 : ((2 : ℝ) ^ L) ≤ 2 * (x : ℝ) ^ e := by exact_mod_cast h
  have h2 := Real.logb_le_logb_of_le (b := 2) (by norm_num) (by positivity) h1
  rw [logb_two_pow, Real.logb_mul (by norm_num) (by positivity), Real.logb_pow,
    Real.logb_self_eq_one (by norm_num)] at h2
  linarith

theorem logb_le_of_le_pow (x L e : Nat) (hx : 1 ≤ x) (h : x ^ e ≤ 2 ^ L) :
    e * Real.logb 2 x ≤ (L : ℝ) := by
  have hxr : (0 : ℝ) < x := by exact_mod_cast hx
  have h1 : (x : ℝ) ^ e ≤ (2 : ℝ) ^ L := by exact_mod_cast h
  have h2 := Real.logb_le_logb_of_le (b := 2) (by norm_num) (by positivity) h1
  rw [logb_two_pow, Real.logb_pow] at h2
  exact h2

theorem logb_gt_of_pow_lt (x L e : Nat) (h : 2 ^ L < x ^ e) :
    (L : ℝ) < e * Real.logb 2 x := by
  have h1 : ((2 : ℝ) ^ L) < (x : ℝ) ^ e := by exact_mod_cast h
  have h2 := Real.logb_lt_logb (b := 2) (by norm_num) (by positivity) h1
  rw [logb_two_pow, Real.logb_pow] at h2
  exact h2

theorem our_log2_259 : our_log2 ((259 : Nat) : Int) = 1025 := by
  have hk : Nat.log2 259 = 8 := log2_unique (by norm_num) (by norm_num)
  rw [our_log2_int 259 (by norm_num) (by norm_num), hk]
  decide

/-- C9, counterexample: at `x = 259` the output is 1025 while
`128 * log2 259` exceeds 1026, so the error is larger than one unit:
`259 ^ 128 > 2 ^ (1025 + 1)`. -/
theorem our_log2_error_exceeds_one_unit :
    our_log2 ((259 : Nat) : Int) = 1025 ∧
      ¬ ((259 : Nat) ^ 128 ≤ 2 ^ ((our_log2 ((259 : Nat) : Int)).toNat + 1)) ∧
      ¬ (|((our_log2 ((259 : Nat) : Int) : Int) : ℝ) - 128 * Real.logb 2 (259 : Nat)| ≤ 1) := by
  refine ⟨our_log2_259, ?_, ?_⟩
  · rw [our_log2_259, show (1025 : Int).toNat = 1025 from rfl]
    norm_num
  · rw [our_log2_259]
    have h := logb_gt_of_pow_lt 259 1026 128 (by norm_num)
    intro habs
    have := (abs_le.mp habs).1
    push_cast at h this
    linarith

/-- C9, amended: for every integer `x` in 1..100000 the output of `our_log2`
is within two units of `128 * log2 x`, and never more than one unit above it:
`2 ^ (L - 1) ≤ x ^ 128 ≤ 2 ^ (L + 2)` for `L = our_log2 x`. -/
theorem our_log2_error_within_two_units (x : Nat) (h1 : 1 ≤ x) (h2 : x ≤ 100000) :
    0 ≤ our_log2 (x : Int) ∧
      2 ^ (our_log2 (x : Int)).toNat ≤ 2 * x ^ 128 ∧
      x ^ 128 ≤ 2 ^ ((our_log2 (x : Int)).toNat + 2) ∧
      ((our_log2 (x : Int) : Int) : ℝ) - 1 ≤ 128 * Real.logb 2 x ∧
      128 * Real.logb 2 x ≤ ((our_log2 (x : Int) : Int) : ℝ) + 2 ∧
      |((our_log2 (x : Int) : Int) : ℝ) - 128 * Real.logb 2 x| ≤ 2 := by
  have hx : x < 2 ^ 45 := lt_of_le_of_lt h2 (by norm_num)
  have h0 : 0 ≤ our_log2 (x : Int) := by
    have := (our_log2_bounds x h1 hx).1
    have hk : (0 : Int) ≤ (Nat.log2 x : Int) := by positivity
    omega
  obtain ⟨hlo, hhi⟩ := our_log2_error x h1 hx
  have hL : ((our_log2 (x : Int) : Int) : ℝ) = (((our_log2 (x : Int)).toNat : Nat) : ℝ) := by
    have : ((our_log2 (x : Int)).toNat : Int) = our_log2 (x : Int) := Int.toNat_of_nonneg h0
    exact_mod_cast this.symm
  have r1 := logb_ge_of_pow_le x _ 128 h1 hlo
  have r2 := logb_le_of_le_pow x _ 128 h1 hhi
  push_cast at r1 r2
  rw [← hL] at r1 r2
  refine ⟨h0, hlo, hhi, r1, r2, ?_⟩
  rw [abs_le]
  constructor <;> linarith

/-- Witness of the amended C9 at `x = 259`. -/
theorem our_log2_error_within_two_units_witness :
    (1 ≤ 259 ∧ 259 ≤ 100000) ∧
      |((our_log2 ((259 : Nat) : Int) : Int) : ℝ) - 128 * Real.logb 2 (259 : Nat)| ≤ 2 :=
  ⟨by norm_num, (our_log2_error_within_two_units 259 (by norm_num) (by norm_num)).2.2.2.2.2⟩

/-! ## The score-to-MAPQ scale -/

theorem truncQ_nonneg {q : ℚ} (h : 0 ≤ q) : 0 ≤ truncQ q := by
  unfold truncQ
  rw [if_pos h]
  exact Int.floor_nonneg.mpr h

theorem mapqCoeffScaled_nonneg {snpCost : Int} (h : 0 ≤ snpCost) : 0 ≤ mapqCoeffScaled snpCost := by
  unfold mapqCoeffScaled
  apply fl_nonneg
  apply mul_nonneg
  · unfold MAPQ_COEFF; positivity
  · apply fl_nonneg
    have : (0 : ℚ) ≤ (snpCost : ℚ) := by exact_mod_cast h
    positivity

theorem aln2mapq_nonneg {snpCost : Int} (h : 0 ≤ snpCost) (n : ℚ) : 0 ≤ aln2mapq snpCost n := by
  unfold aln2mapq
  simp only
  apply truncQ_nonneg
  apply fl_nonneg
  apply mul_nonneg _ (by positivity)
  apply fl_nonneg
  apply div_nonneg (mapqCoeffScaled_nonneg h)
  have : (0 : Int) ≤ (our_log2 (truncQ n) * our_log2 (truncQ n)) >>> (7 : Nat) := by
    rw [Int.shiftRight_eq_div_pow]
    exact Int.ediv_nonneg (mul_self_nonneg _) (by norm_num)
  exact_mod_cast this

/-- C5: for `snpCost > 0` and read length `n ≥ 2`, `computeMapq` is
non-decreasing in `bestScore - secondBestScore`, hence non-increasing in
`secondBestScore` for a fixed `bestScore` (the integer product is the
mathematical one, that is, it does not overflow). -/
theorem computeMapq_monotone (snpCost : Int) (n : ℚ) (hs : 0 < snpCost) (_hn : 2 ≤ n) :
    (∀ as1 xs1 as2 xs2 : Int, as1 - xs1 ≤ as2 - xs2 →
        computeMapq snpCost as1 xs1 n ≤ computeMapq snpCost as2 xs2 n) ∧
      (∀ as0 xs1 xs2 : Int, xs1 ≤ xs2 →
        computeMapq snpCost as0 xs2 n ≤ computeMapq snpCost as0 xs1 n) := by
  have key : ∀ as1 xs1 as2 xs2 : Int, as1 - xs1 ≤ as2 - xs2 →
      computeMapq snpCost as1 xs1 n ≤ computeMapq snpCost as2 xs2 n := by
    intro as1 xs1 as2 xs2 h
    unfold computeMapq
    simp only [Int.shiftRight_eq_div_pow]
    apply Int.ediv_le_ediv (by norm_num)
    exact mul_le_mul_of_nonneg_right h (aln2mapq_nonneg hs.le n)
  exact ⟨key, fun as0 xs1 xs2 h => key as0 xs2 as0 xs1 (by omega)⟩

/-- Witness of C5 at `snpCost = 5`, read length 150. -/
theorem computeMapq_monotone_witness :
    ((0 : Int) < 5 ∧ (2 : ℚ) ≤ 150) ∧
      computeMapq 5 100 40 150 ≤ computeMapq 5 100 30 150 :=
  ⟨by norm_num, (computeMapq_monotone 5 150 (by norm_num) (by norm_num)).2 100 30 40 (by norm_num)⟩

theorem our_log2_150 : our_log2 150 = 925 := by
  have hk : Nat.log2 150 = 7 := log2_unique (by norm_num) (by norm_num)
  have := our_log2_int 150 (by norm_num) (by norm_num)
  rw [hk] at this
  rw [show (150 : Int) = ((150 : Nat) : Int) by norm_num, this]
  decide

theorem mapqCoeffScaled_5 : mapqCoeffScaled 5 = 152 := by
  unfold mapqCoeffScaled MAPQ_COEFF
  have h1 : fl (5 / ((5 : Int) : ℚ)) = 1 := by
    have := fl_intCast 1 (by norm_num)
    norm_num at this ⊢
    exact this
  have h2 : fl (152 : ℚ) = 152 := by
    have := fl_intCast 152 (by norm_num)
    norm_num at this ⊢
    exact this
  rw [h1]
  norm_num
  exact h2

theorem aln2mapq_5_150 : aln2mapq 5 150 = 23845 := by
  unfold aln2mapq
  have ht : truncQ (150 : ℚ) = 150 := by
    have := truncQ_intCast 150
    norm_num at this ⊢
    exact this
  simp only [ht, our_log2_150, mapqCoeffScaled_5]
  have hd : (((925 * 925 : Int) >>> (7 : Nat) : Int) : ℚ) = 6684 := by
    rw [Int.shiftRight_eq_div_pow]; norm_num
  rw [hd]
  have h1 : fl ((152 : ℚ) / 6684) = 3277305294364167 / 144115188075855872 := by
    rw [fl_eq_of_bounds (e := -6) (by norm_num [abs_of_pos, zpow_neg])
      (by norm_num [abs_of_pos, zpow_neg])]
    unfold roundHalfEven
    norm_num [zpow_neg]
  rw [h1]
  have h2 : fl ((3277305294364167 / 144115188075855872 : ℚ) * ((1 <<< 20 : Nat) : ℚ))
      = 3277305294364167 / 137438953472 := by
    have e : (3277305294364167 / 144115188075855872 : ℚ) * ((1 <<< 20 : Nat) : ℚ)
        = ((3277305294364167 : Int) : ℚ) * (2 : ℚ) ^ (-37 : Int) := by
      norm_num [Nat.shiftLeft_eq, zpow_neg]
    rw [e, fl_dyadic 3277305294364167 (-37) (by norm_num)]
    norm_num [zpow_neg]
  rw [h2]
  unfold truncQ
  norm_num

/-- C6: `computeMapq` applies no clamping to `MAPQ_MAX` or `HW_MAPQ_MAX`: its
result is exactly `((bestScore - secondBestScore) * aln2mapq snpCost
readLength) >> 13`, and at `snpCost = 5`, read length 150 and score difference
100 the scale is 23845 and the result 291, above `HW_MAPQ_MAX = 250`. -/
theorem computeMapq_not_clamped :
    (∀ (snpCost as0 xs0 : Int) (n : ℚ),
        computeMapq snpCost as0 xs0 n = ((as0 - xs0) * aln2mapq snpCost n) >>> (13 : Nat)) ∧
      aln2mapq 5 150 = 23845 ∧ computeMapq 5 100 0 150 = 291 ∧
      MAPQ_MAX < computeMapq 5 100 0 150 ∧ HW_MAPQ_MAX < computeMapq 5 100 0 150 := by
  have h : computeMapq 5 100 0 150 = 291 := by
    unfold computeMapq
    simp only [aln2mapq_5_150, Int.shiftRight_eq_div_pow]
    norm_num
  refine ⟨fun _ _ _ _ => rfl, aln2mapq_5_150, h, ?_, ?_⟩
  · rw [h]; decide
  · rw [h]; decide

/-! ## Pair selection -/

theorem max_fold_spec (rest : List AlignmentPair) :
    ∀ (s : Nat) (acc : Nat × AlignmentPair),
      acc.2.score ≤ ((rest.enumFrom s).foldl maxStep acc).2.score ∧
      (∀ q ∈ rest, q.score ≤ ((rest.enumFrom s).foldl maxStep acc).2.score) ∧
      ((rest.enumFrom s).foldl maxStep acc = acc ∨
        ∃ j, rest[j]? = some ((rest.enumFrom s).foldl maxStep acc).2 ∧
          ((rest.enumFrom s).foldl maxStep acc).1 = s + j ∧
          acc.2.score < ((rest.enumFrom s).foldl maxStep acc).2.score ∧
          ∀ j' q, j' < j → rest[j']? = some q →
            q.score < ((rest.enumFrom s).foldl maxStep acc).2.score) := by
  induction rest with
  | nil => intro s acc; simp
  | cons a t ih =>
    intro s acc
    simp only [List.enumFrom_cons, List.foldl_cons]
    obtain ⟨h1, h2, h3⟩ := ih (s + 1) (maxStep acc (s, a))
    set r := (t.enumFrom (s + 1)).foldl maxStep (maxStep acc (s, a)) with hr
    by_cases hlt : acc.2.score < a.score
    · have hstep : maxStep acc (s, a) = (s, a) := by simp [maxStep, hlt]
      rw [hstep] at h1 h3
      refine ⟨by simp only at h1; omega, ?_, Or.inr ?_⟩
      · intro q hq
        rcases List.mem_cons.mp hq with rfl | hq
        · exact h1
        · exact h2 q hq
      · rcases h3 with h3 | ⟨j, hj1, hj2, hj3, hj4⟩
        · refine ⟨0, by simp [h3], by simp [h3], by rw [h3]; exact hlt, ?_⟩
          intro j' q hj'; omega
        · refine ⟨j + 1, by simpa using hj1, by omega, by simp only at hj3; omega, ?_⟩
          intro j' q hj' hq
          cases j' with
          | zero => simp at hq; subst hq; exact hj3
          | succ n => exact hj4 n q (by omega) (by simpa using hq)
    · have hstep : maxStep acc (s, a) = acc := by simp [maxStep, hlt]
      rw [hstep] at h1 h3
      refine ⟨h1, ?_, ?_⟩
      · intro q hq
        rcases List.mem_cons.mp hq with rfl | hq
        · omega
        · exact h2 q hq
      · rcases h3 with h3 | ⟨j, hj1, hj2, hj3, hj4⟩
        · exact Or.inl h3
        · refine Or.inr ⟨j + 1, by simpa using hj1, by omega, hj3, ?_⟩
          intro j' q hj' hq
          cases j' with
          | zero => simp at hq; subst hq; omega
          | succ n => exact hj4 n q (by omega) (by simpa using hq)

theorem max_element_spec (pairs : AlignmentPairs) (hne : pairs ≠ []) :
    ∃ i p, max_element (fun left right => decide (left.score < right.score)) pairs = some (i, p) ∧
      IsFirstMax pairs i p := by
  cases pairs with
  | nil => exact absurd rfl hne
  | cons first rest =>
    obtain ⟨h1, h2, h3⟩ := max_fold_spec rest 1 (0, first)
    refine ⟨_, _, rfl, ?_⟩
    show IsFirstMax (first :: rest) ((rest.enumFrom 1).foldl maxStep (0, first)).1
      ((rest.enumFrom 1).foldl maxStep (0, first)).2
    set r := (rest.enumFrom 1).foldl maxStep (0, first) with hr
    rcases h3 with h3 | ⟨j, hj1, hj2, hj3, hj4⟩
    · refine ⟨by simp [h3], ?_, ?_⟩
      · intro q hq
        rcases List.mem_cons.mp hq with rfl | hq
        · exact h1
        · exact h2 q hq
      · intro j q hj; simp [h3] at hj
    · refine ⟨by rw [hj2, Nat.add_comm]; simpa using hj1, ?_, ?_⟩
      · intro q hq
        rcases List.mem_cons.mp hq with rfl | hq
        · exact h1
        · exact h2 q hq
      · intro j' q hj' hq
        cases j' with
        | zero => simp at hq; subst hq; exact hj3
        | succ n => exact hj4 n q (by omega) (by simpa using hq)

theorem isFirstMax_unique {pairs : AlignmentPairs} {i i' : Nat} {p p' : AlignmentPair}
    (h : IsFirstMax pairs i p) (h' : IsFirstMax pairs i' p') : i = i' ∧ p = p' := by
  obtain ⟨a1, a2, a3⟩ := h
  obtain ⟨b1, b2, b3⟩ := h'
  have hp : p ∈ pairs := List.getElem?_mem a1
  have hp' : p' ∈ pairs := List.getElem?_mem b1
  have hi : i = i' := by
    rcases Nat.lt_trichotomy i i' with hlt | heq | hgt
    · have := b3 i p hlt a1
      have := a2 p' hp'
      omega
    · exact heq
    · have := a3 i' p' hgt b1
      have := b2 p hp
      omega
  subst hi
  rw [a1] at b1
  exact ⟨rfl, Option.some.inj b1⟩

theorem pickBest_fst_of_isFirstMax (pb : PairBuilder) (ext : External) (readPair : ReadPair)
    (pairs : AlignmentPairs) (ua : UnpairedAlignments) {i : Nat} {p : AlignmentPair}
    (h : IsFirstMax pairs i p) :
    (pickBest pb ext readPair pairs ua).1
      = if (p.alnAt ua false).ineligible = true ∧ (p.alnAt ua true).ineligible = true
        then none else some i := by
  have hne : pairs ≠ [] := by
    rintro rfl
    simp [IsFirstMax] at h
  obtain ⟨i0, p0, hmax, hfm⟩ := max_element_spec pairs hne
  obtain ⟨rfl, rfl⟩ := isFirstMax_unique h hfm
  have hemp : pairs.isEmpty = false := by
    cases pairs with
    | nil => exact absurd rfl hne
    | cons a t => rfl
  unfold pickBest
  rw [hemp]
  simp only [Bool.false_eq_true, if_false, hmax]
  split_ifs <;> rfl

/-- C1: `pickBest` returns the end iterator exactly when the candidate list is
empty or both ends of the first maximum-score pair are flagged ineligible, and
otherwise returns the position of the first pair of maximum combined score. -/
theorem pickBest_return_value (pb : PairBuilder) (ext : External) (readPair : ReadPair)
    (pairs : AlignmentPairs) (ua : UnpairedAlignments) :
    ((pickBest pb ext readPair pairs ua).1 = none ↔
        pairs = [] ∨ ∃ i p, IsFirstMax pairs i p ∧
          (p.alnAt ua false).ineligible = true ∧ (p.alnAt ua true).ineligible = true) ∧
      (∀ i, (pickBest pb ext readPair pairs ua).1 = some i ↔
        ∃ p, IsFirstMax pairs i p ∧
          ¬ ((p.alnAt ua false).ineligible = true ∧ (p.alnAt ua true).ineligible = true)) := by
  by_cases hne : pairs = []
  · subst hne
    refine ⟨⟨fun _ => Or.inl rfl, fun _ => rfl⟩, fun i => ⟨fun h => ?_, fun h => ?_⟩⟩
    · simp [pickBest] at h
    · obtain ⟨p, hp, _⟩ := h
      simp [IsFirstMax] at hp
  · obtain ⟨i0, p0, _, hfm⟩ := max_element_spec pairs hne
    have hval := pickBest_fst_of_isFirstMax pb ext readPair pairs ua hfm
    constructor
    · constructor
      · intro h
        right
        refine ⟨i0, p0, hfm, ?_⟩
        by_contra hcon
        rw [hval, if_neg hcon] at h
        exact absurd h (by simp)
      · rintro (h | ⟨i, p, hip, hin⟩)
        · exact absurd h hne
        · rw [pickBest_fst_of_isFirstMax pb ext readPair pairs ua hip, if_pos hin]
    · intro i
      constructor
      · intro h
        by_cases hin : (p0.alnAt ua false).ineligible = true ∧ (p0.alnAt ua true).ineligible = true
        · rw [hval, if_pos hin] at h
          exact absurd h (by simp)
        · rw [hval, if_neg hin] at h
          have : i0 = i := Option.some.inj h
          subst this
          exact ⟨p0, hfm, hin⟩
      · rintro ⟨p, hip, hin⟩
        rw [pickBest_fst_of_isFirstMax pb ext readPair pairs ua hip, if_neg hin]

/-- C2, counterexample: the list holds a pair whose ends are both eligible,
yet `pickBest` returns the end iterator, because the top-scoring pair is
flagged ineligible on both ends. -/
theorem pickBest_none_despite_eligible_pair :
    (∃ q ∈ ineligibleTopPairs,
        ¬ ((q.alnAt ineligibleTopPools false).ineligible = true ∧
            (q.alnAt ineligibleTopPools true).ineligible = true)) ∧
      (pickBest examplePairBuilder exampleExternal exampleReadPair ineligibleTopPairs
        ineligibleTopPools).1 = none := by
  constructor
  · exact ⟨{ first := 1, second := 1, score := 70 }, by decide, by decide⟩
  · decide

theorem isFirstMax_ineligibleTopPairs :
    IsFirstMax ineligibleTopPairs 0 { first := 0, second := 0, score := 110 } :=
  ⟨rfl, by decide, fun j q hj => absurd hj (Nat.not_lt_zero j)⟩

/-- C2, amended: when the first maximum-score pair is not flagged ineligible
on both ends, `pickBest` returns that pair, and its combined score is maximal
among all pairs, in particular among the pairs that are not flagged ineligible
on both ends. -/
theorem pickBest_returns_top_pair (pb : PairBuilder) (ext : External) (readPair : ReadPair)
    (pairs : AlignmentPairs) (ua : UnpairedAlignments) (i : Nat) (p : AlignmentPair)
    (hmax : IsFirstMax pairs i p)
    (helig : ¬ ((p.alnAt ua false).ineligible = true ∧ (p.alnAt ua true).ineligible = true)) :
    (pickBest pb ext readPair pairs ua).1 = some i ∧ pairs[i]? = some p ∧
      (∀ q ∈ pairs, q.score ≤ p.score) ∧
      (∀ q ∈ pairs,
        ¬ ((q.alnAt ua false).ineligible = true ∧ (q.alnAt ua true).ineligible = true) →
          q.score ≤ p.score) := by
  refine ⟨?_, hmax.1, hmax.2.1, fun q hq _ => hmax.2.1 q hq⟩
  rw [pickBest_fst_of_isFirstMax pb ext readPair pairs ua hmax, if_neg helig]

/-- Witness of the amended C2: over pools without ineligible candidates the
top-scoring pair, at position 0, is returned. -/
theorem pickBest_returns_top_pair_witness :
    (IsFirstMax ineligibleTopPairs 0 { first := 0, second := 0, score := 110 } ∧
      ¬ (((({ first := 0, second := 0, score := 110 } : AlignmentPair).alnAt eligiblePools
              false).ineligible = true) ∧
          ((({ first := 0, second := 0, score := 110 } : AlignmentPair).alnAt eligiblePools
              true).ineligible = true))) ∧
      (pickBest examplePairBuilder exampleExternal exampleReadPair ineligibleTopPairs
        eligiblePools).1 = some 0 :=
  ⟨⟨isFirstMax_ineligibleTopPairs, by decide⟩,
    (pickBest_returns_top_pair examplePairBuilder exampleExternal exampleReadPair
      ineligibleTopPairs eligiblePools 0 { first := 0, second := 0, score := 110 }
      isFirstMax_ineligibleTopPairs (by decide)).1⟩

/-! ## In-place updates of the pools -/

theorem get_put_same (ua : UnpairedAlignments) (r : Bool) (l : Alignments) :
    (ua.put r l).get r = l := by
  cases r <;> rfl

theorem get_put_other (ua : UnpairedAlignments) (r : Bool) (l : Alignments) :
    (ua.put r l).get (!r) = ua.get (!r) := by
  cases r <;> rfl

theorem get_modifyAt_same (p : AlignmentPair) (ua : UnpairedAlignments) (r : Bool)
    (f : Alignment → Alignment) :
    (p.modifyAt ua r f).get r = (ua.get r).modify f (p.idx r) :=
  get_put_same _ _ _

theorem get_modifyAt_other (p : AlignmentPair) (ua : UnpairedAlignments) (r : Bool)
    (f : Alignment → Alignment) :
    (p.modifyAt ua r f).get (!r) = ua.get (!r) :=
  get_put_other _ _ _

theorem alnAt_modifyAt_same (p : AlignmentPair) (ua : UnpairedAlignments) (r : Bool)
    (f : Alignment → Alignment) (hv : p.idx r < (ua.get r).length) :
    p.alnAt (p.modifyAt ua r f) r = f (p.alnAt ua r) := by
  unfold AlignmentPair.alnAt
  rw [get_modifyAt_same, List.getD_eq_getElem?_getD, List.getD_eq_getElem?_getD,
    List.getElem?_modify_eq, List.getElem?_eq_getElem hv]
  rfl

theorem length_get_modifyAt (p : AlignmentPair) (ua : UnpairedAlignments) (r : Bool)
    (f : Alignment → Alignment) :
    ((p.modifyAt ua r f).get r).length = (ua.get r).length := by
  rw [get_modifyAt_same, List.length_modify]

theorem getElem?_modifyAt_ne (p : AlignmentPair) (ua : UnpairedAlignments) (r : Bool)
    (f : Alignment → Alignment) (j : Nat) (hj : j ≠ p.idx r) :
    ((p.modifyAt ua r f).get r)[j]? = (ua.get r)[j]? := by
  rw [get_modifyAt_same, List.getElem?_modify_ne _ _ (Ne.symm hj)]

/-- C4: when the alignment of the chosen pair at an end is unmapped,
`updateEndMapq` sets its MAPQ to 0 and writes nothing else: XS and every other
field keep their values, every other alignment is untouched, and the outcome
does not depend on the candidate pairs, on the configuration or on any
second-best search. -/
theorem updateEndMapq_unmapped (pb : PairBuilder) (ext : External) (averageReadLength : Int)
    (pairs : AlignmentPairs) (ua : UnpairedAlignments) (best : AlignmentPair) (readIdx : Bool)
    (hv : best.idx readIdx < (ua.get readIdx).length)
    (hu : (best.alnAt ua readIdx).unmapped = true) :
    (best.alnAt (updateEndMapq pb ext averageReadLength pairs ua best readIdx) readIdx).mapq = 0 ∧
      (best.alnAt (updateEndMapq pb ext averageReadLength pairs ua best readIdx) readIdx).xs
        = (best.alnAt ua readIdx).xs ∧
      best.alnAt (updateEndMapq pb ext averageReadLength pairs ua best readIdx) readIdx
        = { best.alnAt ua readIdx with mapq := 0 } ∧
      (updateEndMapq pb ext averageReadLength pairs ua best readIdx).get (!readIdx)
        = ua.get (!readIdx) ∧
      (∀ j, j ≠ best.idx readIdx →
        ((updateEndMapq pb ext averageReadLength pairs ua best readIdx).get readIdx)[j]?
          = (ua.get readIdx)[j]?) ∧
      (∀ (pb' : PairBuilder) (ext' : External) (averageReadLength' : Int)
          (pairs' : AlignmentPairs),
        updateEndMapq pb' ext' averageReadLength' pairs' ua best readIdx
          = updateEndMapq pb ext averageReadLength pairs ua best readIdx) := by
  have hdef : ∀ (pb' : PairBuilder) (ext' : External) (averageReadLength' : Int)
      (pairs' : AlignmentPairs),
      updateEndMapq pb' ext' averageReadLength' pairs' ua best readIdx
        = best.modifyAt ua readIdx (fun a => { a with mapq := 0 }) := by
    intro pb' ext' a' pairs'
    unfold updateEndMapq
    rw [if_pos hu]
  rw [hdef pb ext averageReadLength pairs]
  refine ⟨?_, ?_, ?_, get_modifyAt_other _ _ _ _, ?_, fun pb' ext' a' pairs' => hdef pb' ext' a' pairs'⟩
  · rw [alnAt_modifyAt_same _ _ _ _ hv]
  · rw [alnAt_modifyAt_same _ _ _ _ hv]
  · rw [alnAt_modifyAt_same _ _ _ _ hv]
  · intro j hj
    exact getElem?_modifyAt_ne _ _ _ _ j hj

/-- Witness of C4: end 0 of the pair is the unmapped candidate of
`unmappedPools`. -/
theorem updateEndMapq_unmapped_witness :
    ((({ first := 0, second := 0, score := 60 } : AlignmentPair).idx false
          < (unmappedPools.get false).length) ∧
        ((({ first := 0, second := 0, score := 60 } : AlignmentPair).alnAt unmappedPools
          false).unmapped = true)) ∧
      (({ first := 0, second := 0, score := 60 } : AlignmentPair).alnAt
        (updateEndMapq examplePairBuilder exampleExternal 150
          [{ first := 0, second := 0, score := 60 }] unmappedPools
          { first := 0, second := 0, score := 60 } false) false).mapq = 0 :=
  ⟨⟨by decide, by decide⟩,
    (updateEndMapq_unmapped examplePairBuilder exampleExternal 150
      [{ first := 0, second := 0, score := 60 }] unmappedPools
      { first := 0, second := 0, score := 60 } false (by decide) (by decide)).1⟩

/-! ## The MAPQ written by `updateEndMapq` -/

theorem roundHalfEven_near (q : ℚ) :
    q - 1 ≤ (roundHalfEven q : ℚ) ∧ (roundHalfEven q : ℚ) ≤ q + 1 := by
  have h1 := Int.floor_le q
  have h2 := Int.lt_floor_add_one q
  unfold roundHalfEven
  simp only
  split_ifs <;> push_cast <;> constructor <;> linarith

theorem fl_near {q : ℚ} {e : Int} (h1 : (2 : ℚ) ^ e ≤ |q|) (h2 : |q| < (2 : ℚ) ^ (e + 1)) :
    q - (2 : ℚ) ^ (e - 52) ≤ fl q ∧ fl q ≤ q + (2 : ℚ) ^ (e - 52) := by
  rw [fl_eq_of_bounds h1 h2]
  have hu : (0 : ℚ) < (2 : ℚ) ^ (e - 52) := by positivity
  obtain ⟨a, b⟩ := roundHalfEven_near (q / (2 : ℚ) ^ (e - 52))
  have hq : q / (2 : ℚ) ^ (e - 52) * (2 : ℚ) ^ (e - 52) = q := div_mul_cancel₀ q hu.ne'
  constructor
  · have := mul_le_mul_of_nonneg_right a hu.le
    rw [sub_mul, hq, one_mul] at this
    exact this
  · have := mul_le_mul_of_nonneg_right b hu.le
    rw [add_mul, hq, one_mul] at this
    exact this

theorem truncQ_eq_of_bracket {q : ℚ} {p : Int} (hp : 0 ≤ p) (h1 : (p : ℚ) ≤ q)
    (h2 : q < (p : ℚ) + 1) : truncQ q = p := by
  have hq : (0 : ℚ) ≤ q := le_trans (by exact_mod_cast hp) h1
  unfold truncQ
  rw [if_pos hq]
  exact Int.floor_eq_iff.mpr ⟨h1, h2⟩

theorem subMapqPenalty_eq (m : Libm) (c : Int) :
    subMapqPenalty m c = if c = 0 then 0 else truncQ (fl (3 * m.log2 (c : ℚ))) := by
  unfold subMapqPenalty
  by_cases h : c = 0
  · subst h
    simp [truncQ]
  · rw [if_pos h, if_neg h]

theorem findSecondBestScore_outputs (pb : PairBuilder) (ext : External) (averageReadLength : Int)
    (pairs : AlignmentPairs) (ua : UnpairedAlignments) (best : AlignmentPair) (readIdx : Bool)
    (sub_count secondBestPeScore : Int) :
    (findSecondBestScore pb ext averageReadLength pairs ua best readIdx sub_count
        secondBestPeScore).2
      = ((findSecondBest pb ext averageReadLength pairs ua best readIdx sub_count).2,
          match (findSecondBest pb ext averageReadLength pairs ua best readIdx sub_count).1 with
          | some r => r.2.score
          | none => secondBestPeScore) := by
  unfold findSecondBestScore
  simp only
  split <;> simp_all

/-- C3: for a mapped end of the chosen pair `updateEndMapq` writes
`MAPQ = computeMapq(snpCost, best score, max(alnMinScore_, secondBestPairScore),
max(aln_cfg_mapq_min_len_, averageReadLength)) - penalty`, where
`secondBestPairScore` is the combined score of the pair found by
`findSecondBest` (`INVALID_SCORE` when there is none) and the penalty is 0 for
`subCount = 0` and `3 * log2 subCount` truncated otherwise: 0, 3, 4, 6 for
`subCount` 1, 2, 3, 4 when the library logarithm is exact at 1, 2, 4 and lies
in `[3/2, 13/8]` at 3; in general the integer `p` with
`p ≤ 3 * log2 subCount < p + 1`, which for the exact logarithm is the `p` with
`2 ^ p ≤ subCount ^ 3 < 2 ^ (p + 1)`. -/
theorem updateEndMapq_mapped_mapq (pb : PairBuilder) (ext : External) (averageReadLength : Int)
    (pairs : AlignmentPairs) (ua : UnpairedAlignments) (best : AlignmentPair) (readIdx : Bool)
    (hv : best.idx readIdx < (ua.get readIdx).length)
    (hm : (best.alnAt ua readIdx).unmapped = false) :
    (best.alnAt (updateEndMapq pb ext averageReadLength pairs ua best readIdx) readIdx).mapq
        = computeMapq pb.snpCost best.score
            (max pb.alnMinScore_
              (match (findSecondBest pb ext averageReadLength pairs ua best readIdx 0).1 with
                | some r => r.2.score
                | none => ext.INVALID_SCORE))
            ((max pb.aln_cfg_mapq_min_len_ averageReadLength : Int) : ℚ)
          - subMapqPenalty ext.libm
              (findSecondBest pb ext averageReadLength pairs ua best readIdx 0).2 ∧
      (∀ (m : Libm) (c : Int),
        subMapqPenalty m c = if c = 0 then 0 else truncQ (fl (3 * m.log2 (c : ℚ)))) ∧
      (∀ m : Libm, m.log2 1 = 0 → subMapqPenalty m 1 = 0) ∧
      (∀ m : Libm, m.log2 2 = 1 → subMapqPenalty m 2 = 3) ∧
      (∀ m : Libm, 3 / 2 ≤ m.log2 3 → m.log2 3 ≤ 13 / 8 → subMapqPenalty m 3 = 4) ∧
      (∀ m : Libm, m.log2 4 = 2 → subMapqPenalty m 4 = 6) ∧
      (∀ (m : Libm) (c p : Int), c ≠ 0 → 0 ≤ p → (p : ℚ) ≤ fl (3 * m.log2 (c : ℚ)) →
        fl (3 * m.log2 (c : ℚ)) < (p : ℚ) + 1 → subMapqPenalty m c = p) ∧
      (∀ c p : Nat, 1 ≤ c → 2 ^ p ≤ c ^ 3 → c ^ 3 < 2 ^ (p + 1) →
        (p : ℝ) ≤ 3 * Real.logb 2 c ∧ 3 * Real.logb 2 c < (p : ℝ) + 1) := by
  refine ⟨?_, subMapqPenalty_eq, ?_, ?_, ?_, ?_, ?_, ?_⟩
  · unfold updateEndMapq
    rw [if_neg (by simp [hm])]
    simp only
    rw [alnAt_modifyAt_same _ _ _ _ (by rw [length_get_modifyAt]; exact hv),
      alnAt_modifyAt_same _ _ _ _ hv, findSecondBestScore_outputs]
  · intro m h
    rw [subMapqPenalty_eq, if_neg (by norm_num)]
    have : fl (3 * m.log2 ((1 : Int) : ℚ)) = 0 := by
      rw [Int.cast_one, h]; simp [fl]
    rw [this]; simp [truncQ]
  · intro m h
    rw [subMapqPenalty_eq, if_neg (by norm_num)]
    have : fl (3 * m.log2 ((2 : Int) : ℚ)) = ((3 : Int) : ℚ) := by
      rw [show ((2 : Int) : ℚ) = 2 by norm_num, h, ← fl_intCast 3 (by norm_num)]
      norm_num
    rw [this, truncQ_intCast]
  · intro m h1 h2
    rw [subMapqPenalty_eq, if_neg (by norm_num), show ((3 : Int) : ℚ) = 3 by norm_num]
    have hy1 : (9 / 2 : ℚ) ≤ 3 * m.log2 3 := by linarith
    have hy2 : 3 * m.log2 3 ≤ (39 / 8 : ℚ) := by linarith
    have habs : |3 * m.log2 3| = 3 * m.log2 3 := abs_of_nonneg (by linarith)
    obtain ⟨a, b⟩ := fl_near (q := 3 * m.log2 3) (e := 2)
      (by rw [habs]; norm_num; linarith) (by rw [habs]; norm_num; linarith)
    have hu : (2 : ℚ) ^ ((2 : Int) - 52) ≤ 1 / 16 := by norm_num [zpow_neg]
    generalize (2 : ℚ) ^ ((2 : Int) - 52) = u at a b hu
    refine truncQ_eq_of_bracket (by norm_num) ?_ ?_
    · push_cast; linarith
    · push_cast; linarith
  · intro m h
    rw [subMapqPenalty_eq, if_neg (by norm_num)]
    have : fl (3 * m.log2 ((4 : Int) : ℚ)) = ((6 : Int) : ℚ) := by
      rw [show ((4 : Int) : ℚ) = 4 by norm_num, h, ← fl_intCast 6 (by norm_num)]
      norm_num
    rw [this, truncQ_intCast]
  · intro m c p hc hp h1 h2
    rw [subMapqPenalty_eq, if_neg hc]
    exact truncQ_eq_of_bracket hp h1 h2
  · intro c p hc h1 h2
    have hcr : (0 : ℝ) < c := by exact_mod_cast hc
    constructor
    · have h1r : ((2 : ℝ) ^ p) ≤ (c : ℝ) ^ 3 := by exact_mod_cast h1
      have h := Real.logb_le_logb_of_le (b := 2) (by norm_num) (by positivity) h1r
      rw [logb_two_pow, Real.logb_pow] at h
      exact_mod_cast h
    · have h2r : (c : ℝ) ^ 3 < (2 : ℝ) ^ (p + 1) := by exact_mod_cast h2
      have h := Real.logb_lt_logb (b := 2) (by norm_num) (by positivity) h2r
      rw [logb_two_pow, Real.logb_pow] at h
      push_cast at h
      exact h

/-- Witness of C3: end 0 of the top pair over `eligiblePools`, a mapped
candidate. -/
theorem updateEndMapq_mapped_mapq_witness :
    ((({ first := 0, second := 0, score := 110 } : AlignmentPair).idx false
          < (eligiblePools.get false).length) ∧
        ((({ first := 0, second := 0, score := 110 } : AlignmentPair).alnAt eligiblePools
          false).unmapped = false)) ∧
      (({ first := 0, second := 0, score := 110 } : AlignmentPair).alnAt
          (updateEndMapq examplePairBuilder exampleExternal 150 ineligibleTopPairs eligiblePools
            { first := 0, second := 0, score := 110 } false) false).mapq
        = computeMapq examplePairBuilder.snpCost 110
            (max examplePairBuilder.alnMinScore_
              (match (findSecondBest examplePairBuilder exampleExternal 150 ineligibleTopPairs
                  eligiblePools { first := 0, second := 0, score := 110 } false 0).1 with
                | some r => r.2.score
                | none => exampleExternal.INVALID_SCORE))
            ((max examplePairBuilder.aln_cfg_mapq_min_len_ 150 : Int) : ℚ)
          - subMapqPenalty exampleExternal.libm
              (findSecondBest examplePairBuilder exampleExternal 150 ineligibleTopPairs
                eligiblePools { first := 0, second := 0, score := 110 } false 0).2 :=
  ⟨⟨by decide, by decide⟩,
    (updateEndMapq_mapped_mapq examplePairBuilder exampleExternal 150 ineligibleTopPairs
      eligiblePools { first := 0, second := 0, score := 110 } false (by decide) (by decide)).1⟩

/-! ## The pairing penalty -/

theorem mapq2aln_example : mapq2aln exampleLibm 5 150 = 6193139209184149 / 18014398509481984 := by
  unfold mapq2aln
  simp only [mapqCoeffScaled_5]
  have hl : exampleLibm.log 150 / exampleLibm.log 2
      = (2820736905422669 / 562949953421312) / (6243314768165359 / 9007199254740992) := by
    simp only [exampleLibm]
    norm_num
  have h1 : fl (exampleLibm.log 150 / exampleLibm.log 2)
      = 8138926290211531 / 1125899906842624 := by
    rw [hl, fl_eq_of_bounds (e := 2) (by norm_num [abs_of_pos]) (by norm_num [abs_of_pos])]
    unfold roundHalfEven
    norm_num [zpow_neg]
  have h2 : exampleLibm.pow (8138926290211531 / 1125899906842624) 2
      = 7354352810906177 / 140737488355328 := by
    simp only [exampleLibm, if_true]
    rw [fl_eq_of_bounds (e := 5) (by norm_num [abs_of_pos]) (by norm_num [abs_of_pos])]
    unfold roundHalfEven
    norm_num [zpow_neg]
  rw [h1, h2, fl_eq_of_bounds (e := -2) (by norm_num [abs_of_pos, zpow_neg])
    (by norm_num [abs_of_pos, zpow_neg])]
  unfold roundHalfEven
  norm_num [zpow_neg]

theorem computePairPenalty_unpaired_eq (pb : PairBuilder) (m : Libm)
    (insertSizeParameters : InsertSizeParameters) (readPair : ReadPair)
    (c1 c2 : Option SeedChain) (properPair : Bool)
    (h : c1 = none ∨ c2 = none ∨ properPair = false) :
    computePairPenalty pb m insertSizeParameters readPair c1 c2 properPair
      = truncQ (fl (mapq2aln m pb.snpCost readPair.length * (pb.aln_cfg_unpaired_pen_ : ℚ))) := by
  unfold computePairPenalty
  rcases h with h | h | h
  · subst h; rfl
  · subst h; cases c1 <;> rfl
  · subst h; cases c1 <;> cases c2 <;> rfl

/-- C10, counterexample: with both chains absent, unpaired penalty 80, SNP
cost 5 and read length 150, `computePairPenalty` returns 27, not 80. -/
theorem computePairPenalty_unpaired_is_scaled :
    examplePairBuilder.aln_cfg_unpaired_pen_ = 80 ∧
      computePairPenalty examplePairBuilder exampleLibm exampleInsertSizeParameters
        exampleReadPair none none false = 27 ∧
      computePairPenalty examplePairBuilder exampleLibm exampleInsertSizeParameters
        exampleReadPair none none false ≠ examplePairBuilder.aln_cfg_unpaired_pen_ := by
  have h : computePairPenalty examplePairBuilder exampleLibm exampleInsertSizeParameters
      exampleReadPair none none false = 27 := by
    rw [computePairPenalty_unpaired_eq _ _ _ _ _ _ _ (Or.inl rfl)]
    simp only [examplePairBuilder, exampleReadPair, mapq2aln_example]
    rw [fl_eq_of_bounds (e := 4) (by norm_num [abs_of_pos]) (by norm_num [abs_of_pos])]
    unfold roundHalfEven truncQ
    norm_num [zpow_neg]
  refine ⟨rfl, h, ?_⟩
  rw [h]
  decide

/-- C10, amended: whenever either chain is absent or the candidate is not a
proper-pair candidate, `computePairPenalty` returns the configured unpaired
penalty scaled into alignment-score units,
`int(mapq2aln(snpCost, readPair.getLength()) * aln_cfg_unpaired_pen_)`, for
every read pair, SNP cost and insert-size configuration. -/
theorem computePairPenalty_unpaired (pb : PairBuilder) (m : Libm)
    (insertSizeParameters : InsertSizeParameters) (readPair : ReadPair)
    (c1 c2 : Option SeedChain) (properPair : Bool)
    (h : c1 = none ∨ c2 = none ∨ properPair = false) :
    computePairPenalty pb m insertSizeParameters readPair c1 c2 properPair
      = truncQ (fl (mapq2aln m pb.snpCost readPair.length * (pb.aln_cfg_unpaired_pen_ : ℚ))) ∧
      (∀ (insertSizeParameters' : InsertSizeParameters) (c1' c2' : Option SeedChain)
          (properPair' : Bool), (c1' = none ∨ c2' = none ∨ properPair' = false) →
        computePairPenalty pb m insertSizeParameters' readPair c1' c2' properPair'
          = computePairPenalty pb m insertSizeParameters readPair c1 c2 properPair) := by
  refine ⟨computePairPenalty_unpaired_eq pb m insertSizeParameters readPair c1 c2 properPair h,
    fun isp' c1' c2' pp' h' => ?_⟩
  rw [computePairPenalty_unpaired_eq pb m isp' readPair c1' c2' pp' h',
    computePairPenalty_unpaired_eq pb m insertSizeParameters readPair c1 c2 properPair h]

/-- Witness of the amended C10: a present first chain, an absent second
chain. -/
theorem computePairPenalty_unpaired_witness :
    ((some { firstReferencePosition := 1000, lastReferencePosition := 1100, lastReadBase := 100,
              isReverseComplement := false } : Option SeedChain) = none ∨
        (none : Option SeedChain) = none ∨ true = false) ∧
      computePairPenalty examplePairBuilder exampleLibm exampleInsertSizeParameters
          exampleReadPair
          (some { firstReferencePosition := 1000, lastReferencePosition := 1100,
                  lastReadBase := 100, isReverseComplement := false }) none true
        = truncQ (fl (mapq2aln exampleLibm examplePairBuilder.snpCost exampleReadPair.length
            * (examplePairBuilder.aln_cfg_unpaired_pen_ : ℚ))) :=
  ⟨Or.inr (Or.inl rfl),
    (computePairPenalty_unpaired examplePairBuilder exampleLibm exampleInsertSizeParameters
      exampleReadPair
      (some { firstReferencePosition := 1000, lastReferencePosition := 1100,
              lastReadBase := 100, isReverseComplement := false }) none true
      (Or.inr (Or.inl rfl))).1⟩


/-! ## The penalty ROM and its address -/

theorem nondecreasing_getD (l : List Int) (h : nondecreasing l = true) :
    ∀ i : Nat, i + 1 < l.length → l.getD i 0 ≤ l.getD (i + 1) 0 := by
  induction l with
  | nil => intro i hi; simp at hi
  | cons a t ih =>
    cases t with
    | nil => intro i hi; simp at hi
    | cons b t =>
      simp only [nondecreasing, Bool.and_eq_true, decide_eq_true_eq] at h
      intro i hi
      cases i with
      | zero => simpa using h.1
      | succ n =>
        have := ih h.2 n (by simpa using hi)
        simpa using this

theorem range_getD (l : List Int) (lo hi : Int) (h : ∀ x ∈ l, lo ≤ x ∧ x ≤ hi) :
    ∀ i : Nat, i < l.length → lo ≤ l.getD i 0 ∧ l.getD i 0 ≤ hi := by
  intro i hi'
  rw [List.getD_eq_getElem _ _ hi']
  exact h _ (List.getElem_mem _)

set_option maxRecDepth 100000 in
theorem petab_nondecreasing : nondecreasing petab_rom_c = true := by decide

set_option maxRecDepth 100000 in
theorem petab_range : ∀ x ∈ petab_rom_c, 0 ≤ x ∧ x ≤ 255 := by decide

set_option maxRecDepth 100000 in
theorem petab_length : petab_rom_c.length = 512 := by decide

set_option maxRecDepth 100000 in
/-- C13: the ROM `petab_rom_c` has exactly 512 entries, is non-decreasing in
its index, starts at 0, has every entry in 0..255 and ends with 255. -/
theorem petab_rom_c_shape :
    petab_rom_c.length = 512 ∧
      (∀ i : Nat, i < 511 → petab_rom_c.getD i 0 ≤ petab_rom_c.getD (i + 1) 0) ∧
      petab_rom_c.getD 0 0 = 0 ∧
      (∀ i : Nat, i < 512 → 0 ≤ petab_rom_c.getD i 0 ∧ petab_rom_c.getD i 0 ≤ 255) ∧
      petab_rom_c.getD 511 0 = 0xFF := by
  refine ⟨petab_length, ?_, by decide, ?_, by decide⟩
  · intro i hi
    exact nondecreasing_getD _ petab_nondecreasing i (by rw [petab_length]; omega)
  · intro i hi
    exact range_getD _ 0 255 petab_range i (by rw [petab_length]; exact hi)

theorem petabTab_mono {i j : Nat} (hij : i ≤ j) (hj : j < 512) : petabTab i ≤ petabTab j := by
  induction j, hij using Nat.le_induction with
  | base => exact le_refl _
  | succ n _ ih =>
    exact le_trans (ih (by omega))
      (nondecreasing_getD _ petab_nondecreasing n (by rw [petab_length]; omega))

theorem petabTab_nonneg (i : Nat) : 0 ≤ petabTab i := by
  by_cases h : i < 512
  · exact (range_getD _ 0 255 petab_range i (by rw [petab_length]; exact h)).1
  · unfold petabTab
    rw [List.getD_eq_default _ _ (by rw [petab_length]; omega)]

theorem petabAddress_eq (isp : InsertSizeParameters) (c1 c2 : SeedChain) :
    petabAddress isp c1 c2 = ((quantizedDeviation isp c1 c2 % 512 : Nat) : Int) := by
  unfold petabAddress quantizedDeviation insertDiff insertLen insertSpan
  simp only
  rw [show ((1 <<< 9) - 1 : Nat) = 2 ^ 9 - 1 by decide, Nat.and_comm,
    Nat.and_pow_two_sub_one_eq_mod]

theorem computePairPenalty_proper_eq (pb : PairBuilder) (m : Libm) (isp : InsertSizeParameters)
    (readPair : ReadPair) (c1 c2 : SeedChain) :
    computePairPenalty pb m isp readPair (some c1) (some c2) true
      = truncQ (fl (mapq2aln m pb.snpCost readPair.length
          * (petabTab (quantizedDeviation isp c1 c2 % 512) : ℚ))) := by
  unfold computePairPenalty
  simp only [petabAddress_eq, petab_length]
  rw [if_pos (by have := Nat.mod_lt (quantizedDeviation isp c1 c2) (by norm_num : 0 < 512); omega),
    Int.toNat_ofNat]
  rfl

/-! ## Binary64 rounding: monotonicity -/

theorem roundHalfEven_ge_floor (q : ℚ) : ⌊q⌋ ≤ roundHalfEven q := by
  unfold roundHalfEven
  simp only
  split_ifs <;> omega

theorem roundHalfEven_le_floor_succ (q : ℚ) : roundHalfEven q ≤ ⌊q⌋ + 1 := by
  unfold roundHalfEven
  simp only
  split_ifs <;> omega

theorem roundHalfEven_mono {q1 q2 : ℚ} (h : q1 ≤ q2) : roundHalfEven q1 ≤ roundHalfEven q2 := by
  have hf : ⌊q1⌋ ≤ ⌊q2⌋ := Int.floor_le_floor h
  rcases lt_or_eq_of_le hf with hlt | heq
  · have a := roundHalfEven_le_floor_succ q1
    have b := roundHalfEven_ge_floor q2
    omega
  · unfold roundHalfEven
    simp only
    rw [heq]
    split_ifs <;> first | omega | (exfalso; linarith)

theorem truncQ_mono {q1 q2 : ℚ} (h : q1 ≤ q2) : truncQ q1 ≤ truncQ q2 := by
  unfold truncQ
  split_ifs with h1 h2 h2
  · exact Int.floor_le_floor h
  · exact absurd (le_trans h1 h) h2
  · have a : ⌈q1⌉ ≤ 0 := Int.ceil_le.mpr (by push_cast; linarith)
    have b : 0 ≤ ⌊q2⌋ := Int.floor_nonneg.mpr h2
    omega
  · exact Int.ceil_le_ceil h

theorem fl_bounds_of_pos {q : ℚ} {e : Int} (h1 : (2 : ℚ) ^ e ≤ q) (h2 : q < (2 : ℚ) ^ (e + 1)) :
    (2 : ℚ) ^ e ≤ fl q ∧ fl q ≤ (2 : ℚ) ^ (e + 1) := by
  have hq : 0 < q := lt_of_lt_of_le (by positivity) h1
  have habs : |q| = q := abs_of_pos hq
  rw [fl_eq_of_bounds (e := e) (by rw [habs]; exact h1) (by rw [habs]; exact h2)]
  have hu : (0 : ℚ) < (2 : ℚ) ^ (e - 52) := by positivity
  have h2ne : (2 : ℚ) ≠ 0 := by norm_num
  have e1 : (2 : ℚ) ^ e = ((2 ^ 52 : Int) : ℚ) * (2 : ℚ) ^ (e - 52) := by
    rw [show e = (52 : Int) + (e - 52) by ring, zpow_add₀ h2ne]
    norm_num
  have e2 : (2 : ℚ) ^ (e + 1) = ((2 ^ 53 : Int) : ℚ) * (2 : ℚ) ^ (e - 52) := by
    rw [show e + 1 = (53 : Int) + (e - 52) by ring, zpow_add₀ h2ne]
    norm_num
  have lo : ((2 ^ 52 : Int) : ℚ) ≤ q / (2 : ℚ) ^ (e - 52) := by
    rw [le_div_iff₀ hu, ← e1]; exact h1
  have hi : q / (2 : ℚ) ^ (e - 52) ≤ ((2 ^ 53 : Int) : ℚ) := by
    rw [div_le_iff₀ hu, ← e2]; exact h2.le
  have a := roundHalfEven_mono lo
  have b := roundHalfEven_mono hi
  rw [roundHalfEven_intCast] at a b
  rw [e1, e2]
  constructor
  · exact mul_le_mul_of_nonneg_right (by exact_mod_cast a) hu.le
  · exact mul_le_mul_of_nonneg_right (by exact_mod_cast b) hu.le

theorem fl_mono_of_nonneg {q1 q2 : ℚ} (h0 : 0 ≤ q1) (h : q1 ≤ q2) : fl q1 ≤ fl q2 := by
  rcases eq_or_lt_of_le h0 with hz | hpos
  · rw [← hz]
    have : fl 0 = 0 := by simp [fl]
    rw [this]
    exact fl_nonneg (le_trans h0 h)
  · have hpos2 : 0 < q2 := lt_of_lt_of_le hpos h
    have a1 : (2 : ℚ) ^ Int.log 2 q1 ≤ q1 := by
      have := Int.zpow_log_le_self (R := ℚ) (b := 2) (by norm_num) hpos
      exact_mod_cast this
    have a2 : q1 < (2 : ℚ) ^ (Int.log 2 q1 + 1) := by
      have := Int.lt_zpow_succ_log_self (R := ℚ) (b := 2) (by norm_num) q1
      exact_mod_cast this
    have b1 : (2 : ℚ) ^ Int.log 2 q2 ≤ q2 := by
      have := Int.zpow_log_le_self (R := ℚ) (b := 2) (by norm_num) hpos2
      exact_mod_cast this
    have b2 : q2 < (2 : ℚ) ^ (Int.log 2 q2 + 1) := by
      have := Int.lt_zpow_succ_log_self (R := ℚ) (b := 2) (by norm_num) q2
      exact_mod_cast this
    have hlog : Int.log 2 q1 ≤ Int.log 2 q2 := Int.log_mono_right hpos h
    rcases lt_or_eq_of_le hlog with hlt | heq
    · have c1 := (fl_bounds_of_pos a1 a2).2
      have c2 := (fl_bounds_of_pos b1 b2).1
      have c3 : (2 : ℚ) ^ (Int.log 2 q1 + 1) ≤ (2 : ℚ) ^ Int.log 2 q2 :=
        zpow_le_zpow_right₀ (by norm_num) (by omega)
      linarith
    · rw [fl_eq_of_bounds (e := Int.log 2 q1) (by rw [abs_of_pos hpos]; exact a1)
          (by rw [abs_of_pos hpos]; exact a2),
        fl_eq_of_bounds (e := Int.log 2 q1) (by rw [abs_of_pos hpos2, heq]; exact b1)
          (by rw [abs_of_pos hpos2, heq]; exact b2)]
      have hu : (0 : ℚ) < (2 : ℚ) ^ (Int.log 2 q1 - 52) := by positivity
      have := roundHalfEven_mono (div_le_div_of_nonneg_right h hu.le)
      exact mul_le_mul_of_nonneg_right (by exact_mod_cast this) hu.le

theorem scaled_penalty_mono {scale : ℚ} (hs : 0 ≤ scale) {t1 t2 : Int} (h0 : 0 ≤ t1)
    (h : t1 ≤ t2) : truncQ (fl (scale * (t1 : ℚ))) ≤ truncQ (fl (scale * (t2 : ℚ))) := by
  apply truncQ_mono
  apply fl_mono_of_nonneg
  · exact mul_nonneg hs (by exact_mod_cast h0)
  · exact mul_le_mul_of_nonneg_left (by exact_mod_cast h) hs

/-! ## The pairing penalty of a proper pair -/

theorem mapq2aln_nonneg (m : Libm) (snpCost : Int) (readLength : ℚ) (hs : 0 ≤ snpCost)
    (hpow : ∀ x : ℚ, 0 ≤ m.pow x 2) : 0 ≤ mapq2aln m snpCost readLength := by
  unfold mapq2aln
  exact fl_nonneg (div_nonneg (hpow _) (mapqCoeffScaled_nonneg hs))

theorem toUInt32_of_range {v : Int} (h0 : 0 ≤ v) (h1 : v < 2 ^ 32) : toUInt32 v = v := by
  unfold toUInt32
  exact Int.emod_eq_of_lt h0 h1

theorem quantizedDeviation_of_small (isp : InsertSizeParameters) (c1 c2 : SeedChain)
    (hs : 0 ≤ isp.sigmaFactor) (h : insertDiff isp c1 c2 * isp.sigmaFactor < 2 ^ 32) :
    quantizedDeviation isp c1 c2 = (insertDiff isp c1 c2 * isp.sigmaFactor).toNat / 4096 := by
  have hd : 0 ≤ insertDiff isp c1 c2 := abs_nonneg _
  unfold quantizedDeviation
  rw [toUInt32_of_range (mul_nonneg hd hs) h, Nat.shiftRight_eq_div_pow]

set_option maxRecDepth 100000 in
theorem petabTab_0 : petabTab 0 = 0 := by decide

set_option maxRecDepth 100000 in
theorem petabTab_499 : petabTab 499 = 0xFF := by decide

set_option maxRecDepth 100000 in
theorem petabTab_511 : petabTab 511 = 0xFF := by decide

theorem petabTab_top : ∀ i : Nat, 499 ≤ i → i < 512 → petabTab i = 0xFF := by
  intro i h1 h2
  have a : petabTab 499 = 0xFF := petabTab_499
  have b := petabTab_mono h1 h2
  have c := (range_getD _ 0 255 petab_range i (by rw [petab_length]; exact h2)).2
  have d : petabTab i ≤ 255 := c
  rw [a] at b
  omega

theorem example_quantizedDeviation_511 :
    quantizedDeviation unitSigmaParameters (exampleChain 1000 1100 false)
      (exampleChain 1910 2010 true) = 511 := by
  decide

theorem example_quantizedDeviation_512 :
    quantizedDeviation unitSigmaParameters (exampleChain 1000 1100 false)
      (exampleChain 1911 2011 true) = 512 := by
  decide

theorem example_penalty_at_255 :
    truncQ (fl (mapq2aln exampleLibm examplePairBuilder.snpCost exampleReadPair.length
      * ((0xFF : Int) : ℚ))) = 87 := by
  simp only [examplePairBuilder, exampleReadPair, mapq2aln_example]
  rw [fl_eq_of_bounds (e := 6) (by norm_num [abs_of_pos]) (by norm_num [abs_of_pos])]
  unfold roundHalfEven truncQ
  norm_num [zpow_neg]

theorem example_penalty_at_0 (scale : ℚ) : truncQ (fl (scale * ((0 : Int) : ℚ))) = 0 := by
  simp [fl, truncQ]

theorem example_penalty_dev_511 :
    computePairPenalty examplePairBuilder exampleLibm unitSigmaParameters exampleReadPair
      (some (exampleChain 1000 1100 false)) (some (exampleChain 1910 2010 true)) true = 87 := by
  rw [computePairPenalty_proper_eq, example_quantizedDeviation_511,
    show petabTab (511 % 512) = 0xFF from petabTab_511]
  exact example_penalty_at_255

theorem example_penalty_dev_512 :
    computePairPenalty examplePairBuilder exampleLibm unitSigmaParameters exampleReadPair
      (some (exampleChain 1000 1100 false)) (some (exampleChain 1911 2011 true)) true = 0 := by
  rw [computePairPenalty_proper_eq, example_quantizedDeviation_512,
    show petabTab (512 % 512) = 0 from petabTab_0]
  exact example_penalty_at_0 _

/-- C11, counterexample: with sigma factor 1.0 and a deviation of 512 the
quantized deviation is 512, beyond the address range; the 9-bit mask turns it
into address 0, the table value used is 0 and the penalty is 0, while address
511 gives the table value 0xFF and the penalty 87. -/
theorem penalty_wraps_beyond_address_range :
    511 ≤ quantizedDeviation unitSigmaParameters (exampleChain 1000 1100 false)
        (exampleChain 1911 2011 true) ∧
      petabAddress unitSigmaParameters (exampleChain 1000 1100 false)
        (exampleChain 1911 2011 true) = 0 ∧
      petabTab 0 = 0 ∧ petabTab 511 = 0xFF ∧
      computePairPenalty examplePairBuilder exampleLibm unitSigmaParameters exampleReadPair
        (some (exampleChain 1000 1100 false)) (some (exampleChain 1911 2011 true)) true = 0 ∧
      computePairPenalty examplePairBuilder exampleLibm unitSigmaParameters exampleReadPair
        (some (exampleChain 1000 1100 false)) (some (exampleChain 1910 2010 true)) true = 87 := by
  refine ⟨?_, ?_, petabTab_0, petabTab_511, example_penalty_dev_512, example_penalty_dev_511⟩
  · rw [example_quantizedDeviation_512]; decide
  · rw [petabAddress_eq, example_quantizedDeviation_512]; decide

/-- C11, amended: for a proper-pair candidate with both chains the ROM address
is the quantized deviation `(|insertLength - mean| * sigmaFactor) >> 12` reduced
to its low 9 bits; whenever that address is 499 or larger, in particular
whenever the quantized deviation lies in 499..511, the table value used is the
maximum entry 0xFF and the penalty equals the penalty obtained at address
511. -/
theorem penalty_saturates_at_top_of_range (pb : PairBuilder) (m : Libm)
    (isp : InsertSizeParameters) (readPair : ReadPair) (c1 c2 : SeedChain)
    (h : 499 ≤ quantizedDeviation isp c1 c2 % 512) :
    petabAddress isp c1 c2 = ((quantizedDeviation isp c1 c2 % 512 : Nat) : Int) ∧
      petabTab (quantizedDeviation isp c1 c2 % 512) = 0xFF ∧
      petabTab 511 = 0xFF ∧
      computePairPenalty pb m isp readPair (some c1) (some c2) true
        = truncQ (fl (mapq2aln m pb.snpCost readPair.length * ((0xFF : Int) : ℚ))) ∧
      computePairPenalty pb m isp readPair (some c1) (some c2) true
        = truncQ (fl (mapq2aln m pb.snpCost readPair.length * (petabTab 511 : ℚ))) := by
  have hlt : quantizedDeviation isp c1 c2 % 512 < 512 := Nat.mod_lt _ (by norm_num)
  have ht := petabTab_top _ h hlt
  have h511 : petabTab 511 = 0xFF := petabTab_511
  refine ⟨petabAddress_eq isp c1 c2, ht, h511, ?_, ?_⟩
  · rw [computePairPenalty_proper_eq, ht]
  · rw [computePairPenalty_proper_eq, ht, h511]

/-- Witness of the amended C11: a deviation of 511 at sigma factor 1.0. -/
theorem penalty_saturates_at_top_of_range_witness :
    499 ≤ quantizedDeviation unitSigmaParameters (exampleChain 1000 1100 false)
        (exampleChain 1910 2010 true) % 512 ∧
      computePairPenalty examplePairBuilder exampleLibm unitSigmaParameters exampleReadPair
          (some (exampleChain 1000 1100 false)) (some (exampleChain 1910 2010 true)) true
        = truncQ (fl (mapq2aln exampleLibm examplePairBuilder.snpCost exampleReadPair.length
            * ((0xFF : Int) : ℚ))) :=
  ⟨by decide,
    (penalty_saturates_at_top_of_range examplePairBuilder exampleLibm unitSigmaParameters
      exampleReadPair (exampleChain 1000 1100 false) (exampleChain 1910 2010 true)
      (by decide)).2.2.2.1⟩

/-- C12, counterexample: at sigma factor 1.0 the deviation 511 gives the
penalty 87 and the larger deviation 512 gives the penalty 0. -/
theorem penalty_not_monotone_across_wrap :
    insertDiff unitSigmaParameters (exampleChain 1000 1100 false) (exampleChain 1910 2010 true)
        = 511 ∧
      insertDiff unitSigmaParameters (exampleChain 1000 1100 false) (exampleChain 1911 2011 true)
        = 512 ∧
      ¬ (computePairPenalty examplePairBuilder exampleLibm unitSigmaParameters exampleReadPair
            (some (exampleChain 1000 1100 false)) (some (exampleChain 1910 2010 true)) true
          ≤ computePairPenalty examplePairBuilder exampleLibm unitSigmaParameters exampleReadPair
            (some (exampleChain 1000 1100 false)) (some (exampleChain 1911 2011 true)) true) := by
  refine ⟨by decide, by decide, ?_⟩
  rw [example_penalty_dev_511, example_penalty_dev_512]
  decide

/-- C12, amended: for a proper-pair candidate with both chains, a fixed
orientation, mean, sigma factor, SNP cost and read pair, with a non-negative
sigma factor, a positive SNP cost and a library `pow(x, 2)` that is never
negative, `computePairPenalty` is non-decreasing in the deviation
`|insertLength - mean|` as long as the ROM address does not wrap: for
deviations `d1 ≤ d2` with `d2 * sigmaFactor < 2 ^ 21` (quantized deviation at
most 511) the penalty for `d1` is at most the penalty for `d2`. -/
theorem computePairPenalty_monotone_in_range (pb : PairBuilder) (m : Libm)
    (isp : InsertSizeParameters) (readPair : ReadPair) (c1 c2 c1' c2' : SeedChain)
    (hsnp : 0 < pb.snpCost) (hpow : ∀ x : ℚ, 0 ≤ m.pow x 2) (hsig : 0 ≤ isp.sigmaFactor)
    (hd : insertDiff isp c1 c2 ≤ insertDiff isp c1' c2')
    (hr : insertDiff isp c1' c2' * isp.sigmaFactor < 2 ^ 21) :
    computePairPenalty pb m isp readPair (some c1) (some c2) true
      ≤ computePairPenalty pb m isp readPair (some c1') (some c2') true := by
  have hd1 : 0 ≤ insertDiff isp c1 c2 := abs_nonneg _
  have hle : insertDiff isp c1 c2 * isp.sigmaFactor ≤ insertDiff isp c1' c2' * isp.sigmaFactor :=
    mul_le_mul_of_nonneg_right hd hsig
  have hp1 : 0 ≤ insertDiff isp c1 c2 * isp.sigmaFactor := mul_nonneg hd1 hsig
  have q1 := quantizedDeviation_of_small isp c1 c2 hsig (by omega)
  have q2 := quantizedDeviation_of_small isp c1' c2' hsig (by omega)
  have hq : quantizedDeviation isp c1 c2 ≤ quantizedDeviation isp c1' c2' := by
    rw [q1, q2]
    exact Nat.div_le_div_right (by omega)
  have hq2 : quantizedDeviation isp c1' c2' < 512 := by
    rw [q2]
    have : (insertDiff isp c1' c2' * isp.sigmaFactor).toNat < 2 ^ 21 := by omega
    omega
  rw [computePairPenalty_proper_eq, computePairPenalty_proper_eq,
    Nat.mod_eq_of_lt (lt_of_le_of_lt hq hq2), Nat.mod_eq_of_lt hq2]
  exact scaled_penalty_mono (mapq2aln_nonneg m pb.snpCost readPair.length hsnp.le hpow)
    (petabTab_nonneg _) (petabTab_mono hq hq2)

theorem exampleLibm_pow_nonneg : ∀ x : ℚ, 0 ≤ exampleLibm.pow x 2 := by
  intro x
  simp only [exampleLibm, if_true]
  exact fl_nonneg (mul_self_nonneg x)

/-- Witness of the amended C12: deviations 99 and 511 at sigma factor 1.0. -/
theorem computePairPenalty_monotone_in_range_witness :
    ((0 : Int) < examplePairBuilder.snpCost ∧ (0 : Int) ≤ unitSigmaParameters.sigmaFactor ∧
        insertDiff unitSigmaParameters (exampleChain 1000 1100 false)
            (exampleChain 1300 1400 true)
          ≤ insertDiff unitSigmaParameters (exampleChain 1000 1100 false)
            (exampleChain 1910 2010 true) ∧
        insertDiff unitSigmaParameters (exampleChain 1000 1100 false)
            (exampleChain 1910 2010 true) * unitSigmaParameters.sigmaFactor < 2 ^ 21) ∧
      computePairPenalty examplePairBuilder exampleLibm unitSigmaParameters exampleReadPair
          (some (exampleChain 1000 1100 false)) (some (exampleChain 1300 1400 true)) true
        ≤ computePairPenalty examplePairBuilder exampleLibm unitSigmaParameters exampleReadPair
          (some (exampleChain 1000 1100 false)) (some (exampleChain 1910 2010 true)) true :=
  ⟨⟨by decide, by decide, by decide, by decide⟩,
    computePairPenalty_monotone_in_range examplePairBuilder exampleLibm unitSigmaParameters
      exampleReadPair (exampleChain 1000 1100 false) (exampleChain 1300 1400 true)
      (exampleChain 1000 1100 false) (exampleChain 1910 2010 true)
      (by decide) exampleLibm_pow_nonneg (by decide) (by decide) (by decide)⟩

/-! ## The insert span -/

theorem insertSpan_fr_rf (isp : InsertSizeParameters) (fwd rev : SeedChain)
    (hf : fwd.isReverseComplement = false) (hr : rev.isReverseComplement = true) :
    (isp.orientation_ = Orientation.pe_orient_fr_c →
        insertSpan isp fwd rev
            = (toUInt32 fwd.firstReferencePosition, toUInt32 rev.lastReferencePosition) ∧
          insertSpan isp rev fwd
            = (toUInt32 fwd.firstReferencePosition, toUInt32 rev.lastReferencePosition)) ∧
      (isp.orientation_ = Orientation.pe_orient_rf_c →
        insertSpan isp fwd rev
            = (toUInt32 rev.firstReferencePosition, toUInt32 fwd.lastReferencePosition) ∧
          insertSpan isp rev fwd
            = (toUInt32 rev.firstReferencePosition, toUInt32 fwd.lastReferencePosition)) := by
  constructor
  · intro ho
    unfold insertSpan
    simp [ho, hf, hr]
  · intro ho
    unfold insertSpan
    simp [ho, hf, hr]

theorem example_insert_fr (s : Int) :
    insertSpan { orientation_ := Orientation.pe_orient_fr_c, mean_ := 500, sigmaFactor := s }
        (exampleChain 1000 1100 false) (exampleChain 1300 1400 true) = (1000, 1400) ∧
      insertSpan { orientation_ := Orientation.pe_orient_fr_c, mean_ := 500, sigmaFactor := s }
        (exampleChain 1300 1400 true) (exampleChain 1000 1100 false) = (1000, 1400) := by
  constructor <;> simp [insertSpan, exampleChain, toUInt32]

theorem example_insertDiff_fr (s : Int) :
    (insertLen { orientation_ := Orientation.pe_orient_fr_c, mean_ := 500, sigmaFactor := s }
        (exampleChain 1000 1100 false) (exampleChain 1300 1400 true) = 401 ∧
      insertDiff { orientation_ := Orientation.pe_orient_fr_c, mean_ := 500, sigmaFactor := s }
        (exampleChain 1000 1100 false) (exampleChain 1300 1400 true) = 99) ∧
      (insertLen { orientation_ := Orientation.pe_orient_fr_c, mean_ := 500, sigmaFactor := s }
        (exampleChain 1300 1400 true) (exampleChain 1000 1100 false) = 401 ∧
      insertDiff { orientation_ := Orientation.pe_orient_fr_c, mean_ := 500, sigmaFactor := s }
        (exampleChain 1300 1400 true) (exampleChain 1000 1100 false) = 99) := by
  have h := example_insert_fr s
  have l1 : toInt32 (toUInt32 ((1400 : Int) - 1000 + 1)) = 401 := by decide
  have a1 : |(401 : Int) - 500| = 99 := by decide
  refine ⟨⟨?_, ?_⟩, ⟨?_, ?_⟩⟩
  · unfold insertLen; rw [h.1]; exact l1
  · unfold insertDiff insertLen; rw [h.1]; simp only; rw [l1]; exact a1
  · unfold insertLen; rw [h.2]; exact l1
  · unfold insertDiff insertLen; rw [h.2]; simp only; rw [l1]; exact a1

theorem example_petabAddress_fr (s : Int) :
    petabAddress { orientation_ := Orientation.pe_orient_fr_c, mean_ := 500, sigmaFactor := s }
        (exampleChain 1000 1100 false) (exampleChain 1300 1400 true)
        = ((((toUInt32 (99 * s)).toNat >>> 12) &&& 511 : Nat) : Int) ∧
      petabAddress { orientation_ := Orientation.pe_orient_fr_c, mean_ := 500, sigmaFactor := s }
        (exampleChain 1300 1400 true) (exampleChain 1000 1100 false)
        = ((((toUInt32 (99 * s)).toNat >>> 12) &&& 511 : Nat) : Int) := by
  have h := example_insertDiff_fr s
  have hand : ∀ q : Nat, q &&& 511 = q % 512 := fun q =>
    Nat.and_pow_two_sub_one_eq_mod q 9
  constructor
  · rw [petabAddress_eq, hand]
    unfold quantizedDeviation
    rw [h.1.2]
  · rw [petabAddress_eq, hand]
    unfold quantizedDeviation
    rw [h.2.2]

/-- C14: with a forward-reverse (resp. reverse-forward) expected orientation
and two chains on opposite strands, the insert begin is the first reference
position of the forward (resp. reverse) chain and the insert end the last
reference position of the other chain, in whichever order the chains are
passed.  For orientation forward-reverse, forward chain `[1000, 1100]`, reverse
chain `[1300, 1400]` and mean 500: insert begin 1000, insert end 1400, insert
length 401, deviation 99 and ROM address `((99 * sigmaFactor) >> 12) & 511`. -/
theorem computePairPenalty_insert_span (isp : InsertSizeParameters) (fwd rev : SeedChain)
    (hf : fwd.isReverseComplement = false) (hr : rev.isReverseComplement = true) :
    (isp.orientation_ = Orientation.pe_orient_fr_c →
        insertSpan isp fwd rev
            = (toUInt32 fwd.firstReferencePosition, toUInt32 rev.lastReferencePosition) ∧
          insertSpan isp rev fwd
            = (toUInt32 fwd.firstReferencePosition, toUInt32 rev.lastReferencePosition)) ∧
      (isp.orientation_ = Orientation.pe_orient_rf_c →
        insertSpan isp fwd rev
            = (toUInt32 rev.firstReferencePosition, toUInt32 fwd.lastReferencePosition) ∧
          insertSpan isp rev fwd
            = (toUInt32 rev.firstReferencePosition, toUInt32 fwd.lastReferencePosition)) ∧
      (∀ p : Int, 0 ≤ p → p < 2 ^ 32 → toUInt32 p = p) ∧
      (∀ (pb : PairBuilder) (m : Libm) (readPair : ReadPair) (c1 c2 : SeedChain),
        petabAddress isp c1 c2
            = ((((toUInt32 (insertDiff isp c1 c2 * isp.sigmaFactor)).toNat >>> 12) &&& 511 : Nat)
                : Int) ∧
          computePairPenalty pb m isp readPair (some c1) (some c2) true
            = truncQ (fl (mapq2aln m pb.snpCost readPair.length
                * (petab_rom_c.getD (petabAddress isp c1 c2).toNat 0 : ℚ)))) ∧
      (∀ s : Int,
        insertSpan { orientation_ := Orientation.pe_orient_fr_c, mean_ := 500, sigmaFactor := s }
            (exampleChain 1000 1100 false) (exampleChain 1300 1400 true) = (1000, 1400) ∧
          insertSpan { orientation_ := Orientation.pe_orient_fr_c, mean_ := 500, sigmaFactor := s }
            (exampleChain 1300 1400 true) (exampleChain 1000 1100 false) = (1000, 1400) ∧
          insertLen { orientation_ := Orientation.pe_orient_fr_c, mean_ := 500, sigmaFactor := s }
            (exampleChain 1000 1100 false) (exampleChain 1300 1400 true) = 401 ∧
          insertDiff { orientation_ := Orientation.pe_orient_fr_c, mean_ := 500, sigmaFactor := s }
            (exampleChain 1000 1100 false) (exampleChain 1300 1400 true) = 99 ∧
          petabAddress
              { orientation_ := Orientation.pe_orient_fr_c, mean_ := 500, sigmaFactor := s }
              (exampleChain 1000 1100 false) (exampleChain 1300 1400 true)
            = ((((toUInt32 (99 * s)).toNat >>> 12) &&& 511 : Nat) : Int) ∧
          petabAddress
              { orientation_ := Orientation.pe_orient_fr_c, mean_ := 500, sigmaFactor := s }
              (exampleChain 1300 1400 true) (exampleChain 1000 1100 false)
            = ((((toUInt32 (99 * s)).toNat >>> 12) &&& 511 : Nat) : Int) ∧
          (0 ≤ s → s ≤ 0xFFFF →
            petabAddress
                { orientation_ := Orientation.pe_orient_fr_c, mean_ := 500, sigmaFactor := s }
                (exampleChain 1000 1100 false) (exampleChain 1300 1400 true)
              = ((((99 * s).toNat >>> 12) &&& 511 : Nat) : Int))) := by
  have hand : ∀ q : Nat, q &&& 511 = q % 512 := fun q =>
    Nat.and_pow_two_sub_one_eq_mod q 9
  refine ⟨(insertSpan_fr_rf isp fwd rev hf hr).1, (insertSpan_fr_rf isp fwd rev hf hr).2,
    fun p h0 h1 => toUInt32_of_range h0 h1, ?_, ?_⟩
  · intro pb m readPair c1 c2
    constructor
    · rw [petabAddress_eq, hand]
      rfl
    · rw [computePairPenalty_proper_eq, petabAddress_eq, Int.toNat_ofNat]
      rfl
  · intro s
    refine ⟨(example_insert_fr s).1, (example_insert_fr s).2, (example_insertDiff_fr s).1.1,
      (example_insertDiff_fr s).1.2, (example_petabAddress_fr s).1, (example_petabAddress_fr s).2,
      ?_⟩
    intro h0 h1
    rw [(example_petabAddress_fr s).1, toUInt32_of_range (by omega) (by omega)]

/-- Witness of C14: the chains of the scenario. -/
theorem computePairPenalty_insert_span_witness :
    ((exampleChain 1000 1100 false).isReverseComplement = false ∧
        (exampleChain 1300 1400 true).isReverseComplement = true) ∧
      (exampleInsertSizeParameters.orientation_ = Orientation.pe_orient_fr_c →
        insertSpan exampleInsertSizeParameters (exampleChain 1000 1100 false)
            (exampleChain 1300 1400 true)
            = (toUInt32 (exampleChain 1000 1100 false).firstReferencePosition,
                toUInt32 (exampleChain 1300 1400 true).lastReferencePosition) ∧
          insertSpan exampleInsertSizeParameters (exampleChain 1300 1400 true)
            (exampleChain 1000 1100 false)
            = (toUInt32 (exampleChain 1000 1100 false).firstReferencePosition,
                toUInt32 (exampleChain 1300 1400 true).lastReferencePosition)) :=
  ⟨⟨rfl, rfl⟩,
    (computePairPenalty_insert_span exampleInsertSizeParameters (exampleChain 1000 1100 false)
      (exampleChain 1300 1400 true) rfl rfl).1⟩

/-! ## The second-best search -/

theorem findSecondBestLoop_eq_foldl (ext : External) (ua : UnpairedAlignments)
    (best : AlignmentPair) (readIdx : Bool) (pairs : List (Nat × AlignmentPair))
    (init : Option (Nat × AlignmentPair)) :
    findSecondBestLoop ext ua best readIdx pairs init
      = pairs.foldl (secondBestStep ext ua best readIdx) init := rfl

theorem secondBestStep_none (ext : External) (ua : UnpairedAlignments) (best : AlignmentPair)
    (readIdx : Bool) (it : Nat × AlignmentPair) :
    secondBestStep ext ua best readIdx none it
      = if passesFilter ext ua best readIdx it.2 = true then some it else none := by
  unfold secondBestStep passesFilter
  simp [Bool.and_assoc]

theorem secondBestStep_some (ext : External) (ua : UnpairedAlignments) (best : AlignmentPair)
    (readIdx : Bool) (a it : Nat × AlignmentPair) :
    secondBestStep ext ua best readIdx (some a) it
      = if a.2.score < it.2.score ∧ passesFilter ext ua best readIdx it.2 = true
        then some it else some a := by
  unfold secondBestStep passesFilter
  simp [Bool.and_assoc]

theorem secondBest_fold_spec (ext : External) (ua : UnpairedAlignments) (best : AlignmentPair)
    (readIdx : Bool) (rest : List AlignmentPair) :
    ∀ (s : Nat) (acc : Option (Nat × AlignmentPair)),
      (((rest.enumFrom s).foldl (secondBestStep ext ua best readIdx) acc = none ↔
          acc = none ∧ ∀ q ∈ rest, passesFilter ext ua best readIdx q = false) ∧
        ∀ r', (rest.enumFrom s).foldl (secondBestStep ext ua best readIdx) acc = some r' →
          (∀ a, acc = some a → a.2.score ≤ r'.2.score) ∧
          (∀ q ∈ rest, passesFilter ext ua best readIdx q = true → q.score ≤ r'.2.score) ∧
          (acc = some r' ∨
            ∃ j, rest[j]? = some r'.2 ∧ r'.1 = s + j ∧
              passesFilter ext ua best readIdx r'.2 = true ∧
              (∀ a, acc = some a → a.2.score < r'.2.score) ∧
              ∀ j' q, j' < j → rest[j']? = some q →
                passesFilter ext ua best readIdx q = true → q.score < r'.2.score)) := by
  induction rest with
  | nil =>
    intro s acc
    refine ⟨⟨fun h => ⟨h, fun q hq => absurd hq (List.not_mem_nil q)⟩, fun h => h.1⟩, ?_⟩
    intro r' hr
    have hr2 : acc = some r' := hr
    refine ⟨fun a ha => ?_, fun q hq => absurd hq (List.not_mem_nil q), Or.inl hr2⟩
    rw [hr2] at ha
    cases ha
    exact le_refl _
  | cons a t ih =>
    intro s acc
    rw [List.enumFrom_cons, List.foldl_cons]
    obtain ⟨ih1, ih2⟩ := ih (s + 1) (secondBestStep ext ua best readIdx acc (s, a))
    cases acc with
    | none =>
      by_cases hf : passesFilter ext ua best readIdx a = true
      · have hstep : secondBestStep ext ua best readIdx none (s, a) = some (s, a) := by
          rw [secondBestStep_none, if_pos hf]
        rw [hstep] at ih1 ih2 ⊢
        constructor
        · constructor
          · intro h; exact absurd (ih1.mp h).1 (by simp)
          · intro h; have := h.2 a (List.mem_cons_self _ _); rw [hf] at this; cases this
        · intro r' hr
          obtain ⟨h1, h2, h3⟩ := ih2 r' hr
          have ha : a.score ≤ r'.2.score := h1 (s, a) rfl
          refine ⟨(fun a0 h0 => nomatch h0), ?_, Or.inr ?_⟩
          · intro q hq hfq
            rcases List.mem_cons.mp hq with rfl | hq
            · exact ha
            · exact h2 q hq hfq
          · rcases h3 with h3 | ⟨j, hj1, hj2, hj3, hj4, hj5⟩
            · have hr' : r' = (s, a) := (Option.some.inj h3).symm
              subst hr'
              exact ⟨0, by simp, rfl, hf, (fun a0 h0 => nomatch h0),
                fun j' q hj' => absurd hj' (Nat.not_lt_zero _)⟩
            · have hlt : a.score < r'.2.score := hj4 (s, a) rfl
              refine ⟨j + 1, by simpa using hj1, by omega, hj3, (fun a0 h0 => nomatch h0), ?_⟩
              intro j' q hj' hq hfq
              cases j' with
              | zero =>
                have hqa : a = q := by simpa using hq
                rw [← hqa]; exact hlt
              | succ n => exact hj5 n q (by omega) (by simpa using hq) hfq
      · have hf' : passesFilter ext ua best readIdx a = false := by
          cases h : passesFilter ext ua best readIdx a
          · rfl
          · exact absurd h hf
        have hstep : secondBestStep ext ua best readIdx none (s, a) = none := by
          rw [secondBestStep_none, if_neg hf]
        rw [hstep] at ih1 ih2 ⊢
        constructor
        · constructor
          · intro h
            refine ⟨rfl, ?_⟩
            intro q hq
            rcases List.mem_cons.mp hq with rfl | hq
            · exact hf'
            · exact (ih1.mp h).2 q hq
          · intro h
            exact ih1.mpr ⟨rfl, fun q hq => h.2 q (List.mem_cons_of_mem _ hq)⟩
        · intro r' hr
          obtain ⟨_, h2, h3⟩ := ih2 r' hr
          refine ⟨(fun a0 h0 => nomatch h0), ?_, Or.inr ?_⟩
          · intro q hq hfq
            rcases List.mem_cons.mp hq with rfl | hq
            · rw [hf'] at hfq; cases hfq
            · exact h2 q hq hfq
          · rcases h3 with h3 | ⟨j, hj1, hj2, hj3, _, hj5⟩
            · cases h3
            · refine ⟨j + 1, by simpa using hj1, by omega, hj3, (fun a0 h0 => nomatch h0), ?_⟩
              intro j' q hj' hq hfq
              cases j' with
              | zero =>
                have hqa : a = q := by simpa using hq
                rw [← hqa, hf'] at hfq; cases hfq
              | succ n => exact hj5 n q (by omega) (by simpa using hq) hfq
    | some a0 =>
      by_cases hc : a0.2.score < a.score ∧ passesFilter ext ua best readIdx a = true
      · have hstep : secondBestStep ext ua best readIdx (some a0) (s, a) = some (s, a) := by
          rw [secondBestStep_some, if_pos hc]
        rw [hstep] at ih1 ih2 ⊢
        constructor
        · constructor
          · intro h; exact absurd (ih1.mp h).1 (by simp)
          · intro h; exact absurd h.1 (by simp)
        · intro r' hr
          obtain ⟨h1, h2, h3⟩ := ih2 r' hr
          have ha : a.score ≤ r'.2.score := h1 (s, a) rfl
          refine ⟨?_, ?_, Or.inr ?_⟩
          · intro a' h'
            cases h'
            omega
          · intro q hq hfq
            rcases List.mem_cons.mp hq with rfl | hq
            · exact ha
            · exact h2 q hq hfq
          · rcases h3 with h3 | ⟨j, hj1, hj2, hj3, hj4, hj5⟩
            · have hr' : r' = (s, a) := (Option.some.inj h3).symm
              subst hr'
              refine ⟨0, by simp, rfl, hc.2, ?_, fun j' q hj' => absurd hj' (Nat.not_lt_zero _)⟩
              intro a' h'
              cases h'
              exact hc.1
            · have hlt : a.score < r'.2.score := hj4 (s, a) rfl
              refine ⟨j + 1, by simpa using hj1, by omega, hj3, ?_, ?_⟩
              · intro a' h'
                cases h'
                omega
              · intro j' q hj' hq hfq
                cases j' with
                | zero =>
                  have hqa : a = q := by simpa using hq
                  rw [← hqa]; exact hlt
                | succ n => exact hj5 n q (by omega) (by simpa using hq) hfq
      · have hstep : secondBestStep ext ua best readIdx (some a0) (s, a) = some a0 := by
          rw [secondBestStep_some, if_neg hc]
        rw [hstep] at ih1 ih2 ⊢
        constructor
        · constructor
          · intro h; exact absurd (ih1.mp h).1 (by simp)
          · intro h; exact absurd h.1 (by simp)
        · intro r' hr
          obtain ⟨h1, h2, h3⟩ := ih2 r' hr
          have h0 : a0.2.score ≤ r'.2.score := h1 a0 rfl
          refine ⟨h1, ?_, ?_⟩
          · intro q hq hfq
            rcases List.mem_cons.mp hq with rfl | hq
            · have : ¬ a0.2.score < q.score := fun hlt => hc ⟨hlt, hfq⟩
              omega
            · exact h2 q hq hfq
          · rcases h3 with h3 | ⟨j, hj1, hj2, hj3, hj4, hj5⟩
            · exact Or.inl h3
            · refine Or.inr ⟨j + 1, by simpa using hj1, by omega, hj3, hj4, ?_⟩
              intro j' q hj' hq hfq
              cases j' with
              | zero =>
                have hqa : a = q := by simpa using hq
                have hn : ¬ a0.2.score < a.score := fun hlt => hc ⟨hlt, by rw [hqa]; exact hfq⟩
                have := hj4 a0 rfl
                rw [← hqa]
                omega
              | succ n => exact hj5 n q (by omega) (by simpa using hq) hfq

theorem isFirstMaxAmong_unique {f : AlignmentPair → Bool} {pairs : AlignmentPairs} {i i' : Nat}
    {p p' : AlignmentPair} (h : IsFirstMaxAmong f pairs i p) (h' : IsFirstMaxAmong f pairs i' p') :
    i = i' ∧ p = p' := by
  obtain ⟨a1, a2, a3, a4⟩ := h
  obtain ⟨b1, b2, b3, b4⟩ := h'
  have hp : p ∈ pairs := List.getElem?_mem a1
  have hp' : p' ∈ pairs := List.getElem?_mem b1
  have hi : i = i' := by
    rcases Nat.lt_trichotomy i i' with hlt | heq | hgt
    · have := b4 i p hlt a1 a2
      have := a3 p' hp' b2
      omega
    · exact heq
    · have := a4 i' p' hgt b1 b2
      have := b3 p hp a2
      omega
  subst hi
  rw [a1] at b1
  exact ⟨rfl, Option.some.inj b1⟩

theorem findSecondBest_fst (pb : PairBuilder) (ext : External) (averageReadLength : Int)
    (pairs : AlignmentPairs) (ua : UnpairedAlignments) (best : AlignmentPair) (readIdx : Bool)
    (sub_count : Int) :
    (findSecondBest pb ext averageReadLength pairs ua best readIdx sub_count).1
      = pairs.enum.foldl (secondBestStep ext ua best readIdx) none := by
  unfold findSecondBest
  simp only [findSecondBestLoop_eq_foldl]
  split
  · next h => rw [h]
  · next r h => rw [h]

theorem findSecondBest_fst_spec (pb : PairBuilder) (ext : External) (averageReadLength : Int)
    (pairs : AlignmentPairs) (ua : UnpairedAlignments) (best : AlignmentPair) (readIdx : Bool)
    (sub_count : Int) :
    ((findSecondBest pb ext averageReadLength pairs ua best readIdx sub_count).1 = none ↔
        ∀ q ∈ pairs, passesFilter ext ua best readIdx q = false) ∧
      (∀ i p, (findSecondBest pb ext averageReadLength pairs ua best readIdx sub_count).1
          = some (i, p) ↔ IsFirstMaxAmong (passesFilter ext ua best readIdx) pairs i p) := by
  rw [findSecondBest_fst]
  obtain ⟨h1, h2⟩ := secondBest_fold_spec ext ua best readIdx pairs 0 none
  have hfwd : ∀ i p, pairs.enum.foldl (secondBestStep ext ua best readIdx) none = some (i, p) →
      IsFirstMaxAmong (passesFilter ext ua best readIdx) pairs i p := by
    intro i p h
    obtain ⟨_, a2, a3⟩ := h2 (i, p) h
    rcases a3 with a3 | ⟨j, hj1, hj2, hj3, _, hj5⟩
    · cases a3
    · have hij : i = j := by simpa using hj2
      subst hij
      exact ⟨hj1, hj3, a2, hj5⟩
  refine ⟨⟨fun h => (h1.mp h).2, fun h => h1.mpr ⟨rfl, h⟩⟩, fun i p => ⟨hfwd i p, ?_⟩⟩
  intro h
  cases hres : pairs.enum.foldl (secondBestStep ext ua best readIdx) none with
  | none =>
    have := (h1.mp hres).2 p (List.getElem?_mem h.1)
    rw [h.2.1] at this
    cases this
  | some r =>
    obtain ⟨rfl, rfl⟩ := isFirstMaxAmong_unique h (hfwd r.1 r.2 hres)
    rfl

theorem countNearSubPairs_eq (pairs : AlignmentPairs) (lo hi : Int) :
    ∀ c : Int, countNearSubPairs pairs lo hi c
      = c + (pairs.countP (fun p => decide (lo < p.score ∧ p.score ≤ hi)) : Nat) := by
  unfold countNearSubPairs
  induction pairs with
  | nil => intro c; simp
  | cons a t ih =>
    intro c
    rw [List.foldl_cons, ih, List.countP_cons]
    by_cases h : lo < a.score ∧ a.score ≤ hi
    · have h' : a.score > lo ∧ a.score ≤ hi := h
      rw [if_pos h']
      simp only [h, and_self, decide_True, if_true]
      push_cast
      ring
    · have h' : ¬ (a.score > lo ∧ a.score ≤ hi) := h
      rw [if_neg h']
      simp [h]

theorem countNearSubSingle_eq (alignments : Alignments) (lo hi : Int) :
    ∀ c : Int, countNearSubSingle alignments lo hi c
      = c + (alignments.countP
          (fun a => !a.unmapped && decide (lo < a.score ∧ a.score ≤ hi)) : Nat) := by
  unfold countNearSubSingle
  induction alignments with
  | nil => intro c; simp
  | cons a t ih =>
    intro c
    rw [List.foldl_cons, ih, List.countP_cons]
    by_cases h : (!a.unmapped) = true ∧ a.score > lo ∧ a.score ≤ hi
    · rw [if_pos h]
      have h2 : (!a.unmapped && decide (lo < a.score ∧ a.score ≤ hi)) = true := by
        simp only [Bool.and_eq_true, decide_eq_true_eq]
        exact ⟨h.1, h.2.1, h.2.2⟩
      rw [if_pos h2]
      push_cast
      ring
    · rw [if_neg h]
      have h2 : ¬ ((!a.unmapped && decide (lo < a.score ∧ a.score ≤ hi)) = true) := by
        simp only [Bool.and_eq_true, decide_eq_true_eq]
        intro hc
        exact h ⟨hc.1, hc.2.1, hc.2.2⟩
      rw [if_neg h2]
      simp

theorem passesFilter_iff (ext : External) (ua : UnpairedAlignments) (best : AlignmentPair)
    (readIdx : Bool) (q : AlignmentPair) :
    passesFilter ext ua best readIdx q = true ↔
      ext.isDuplicate (best.alnAt ua readIdx) (q.alnAt ua readIdx) = false ∧
        ext.isOverlap (best.alnAt ua readIdx) (q.alnAt ua readIdx) = true := by
  unfold passesFilter
  simp

/-- C15: `findSecondBest` returns the end iterator exactly when no candidate
pair passes the filter (alignment at `readIdx` not a duplicate of, and
overlapping, the best pair's alignment at `readIdx`); otherwise it returns,
among the pairs that pass, the first pair of the highest combined score. -/
theorem findSecondBest_first_max_of_filtered (pb : PairBuilder) (ext : External)
    (averageReadLength : Int) (pairs : AlignmentPairs) (ua : UnpairedAlignments)
    (best : AlignmentPair) (readIdx : Bool) (sub_count : Int) :
    (∀ q, passesFilter ext ua best readIdx q = true ↔
        ext.isDuplicate (best.alnAt ua readIdx) (q.alnAt ua readIdx) = false ∧
          ext.isOverlap (best.alnAt ua readIdx) (q.alnAt ua readIdx) = true) ∧
      ((findSecondBest pb ext averageReadLength pairs ua best readIdx sub_count).1 = none ↔
        ∀ q ∈ pairs, passesFilter ext ua best readIdx q = false) ∧
      (∀ i p, (findSecondBest pb ext averageReadLength pairs ua best readIdx sub_count).1
          = some (i, p) ↔
        (pairs[i]? = some p ∧ passesFilter ext ua best readIdx p = true ∧
          (∀ q ∈ pairs, passesFilter ext ua best readIdx q = true → q.score ≤ p.score) ∧
          ∀ j q, j < i → pairs[j]? = some q → passesFilter ext ua best readIdx q = true →
            q.score < p.score)) :=
  ⟨passesFilter_iff ext ua best readIdx,
    (findSecondBest_fst_spec pb ext averageReadLength pairs ua best readIdx sub_count).1,
    (findSecondBest_fst_spec pb ext averageReadLength pairs ua best readIdx sub_count).2⟩

theorem findSecondBest_eq_of_loop_none (pb : PairBuilder) (ext : External)
    (averageReadLength : Int) (pairs : AlignmentPairs) (ua : UnpairedAlignments)
    (best : AlignmentPair) (readIdx : Bool) (sub_count : Int)
    (h : (findSecondBest pb ext averageReadLength pairs ua best readIdx sub_count).1 = none) :
    (findSecondBest pb ext averageReadLength pairs ua best readIdx sub_count).2 = sub_count := by
  unfold findSecondBest at h ⊢
  simp only at h ⊢
  split
  · rfl
  · next r hr =>
    rw [hr] at h
    cases h

theorem findSecondBest_eq_of_loop_some (pb : PairBuilder) (ext : External)
    (averageReadLength : Int) (pairs : AlignmentPairs) (ua : UnpairedAlignments)
    (best : AlignmentPair) (readIdx : Bool) (sub_count : Int) (r : Nat × AlignmentPair)
    (h : (findSecondBest pb ext averageReadLength pairs ua best readIdx sub_count).1 = some r) :
    (findSecondBest pb ext averageReadLength pairs ua best readIdx sub_count).2
      = countNearSubSingle (ua.get readIdx)
          (r.2.score - otherBestScore pb.alnMinScore_ (ua.get (!readIdx)) (best.idx (!readIdx))
            + truncQ (fl (mapq2aln ext.libm pb.snpCost (averageReadLength : ℚ)
                * (pb.aln_cfg_unpaired_pen_ : ℚ))) - pb.snpCost)
          (r.2.score - otherBestScore pb.alnMinScore_ (ua.get (!readIdx)) (best.idx (!readIdx))
            + truncQ (fl (mapq2aln ext.libm pb.snpCost (averageReadLength : ℚ)
                * (pb.aln_cfg_unpaired_pen_ : ℚ))))
          (countNearSubPairs pairs (r.2.score - pb.snpCost) r.2.score sub_count) := by
  unfold findSecondBest at h ⊢
  simp only at h ⊢
  split
  · next hr =>
    rw [hr] at h
    cases h
  · next r' hr =>
    rw [hr] at h
    cases h
    rfl

theorem findSecondBest_snd_of_some (pb : PairBuilder) (ext : External)
    (averageReadLength : Int) (pairs : AlignmentPairs) (ua : UnpairedAlignments)
    (best : AlignmentPair) (readIdx : Bool) (sub_count : Int) (r : Nat × AlignmentPair)
    (h : (findSecondBest pb ext averageReadLength pairs ua best readIdx sub_count).1 = some r) :
    (findSecondBest pb ext averageReadLength pairs ua best readIdx sub_count).2
      = sub_count
        + (pairs.countP
            (fun p => decide (r.2.score - pb.snpCost < p.score ∧ p.score ≤ r.2.score)) : Nat)
        + ((ua.get readIdx).countP
            (fun a => !a.unmapped &&
              decide
                (r.2.score
                    - otherBestScore pb.alnMinScore_ (ua.get (!readIdx)) (best.idx (!readIdx))
                    + truncQ (fl (mapq2aln ext.libm pb.snpCost (averageReadLength : ℚ)
                        * (pb.aln_cfg_unpaired_pen_ : ℚ))) - pb.snpCost < a.score ∧
                  a.score ≤ r.2.score
                    - otherBestScore pb.alnMinScore_ (ua.get (!readIdx)) (best.idx (!readIdx))
                    + truncQ (fl (mapq2aln ext.libm pb.snpCost (averageReadLength : ℚ)
                        * (pb.aln_cfg_unpaired_pen_ : ℚ))))) : Nat) := by
  rw [findSecondBest_eq_of_loop_some pb ext averageReadLength pairs ua best readIdx sub_count r h,
    countNearSubSingle_eq, countNearSubPairs_eq]

/-- C16: when `findSecondBest` finds a second-best pair of combined score `s`,
the final `sub_count` is the initial one plus the number of candidate pairs,
over the whole list, whose combined score lies in `(s - snpCost, s]`, plus the
single-end part; a score of exactly `s - snpCost` is outside the window, and
for a positive SNP cost the scores `s - snpCost + 1` and `s` are inside.  When
no second-best pair is found `sub_count` is unchanged. -/
theorem findSecondBest_pair_count (pb : PairBuilder) (ext : External)
    (averageReadLength : Int) (pairs : AlignmentPairs) (ua : UnpairedAlignments)
    (best : AlignmentPair) (readIdx : Bool) (sub_count : Int) :
    (∀ r, (findSecondBest pb ext averageReadLength pairs ua best readIdx sub_count).1 = some r →
        (findSecondBest pb ext averageReadLength pairs ua best readIdx sub_count).2
          = sub_count
            + (pairs.countP
                (fun p => decide (r.2.score - pb.snpCost < p.score ∧ p.score ≤ r.2.score)) : Nat)
            + ((ua.get readIdx).countP
                (fun a => !a.unmapped &&
                  decide
                    (r.2.score
                        - otherBestScore pb.alnMinScore_ (ua.get (!readIdx)) (best.idx (!readIdx))
                        + truncQ (fl (mapq2aln ext.libm pb.snpCost (averageReadLength : ℚ)
                            * (pb.aln_cfg_unpaired_pen_ : ℚ))) - pb.snpCost < a.score ∧
                      a.score ≤ r.2.score
                        - otherBestScore pb.alnMinScore_ (ua.get (!readIdx)) (best.idx (!readIdx))
                        + truncQ (fl (mapq2aln ext.libm pb.snpCost (averageReadLength : ℚ)
                            * (pb.aln_cfg_unpaired_pen_ : ℚ))))) : Nat)) ∧
      ((findSecondBest pb ext averageReadLength pairs ua best readIdx sub_count).1 = none →
        (findSecondBest pb ext averageReadLength pairs ua best readIdx sub_count).2 = sub_count) ∧
      (∀ (s : Int) (p : AlignmentPair),
        (p.score = s - pb.snpCost →
          decide (s - pb.snpCost < p.score ∧ p.score ≤ s) = false) ∧
        (0 < pb.snpCost → p.score = s - pb.snpCost + 1 →
          decide (s - pb.snpCost < p.score ∧ p.score ≤ s) = true) ∧
        (0 < pb.snpCost → p.score = s →
          decide (s - pb.snpCost < p.score ∧ p.score ≤ s) = true)) := by
  refine ⟨fun r h => findSecondBest_snd_of_some pb ext averageReadLength pairs ua best readIdx
      sub_count r h,
    findSecondBest_eq_of_loop_none pb ext averageReadLength pairs ua best readIdx sub_count, ?_⟩
  intro s p
  refine ⟨fun h => ?_, fun hc h => ?_, fun hc h => ?_⟩
  · rw [decide_eq_false_iff_not]; omega
  · rw [decide_eq_true_iff]; omega
  · rw [decide_eq_true_iff]; omega

theorem example_second_best_90 :
    (findSecondBest snp6PairBuilder exampleExternal 150 (twoPairs 90) overlapPools topPair
      false 0).1 = some (1, otherPair 90) := by
  decide

theorem example_second_best_94 :
    (findSecondBest snp6PairBuilder exampleExternal 150 (twoPairs 94) overlapPools topPair
      false 0).1 = some (1, otherPair 94) := by
  decide

theorem example_second_best_95 :
    (findSecondBest snp6PairBuilder exampleExternal 150 (twoPairs 95) overlapPools topPair
      false 0).1 = some (1, otherPair 95) := by
  decide

/-- Witness of C16: pairs scoring 100 and 90 at SNP cost 6; the second-best
pair is the one scoring 90 and the window is `(84, 90]`. -/
theorem findSecondBest_pair_count_witness :
    (findSecondBest snp6PairBuilder exampleExternal 150 (twoPairs 90) overlapPools topPair
        false 0).1 = some (1, otherPair 90) ∧
      (0 < snp6PairBuilder.snpCost ∧ (otherPair 90).score = 90) ∧
      decide ((90 : Int) - snp6PairBuilder.snpCost < (otherPair 90).score ∧
        (otherPair 90).score ≤ 90) = true :=
  ⟨example_second_best_90, ⟨by decide, rfl⟩,
    ((findSecondBest_pair_count snp6PairBuilder exampleExternal 150 (twoPairs 90) overlapPools
      topPair false 0).2.2 90 (otherPair 90)).2.2 (by decide) rfl⟩

theorem countP_window_pos (pairs : AlignmentPairs) (snpCost : Int) (hs : 0 < snpCost) (i : Nat)
    (p : AlignmentPair) (h : pairs[i]? = some p) :
    1 ≤ pairs.countP (fun q => decide (p.score - snpCost < q.score ∧ q.score ≤ p.score)) := by
  have hmem : p ∈ pairs := List.getElem?_mem h
  have : 0 < pairs.countP (fun q => decide (p.score - snpCost < q.score ∧ q.score ≤ p.score)) :=
    List.countP_pos_iff.mpr ⟨p, hmem, by rw [decide_eq_true_iff]; omega⟩
  omega

/-- C17, counterexample: with SNP cost 6 and two pairs scoring 100 and 90 (or
100 and 94) the second-best pair found is the lower one; its score is not
greater than `100 - 6`, yet it lies in the window `(s - 6, s]` anchored at its
own score `s` and is counted. -/
theorem second_best_counted_below_top_minus_snp :
    ((findSecondBest snp6PairBuilder exampleExternal 150 (twoPairs 90) overlapPools topPair
          false 0).1 = some (1, otherPair 90) ∧
        ¬ ((otherPair 90).score > topPair.score - snp6PairBuilder.snpCost) ∧
        (twoPairs 90).countP
          (fun p => decide ((otherPair 90).score - snp6PairBuilder.snpCost < p.score ∧
            p.score ≤ (otherPair 90).score)) = 1 ∧
        countNearSubPairs (twoPairs 90) ((otherPair 90).score - snp6PairBuilder.snpCost)
          (otherPair 90).score 0 = 1 ∧
        1 ≤ (findSecondBest snp6PairBuilder exampleExternal 150 (twoPairs 90) overlapPools
          topPair false 0).2) ∧
      ((findSecondBest snp6PairBuilder exampleExternal 150 (twoPairs 94) overlapPools topPair
          false 0).1 = some (1, otherPair 94) ∧
        ¬ ((otherPair 94).score > topPair.score - snp6PairBuilder.snpCost) ∧
        (twoPairs 94).countP
          (fun p => decide ((otherPair 94).score - snp6PairBuilder.snpCost < p.score ∧
            p.score ≤ (otherPair 94).score)) = 1 ∧
        countNearSubPairs (twoPairs 94) ((otherPair 94).score - snp6PairBuilder.snpCost)
          (otherPair 94).score 0 = 1 ∧
        1 ≤ (findSecondBest snp6PairBuilder exampleExternal 150 (twoPairs 94) overlapPools
          topPair false 0).2) := by
  refine ⟨⟨example_second_best_90, by decide, by decide, by decide, ?_⟩,
    ⟨example_second_best_94, by decide, by decide, by decide, ?_⟩⟩
  · rw [findSecondBest_snd_of_some _ _ _ _ _ _ _ _ _ example_second_best_90]
    have : (twoPairs 90).countP
        (fun p => decide ((1, otherPair 90).2.score - snp6PairBuilder.snpCost < p.score ∧
          p.score ≤ (1, otherPair 90).2.score)) = 1 := by decide
    rw [this]
    omega
  · rw [findSecondBest_snd_of_some _ _ _ _ _ _ _ _ _ example_second_best_94]
    have : (twoPairs 94).countP
        (fun p => decide ((1, otherPair 94).2.score - snp6PairBuilder.snpCost < p.score ∧
          p.score ≤ (1, otherPair 94).2.score)) = 1 := by decide
    rw [this]
    omega

theorem countNearSubPairs_append_one (pre : AlignmentPairs) (p : AlignmentPair)
    (lo hi c : Int) :
    countNearSubPairs (pre ++ [p]) lo hi c
      = countNearSubPairs pre lo hi c + (if lo < p.score ∧ p.score ≤ hi then 1 else 0) := by
  unfold countNearSubPairs
  rw [List.foldl_append]
  simp only [List.foldl_cons, List.foldl_nil, gt_iff_lt]
  split_ifs
  · rfl
  · rw [add_zero]

/-- C17, amended: with SNP cost 6 a pair is counted as near-suboptimal exactly
when its score is greater than `s - 6` and at most `s`, where `s` is the
combined score of the second-best pair found by `findSecondBest`, not the top
score: the final `sub_count` is exactly the number of pairs of the whole list
scoring in `(s - 6, s]` plus the number of mapped single-end candidates in the
single-end window, and the counting loop adds one for a pair exactly when its
score is in `(s - 6, s]`; the second-best pair itself is always counted, a pair
scoring exactly `s - 6` is not counted, a pair scoring `s - 5` is counted, and
a top pair scoring 100 is counted only when `100 ≤ s`. -/
theorem near_sub_window_anchored_at_second_best (pb : PairBuilder) (ext : External)
    (averageReadLength : Int) (pairs : AlignmentPairs) (ua : UnpairedAlignments)
    (best : AlignmentPair) (readIdx : Bool) (r : Nat × AlignmentPair) (h6 : pb.snpCost = 6)
    (hr : (findSecondBest pb ext averageReadLength pairs ua best readIdx 0).1 = some r) :
    (findSecondBest pb ext averageReadLength pairs ua best readIdx 0).2
        = (pairs.countP (fun p => decide (r.2.score - 6 < p.score ∧ p.score ≤ r.2.score)) : Nat)
          + ((ua.get readIdx).countP
              (fun a => !a.unmapped &&
                decide
                  (r.2.score
                      - otherBestScore pb.alnMinScore_ (ua.get (!readIdx)) (best.idx (!readIdx))
                      + truncQ (fl (mapq2aln ext.libm 6 (averageReadLength : ℚ)
                          * (pb.aln_cfg_unpaired_pen_ : ℚ))) - 6 < a.score ∧
                    a.score ≤ r.2.score
                      - otherBestScore pb.alnMinScore_ (ua.get (!readIdx)) (best.idx (!readIdx))
                      + truncQ (fl (mapq2aln ext.libm 6 (averageReadLength : ℚ)
                          * (pb.aln_cfg_unpaired_pen_ : ℚ))))) : Nat) ∧
      1 ≤ pairs.countP (fun p => decide (r.2.score - 6 < p.score ∧ p.score ≤ r.2.score)) ∧
      pairs[r.1]? = some r.2 ∧
      decide (r.2.score - 6 < r.2.score ∧ r.2.score ≤ r.2.score) = true ∧
      (∀ p : AlignmentPair, p.score = r.2.score - 6 →
        decide (r.2.score - 6 < p.score ∧ p.score ≤ r.2.score) = false) ∧
      (∀ p : AlignmentPair, p.score = r.2.score - 5 →
        decide (r.2.score - 6 < p.score ∧ p.score ≤ r.2.score) = true) ∧
      (∀ p : AlignmentPair, p.score = 100 →
        (decide (r.2.score - 6 < p.score ∧ p.score ≤ r.2.score) = true ↔
          100 ≤ r.2.score ∧ r.2.score < 106)) ∧
      (∀ (pre : AlignmentPairs) (p : AlignmentPair) (c : Int),
        countNearSubPairs (pre ++ [p]) (r.2.score - pb.snpCost) r.2.score c
          = countNearSubPairs pre (r.2.score - pb.snpCost) r.2.score c
            + (if r.2.score - 6 < p.score ∧ p.score ≤ r.2.score then 1 else 0)) ∧
      (∀ (pre : AlignmentPairs) (p : AlignmentPair) (c : Int), p.score = r.2.score - 6 →
        countNearSubPairs (pre ++ [p]) (r.2.score - pb.snpCost) r.2.score c
          = countNearSubPairs pre (r.2.score - pb.snpCost) r.2.score c) ∧
      (∀ (pre : AlignmentPairs) (p : AlignmentPair) (c : Int), p.score = r.2.score - 5 →
        countNearSubPairs (pre ++ [p]) (r.2.score - pb.snpCost) r.2.score c
          = countNearSubPairs pre (r.2.score - pb.snpCost) r.2.score c + 1) := by
  have hspec := ((findSecondBest_fst_spec pb ext averageReadLength pairs ua best readIdx 0).2
    r.1 r.2).mp hr
  have hsnd := findSecondBest_snd_of_some pb ext averageReadLength pairs ua best readIdx 0 r hr
  rw [h6, zero_add] at hsnd
  refine ⟨hsnd, countP_window_pos pairs 6 (by norm_num) r.1 r.2 hspec.1,
    hspec.1, ?_, ?_, ?_, ?_, ?_, ?_, ?_⟩
  · rw [decide_eq_true_iff]; omega
  · intro p hp; rw [decide_eq_false_iff_not]; omega
  · intro p hp; rw [decide_eq_true_iff]; omega
  · intro p hp; rw [decide_eq_true_iff]; omega
  · intro pre p c
    rw [countNearSubPairs_append_one, h6]
  · intro pre p c hp
    rw [countNearSubPairs_append_one, h6, if_neg (by omega), add_zero]
  · intro pre p c hp
    rw [countNearSubPairs_append_one, h6, if_pos (by omega)]

/-- Witness of the amended C17: pairs scoring 100 and 95 at SNP cost 6. -/
theorem near_sub_window_anchored_at_second_best_witness :
    (snp6PairBuilder.snpCost = 6 ∧
        (findSecondBest snp6PairBuilder exampleExternal 150 (twoPairs 95) overlapPools topPair
          false 0).1 = some (1, otherPair 95)) ∧
      1 ≤ (twoPairs 95).countP
        (fun p => decide ((1, otherPair 95).2.score - 6 < p.score ∧
          p.score ≤ (1, otherPair 95).2.score)) :=
  ⟨⟨rfl, example_second_best_95⟩,
    (near_sub_window_anchored_at_second_best snp6PairBuilder exampleExternal 150 (twoPairs 95)
      overlapPools topPair false (1, otherPair 95) rfl example_second_best_95).2.1⟩

/-! ## The second-best score and XS -/

/-- C18: `findSecondBestScore` returns, when a second-best pair exists, the
maximum of the single-end second-best score and the score of that pair's
alignment at `readIdx`, and stores the pair's combined score in
`secondBestPeScore`; when none exists it returns the single-end value and
leaves `secondBestPeScore` as passed in.  The single-end value is the result of
the single-end helper on the pool of `readIdx` and the best alignment. -/
theorem findSecondBestScore_result (pb : PairBuilder) (ext : External) (averageReadLength : Int)
    (pairs : AlignmentPairs) (ua : UnpairedAlignments) (best : AlignmentPair) (readIdx : Bool)
    (sub_count secondBestPeScore : Int) :
    (∀ r, (findSecondBest pb ext averageReadLength pairs ua best readIdx sub_count).1 = some r →
        findSecondBestScore pb ext averageReadLength pairs ua best readIdx sub_count
            secondBestPeScore
          = (max (ext.findSecondBestScore pb.snpCost (ua.get readIdx) (best.idx readIdx))
                (r.2.alnAt ua readIdx).score,
              (findSecondBest pb ext averageReadLength pairs ua best readIdx sub_count).2,
              r.2.score)) ∧
      ((findSecondBest pb ext averageReadLength pairs ua best readIdx sub_count).1 = none →
        findSecondBestScore pb ext averageReadLength pairs ua best readIdx sub_count
            secondBestPeScore
          = (ext.findSecondBestScore pb.snpCost (ua.get readIdx) (best.idx readIdx),
              sub_count, secondBestPeScore)) := by
  constructor
  · intro r h
    unfold findSecondBestScore
    simp only [h]
  · intro h
    have h2 := findSecondBest_eq_of_loop_none pb ext averageReadLength pairs ua best readIdx
      sub_count h
    unfold findSecondBestScore
    simp only [h, h2]

/-- Witness of C18: pairs scoring 100 and 90; the second-best pair is the one
scoring 90, whose end-0 alignment scores 45. -/
theorem findSecondBestScore_result_witness :
    (findSecondBest snp6PairBuilder exampleExternal 150 (twoPairs 90) overlapPools topPair
        false 0).1 = some (1, otherPair 90) ∧
      findSecondBestScore snp6PairBuilder exampleExternal 150 (twoPairs 90) overlapPools topPair
          false 0 exampleExternal.INVALID_SCORE
        = (max (exampleExternal.findSecondBestScore snp6PairBuilder.snpCost
                (overlapPools.get false) (topPair.idx false))
              (((1, otherPair 90) : Nat × AlignmentPair).2.alnAt overlapPools false).score,
            (findSecondBest snp6PairBuilder exampleExternal 150 (twoPairs 90) overlapPools
              topPair false 0).2,
            ((1, otherPair 90) : Nat × AlignmentPair).2.score) :=
  ⟨example_second_best_90,
    (findSecondBestScore_result snp6PairBuilder exampleExternal 150 (twoPairs 90) overlapPools
      topPair false 0 exampleExternal.INVALID_SCORE).1 (1, otherPair 90) example_second_best_90⟩

/-- C19: for a mapped end `updateEndMapq` sets XS to `secondBestScore`, the
value returned by `findSecondBestScore`, when it is at least `alnMinScore_`,
and to `INVALID_SCORE` otherwise; afterwards XS is `INVALID_SCORE` or a score
of at least `alnMinScore_`. -/
theorem updateEndMapq_mapped_xs (pb : PairBuilder) (ext : External) (averageReadLength : Int)
    (pairs : AlignmentPairs) (ua : UnpairedAlignments) (best : AlignmentPair) (readIdx : Bool)
    (hv : best.idx readIdx < (ua.get readIdx).length)
    (hm : (best.alnAt ua readIdx).unmapped = false) :
    (best.alnAt (updateEndMapq pb ext averageReadLength pairs ua best readIdx) readIdx).xs
        = (if (findSecondBestScore pb ext averageReadLength pairs ua best readIdx 0
                ext.INVALID_SCORE).1 ≥ pb.alnMinScore_
            then (findSecondBestScore pb ext averageReadLength pairs ua best readIdx 0
                ext.INVALID_SCORE).1
            else ext.INVALID_SCORE) ∧
      ((best.alnAt (updateEndMapq pb ext averageReadLength pairs ua best readIdx) readIdx).xs
          = ext.INVALID_SCORE ∨
        pb.alnMinScore_
          ≤ (best.alnAt (updateEndMapq pb ext averageReadLength pairs ua best readIdx)
              readIdx).xs) := by
  have hxs : (best.alnAt (updateEndMapq pb ext averageReadLength pairs ua best readIdx)
      readIdx).xs
        = (if (findSecondBestScore pb ext averageReadLength pairs ua best readIdx 0
                ext.INVALID_SCORE).1 ≥ pb.alnMinScore_
            then (findSecondBestScore pb ext averageReadLength pairs ua best readIdx 0
                ext.INVALID_SCORE).1
            else ext.INVALID_SCORE) := by
    unfold updateEndMapq
    rw [if_neg (by simp [hm])]
    simp only
    rw [alnAt_modifyAt_same _ _ _ _ (by rw [length_get_modifyAt]; exact hv)]
  refine ⟨hxs, ?_⟩
  rw [hxs]
  split_ifs with h
  · exact Or.inr h
  · exact Or.inl rfl

/-- Witness of C19: end 0 of the top pair over `overlapPools`. -/
theorem updateEndMapq_mapped_xs_witness :
    (topPair.idx false < (overlapPools.get false).length ∧
        (topPair.alnAt overlapPools false).unmapped = false) ∧
      ((topPair.alnAt (updateEndMapq snp6PairBuilder exampleExternal 150 (twoPairs 90)
            overlapPools topPair false) false).xs = exampleExternal.INVALID_SCORE ∨
        snp6PairBuilder.alnMinScore_
          ≤ (topPair.alnAt (updateEndMapq snp6PairBuilder exampleExternal 150 (twoPairs 90)
              overlapPools topPair false) false).xs) :=
  ⟨⟨by decide, by decide⟩,
    (updateEndMapq_mapped_xs snp6PairBuilder exampleExternal 150 (twoPairs 90) overlapPools
      topPair false (by decide) (by decide)).2⟩

/-! ## The two per-end updates commute -/

theorem alnAt_congr (p : AlignmentPair) {ua ua' : UnpairedAlignments} {r : Bool}
    (h : ua.get r = ua'.get r) : p.alnAt ua r = p.alnAt ua' r := by
  unfold AlignmentPair.alnAt
  rw [h]

theorem secondBestStep_congr (ext : External) (best : AlignmentPair)
    {ua ua' : UnpairedAlignments} {r : Bool} (h : ua.get r = ua'.get r) :
    secondBestStep ext ua best r = secondBestStep ext ua' best r := by
  funext ret it
  unfold secondBestStep
  rw [alnAt_congr best h, alnAt_congr it.2 h]

theorem otherBestScore_fold_congr (bestIdx : Nat) :
    ∀ (l l' : Alignments) (s : Nat) (acc : Int),
      l.map (fun a => a.score) = l'.map (fun a => a.score) →
      (l.enumFrom s).foldl
          (fun other_best_scr oe =>
            if oe.1 ≠ bestIdx then max other_best_scr oe.2.score else other_best_scr) acc
        = (l'.enumFrom s).foldl
          (fun other_best_scr oe =>
            if oe.1 ≠ bestIdx then max other_best_scr oe.2.score else other_best_scr) acc := by
  intro l
  induction l with
  | nil =>
    intro l' s acc h
    cases l' with
    | nil => rfl
    | cons b t' => simp at h
  | cons a t ih =>
    intro l' s acc h
    cases l' with
    | nil => simp at h
    | cons b t' =>
      simp only [List.map_cons, List.cons.injEq] at h
      simp only [List.enumFrom_cons, List.foldl_cons, h.1]
      exact ih t' (s + 1) _ h.2

theorem otherBestScore_congr (alnMinScore_ : Int) (l l' : Alignments) (bestIdx : Nat)
    (h : l.map (fun a => a.score) = l'.map (fun a => a.score)) :
    otherBestScore alnMinScore_ l bestIdx = otherBestScore alnMinScore_ l' bestIdx :=
  otherBestScore_fold_congr bestIdx l l' 0 alnMinScore_ h

theorem findSecondBest_congr (pb : PairBuilder) (ext : External) (averageReadLength : Int)
    (pairs : AlignmentPairs) (best : AlignmentPair) (sub_count : Int)
    {ua ua' : UnpairedAlignments} {r : Bool} (h1 : ua.get r = ua'.get r)
    (h2 : (ua.get (!r)).map (fun a => a.score) = (ua'.get (!r)).map (fun a => a.score)) :
    findSecondBest pb ext averageReadLength pairs ua best r sub_count
      = findSecondBest pb ext averageReadLength pairs ua' best r sub_count := by
  unfold findSecondBest
  simp only [findSecondBestLoop_eq_foldl, secondBestStep_congr ext best h1, h1,
    otherBestScore_congr pb.alnMinScore_ _ _ (best.idx (!r)) h2]

theorem findSecondBestScore_congr (pb : PairBuilder) (ext : External) (averageReadLength : Int)
    (pairs : AlignmentPairs) (best : AlignmentPair) (sub_count secondBestPeScore : Int)
    {ua ua' : UnpairedAlignments} {r : Bool} (h1 : ua.get r = ua'.get r)
    (h2 : (ua.get (!r)).map (fun a => a.score) = (ua'.get (!r)).map (fun a => a.score)) :
    findSecondBestScore pb ext averageReadLength pairs ua best r sub_count secondBestPeScore
      = findSecondBestScore pb ext averageReadLength pairs ua' best r sub_count
          secondBestPeScore := by
  unfold findSecondBestScore
  simp only [findSecondBest_congr pb ext averageReadLength pairs best sub_count h1 h2, h1]
  split <;> simp only [alnAt_congr _ h1]

theorem updateEndMapq_get_other (pb : PairBuilder) (ext : External) (averageReadLength : Int)
    (pairs : AlignmentPairs) (ua : UnpairedAlignments) (best : AlignmentPair) (r : Bool) :
    (updateEndMapq pb ext averageReadLength pairs ua best r).get (!r) = ua.get (!r) := by
  unfold updateEndMapq
  split_ifs
  · exact get_modifyAt_other _ _ _ _
  · simp only
    rw [get_modifyAt_other, get_modifyAt_other]

theorem updateEndMapq_get_same_congr (pb : PairBuilder) (ext : External)
    (averageReadLength : Int) (pairs : AlignmentPairs) (best : AlignmentPair)
    {ua ua' : UnpairedAlignments} {r : Bool} (h1 : ua.get r = ua'.get r)
    (h2 : (ua.get (!r)).map (fun a => a.score) = (ua'.get (!r)).map (fun a => a.score)) :
    (updateEndMapq pb ext averageReadLength pairs ua best r).get r
      = (updateEndMapq pb ext averageReadLength pairs ua' best r).get r := by
  unfold updateEndMapq
  simp only [alnAt_congr best h1,
    findSecondBestScore_congr pb ext averageReadLength pairs best 0 ext.INVALID_SCORE h1 h2]
  split_ifs <;> simp only [get_modifyAt_same, h1]

theorem map_score_modify (f : Alignment → Alignment) (hf : ∀ a, (f a).score = a.score) :
    ∀ (l : Alignments) (n : Nat),
      (l.modify f n).map (fun a => a.score) = l.map (fun a => a.score) := by
  intro l
  induction l with
  | nil => intro n; simp
  | cons a t ih =>
    intro n
    cases n with
    | zero => simp [hf]
    | succ k => simp [ih k]

theorem updateEndMapq_scores (pb : PairBuilder) (ext : External) (averageReadLength : Int)
    (pairs : AlignmentPairs) (ua : UnpairedAlignments) (best : AlignmentPair) (r : Bool) :
    ((updateEndMapq pb ext averageReadLength pairs ua best r).get r).map (fun a => a.score)
      = (ua.get r).map (fun a => a.score) := by
  unfold updateEndMapq
  split_ifs
  · rw [get_modifyAt_same]
    apply map_score_modify
    intro a
    rfl
  · simp only
    rw [get_modifyAt_same, get_modifyAt_same]
    refine Eq.trans (map_score_modify _ (fun a => ?_) _ _) (map_score_modify _ (fun a => ?_) _ _)
    · rfl
    · rfl

theorem unpaired_ext {x y : UnpairedAlignments} (h0 : x.get false = y.get false)
    (h1 : x.get true = y.get true) : x = y := by
  cases x
  cases y
  simp only [UnpairedAlignments.get] at h0 h1
  simp at h0 h1
  rw [h0, h1]

/-- C20: the two per-end updates commute: running `updateEndMapq` for end 0
and then end 1, as `updateMapq` does, leaves the same alignment pools, hence
the same MAPQ and XS on every alignment, as running it for end 1 and then end
0.  Each invocation writes only the pool of its own end and reads the other
pool only through the scores, which no invocation writes. -/
theorem updateEndMapq_ends_commute (pb : PairBuilder) (ext : External)
    (averageReadLength : Int) (pairs : AlignmentPairs) (ua : UnpairedAlignments)
    (best : AlignmentPair) :
    updateEndMapq pb ext averageReadLength pairs
        (updateEndMapq pb ext averageReadLength pairs ua best false) best true
      = updateEndMapq pb ext averageReadLength pairs
        (updateEndMapq pb ext averageReadLength pairs ua best true) best false ∧
      updateMapq pb ext averageReadLength pairs ua best
        = updateEndMapq pb ext averageReadLength pairs
          (updateEndMapq pb ext averageReadLength pairs ua best true) best false ∧
      (∀ r : Bool,
        (updateEndMapq pb ext averageReadLength pairs ua best r).get (!r) = ua.get (!r) ∧
        ((updateEndMapq pb ext averageReadLength pairs ua best r).get r).map (fun a => a.score)
          = (ua.get r).map (fun a => a.score)) := by
  have hcomm : updateEndMapq pb ext averageReadLength pairs
        (updateEndMapq pb ext averageReadLength pairs ua best false) best true
      = updateEndMapq pb ext averageReadLength pairs
        (updateEndMapq pb ext averageReadLength pairs ua best true) best false := by
    have o0 := updateEndMapq_get_other pb ext averageReadLength pairs ua best false
    have o1 := updateEndMapq_get_other pb ext averageReadLength pairs ua best true
    have s0 := updateEndMapq_scores pb ext averageReadLength pairs ua best false
    have s1 := updateEndMapq_scores pb ext averageReadLength pairs ua best true
    simp only [Bool.not_false, Bool.not_true] at o0 o1
    apply unpaired_ext
    · have a := updateEndMapq_get_other pb ext averageReadLength pairs
        (updateEndMapq pb ext averageReadLength pairs ua best false) best true
      simp only [Bool.not_true] at a
      rw [a]
      exact (updateEndMapq_get_same_congr pb ext averageReadLength pairs best (r := false) o1
        (by simpa using s1)).symm
    · have a := updateEndMapq_get_other pb ext averageReadLength pairs
        (updateEndMapq pb ext averageReadLength pairs ua best true) best false
      simp only [Bool.not_false] at a
      rw [a]
      exact updateEndMapq_get_same_congr pb ext averageReadLength pairs best (r := true) o0
        (by simpa using s0)
  refine ⟨hcomm, ?_, fun r => ⟨updateEndMapq_get_other pb ext averageReadLength pairs ua best r,
    updateEndMapq_scores pb ext averageReadLength pairs ua best r⟩⟩
  rw [← hcomm]
  rfl
/-! ## The divisor of `aln2mapq` -/

theorem aln2mapq_eq_divisor (snpCost : Int) (n : ℚ) :
    aln2mapq snpCost n =
      truncQ (fl (fl (mapqCoeffScaled snpCost / (aln2mapqDivisor n : ℚ)) *
        ((1 <<< 20 : Nat) : ℚ))) := rfl

theorem our_log2_ge_128 (n : Nat) (h1 : 2 ≤ n) (h2 : n < 2 ^ 45) : 128 ≤ our_log2 (n : Int) := by
  have hk : 1 ≤ Nat.log2 n := (Nat.le_log2 (by omega)).mpr (by simpa using h1)
  have := (our_log2_bounds n (by omega) h2).1
  omega

theorem our_log2_one : our_log2 1 = 0 := by
  have hk : Nat.log2 1 = 0 := log2_unique (by norm_num) (by norm_num)
  have := our_log2_int 1 (by norm_num) (by norm_num)
  rw [hk] at this
  rw [show (1 : Int) = ((1 : Nat) : Int) by norm_num, this]
  decide

theorem aln2mapqDivisor_intCast (n : Int) :
    aln2mapqDivisor (n : ℚ) = (our_log2 n * our_log2 n) / 128 := by
  unfold aln2mapqDivisor
  simp only [truncQ_intCast]
  rw [Int.shiftRight_eq_div_pow]
  norm_num

theorem aln2mapqDivisor_ge_128 (n : Nat) (h1 : 2 ≤ n) (h2 : n < 2 ^ 45) :
    128 ≤ aln2mapqDivisor ((n : Int) : ℚ) := by
  have h := our_log2_ge_128 n h1 h2
  rw [aln2mapqDivisor_intCast]
  apply (Int.le_ediv_iff_mul_le (by norm_num)).mpr
  nlinarith

theorem aln2mapqDivisor_ge_128_int (z : Int) (h1 : 2 ≤ z) (h2 : z < 2 ^ 45) :
    128 ≤ aln2mapqDivisor (z : ℚ) := by
  obtain ⟨n, rfl⟩ := Int.eq_ofNat_of_zero_le (le_trans (by norm_num) h1)
  exact aln2mapqDivisor_ge_128 n (by exact_mod_cast h1) (by exact_mod_cast h2)

theorem mapqCoeffScaled_le {snpCost : Int} (h : 0 < snpCost) : mapqCoeffScaled snpCost ≤ 760 := by
  have hs : (1 : ℚ) ≤ (snpCost : ℚ) := by exact_mod_cast h
  have h5 : (5 : ℚ) / (snpCost : ℚ) ≤ 5 := by
    rw [div_le_iff₀ (by linarith)]
    nlinarith
  have h50 : (0 : ℚ) ≤ 5 / (snpCost : ℚ) := by positivity
  have e5 : fl (5 : ℚ) = 5 := by
    simpa using fl_intCast 5 (by norm_num [abs_of_pos])
  have a : fl (5 / (snpCost : ℚ)) ≤ 5 := by
    have := fl_mono_of_nonneg h50 h5
    rwa [e5] at this
  have a0 : 0 ≤ fl (5 / (snpCost : ℚ)) := fl_nonneg h50
  have e760 : fl (760 : ℚ) = 760 := by
    simpa using fl_intCast 760 (by norm_num [abs_of_pos])
  have hc : MAPQ_COEFF = 152 := by
    unfold MAPQ_COEFF
    have : (38912 >>> 8 : Nat) = 152 := by decide
    rw [this]
    norm_num
  unfold mapqCoeffScaled
  rw [hc]
  have b : (152 : ℚ) * fl (5 / (snpCost : ℚ)) ≤ 760 := by linarith
  have c := fl_mono_of_nonneg (mul_nonneg (by norm_num) a0) b
  rwa [e760] at c

theorem aln2mapq_le {snpCost : Int} (h : 0 < snpCost) (n : ℚ) (hd : 128 ≤ aln2mapqDivisor n) :
    aln2mapq snpCost n ≤ 6225920 := by
  have hD : (128 : ℚ) ≤ (aln2mapqDivisor n : ℚ) := by exact_mod_cast hd
  have hc0 := mapqCoeffScaled_nonneg (le_of_lt h)
  have hc := mapqCoeffScaled_le h
  have hq : mapqCoeffScaled snpCost / (aln2mapqDivisor n : ℚ) ≤ 95 / 16 := by
    rw [div_le_iff₀ (by linarith)]
    nlinarith
  have hq0 : 0 ≤ mapqCoeffScaled snpCost / (aln2mapqDivisor n : ℚ) :=
    div_nonneg hc0 (by linarith)
  have e1 : fl ((95 : ℚ) / 16) = 95 / 16 := by
    have := fl_dyadic 95 (-4) (by norm_num [abs_of_pos])
    norm_num [zpow_neg] at this
    exact this
  have a : fl (mapqCoeffScaled snpCost / (aln2mapqDivisor n : ℚ)) ≤ 95 / 16 := by
    have := fl_mono_of_nonneg hq0 hq
    rwa [e1] at this
  have a0 := fl_nonneg hq0
  have e2 : fl (6225920 : ℚ) = 6225920 := by
    simpa using fl_intCast 6225920 (by norm_num [abs_of_pos])
  have hs : ((1 <<< 20 : Nat) : ℚ) = 1048576 := by
    have : (1 <<< 20 : Nat) = 1048576 := by decide
    rw [this]
    norm_num
  rw [aln2mapq_eq_divisor, hs]
  have b : fl (mapqCoeffScaled snpCost / (aln2mapqDivisor n : ℚ)) * 1048576 ≤ 6225920 := by
    linarith
  have c := fl_mono_of_nonneg (mul_nonneg a0 (by norm_num)) b
  rw [e2] at c
  have d := truncQ_mono c
  have e3 : truncQ (6225920 : ℚ) = 6225920 := by
    simpa using truncQ_intCast 6225920
  rw [e3] at d
  exact d

/-- C24: for every read length `n` with `2 ≤ n < 2^24`, `our_log2 n ≥ 128`, so
the divisor `(our_log2 n)^2 >> 7` of `aln2mapq` is at least 128 and not zero,
and for every `snpCost > 0` the value `aln2mapq snpCost n` is the truncated
quotient by that divisor, non-negative and below `2^31`; the length that
`updateEndMapq` passes to `computeMapq`, the maximum of the floor
`aln_cfg_mapq_min_len_` and the average read length, is at least 2 once the
floor is, so while it stays below `2^24` the divisor there is at least 128 and
not zero; for `n = 1` the divisor is 0. -/
theorem aln2mapq_divisor_nonzero (n : Nat) (h1 : 2 ≤ n) (h2 : n < 2 ^ 24) :
    128 ≤ our_log2 (n : Int) ∧
      128 ≤ aln2mapqDivisor ((n : Int) : ℚ) ∧
      aln2mapqDivisor ((n : Int) : ℚ) ≠ 0 ∧
      (∀ snpCost : Int, 0 < snpCost →
        aln2mapq snpCost ((n : Int) : ℚ) =
            truncQ (fl (fl (mapqCoeffScaled snpCost / (aln2mapqDivisor ((n : Int) : ℚ) : ℚ)) *
              ((1 <<< 20 : Nat) : ℚ))) ∧
          0 ≤ aln2mapq snpCost ((n : Int) : ℚ) ∧
          aln2mapq snpCost ((n : Int) : ℚ) < 2 ^ 31) ∧
      (∀ (pb : PairBuilder) (averageReadLength : Int),
        2 ≤ pb.aln_cfg_mapq_min_len_ →
        max pb.aln_cfg_mapq_min_len_ averageReadLength < 2 ^ 24 →
        128 ≤ aln2mapqDivisor ((max pb.aln_cfg_mapq_min_len_ averageReadLength : Int) : ℚ) ∧
          aln2mapqDivisor ((max pb.aln_cfg_mapq_min_len_ averageReadLength : Int) : ℚ) ≠ 0) ∧
      our_log2 1 = 0 ∧ aln2mapqDivisor 1 = 0 := by
  have hn : n < 2 ^ 45 := lt_of_lt_of_le h2 (by norm_num)
  have hd := aln2mapqDivisor_ge_128 n h1 hn
  refine ⟨our_log2_ge_128 n h1 hn, hd, by omega, ?_, ?_, our_log2_one, ?_⟩
  · intro snpCost hs
    refine ⟨rfl, aln2mapq_nonneg (le_of_lt hs) _, ?_⟩
    exact lt_of_le_of_lt (aln2mapq_le hs _ hd) (by norm_num)
  · intro pb averageReadLength hfloor hmax
    have := aln2mapqDivisor_ge_128_int (max pb.aln_cfg_mapq_min_len_ averageReadLength)
      (le_trans hfloor (le_max_left _ _)) (lt_of_lt_of_le hmax (by norm_num))
    exact ⟨this, by omega⟩
  · have := aln2mapqDivisor_intCast 1
    rw [our_log2_one] at this
    simpa using this

theorem aln2mapq_divisor_nonzero_witness :
    2 ≤ 150 ∧ 150 < 2 ^ 24 ∧ 128 ≤ our_log2 ((150 : Nat) : Int) ∧
      aln2mapqDivisor (((150 : Nat) : Int) : ℚ) ≠ 0 :=
  ⟨by decide, by decide, (aln2mapq_divisor_nonzero 150 (by decide) (by decide)).1,
    (aln2mapq_divisor_nonzero 150 (by decide) (by decide)).2.2.1⟩
/-! ## The single-end part of the near-suboptimal count -/

theorem otherBestScore_fold_spec (bestIdx : Nat) :
    ∀ (l : Alignments) (s : Nat) (acc : Int),
      acc ≤ (l.enumFrom s).foldl
          (fun other_best_scr oe =>
            if oe.1 ≠ bestIdx then max other_best_scr oe.2.score else other_best_scr) acc ∧
        (∀ j a, l[j]? = some a → s + j ≠ bestIdx →
          a.score ≤ (l.enumFrom s).foldl
            (fun other_best_scr oe =>
              if oe.1 ≠ bestIdx then max other_best_scr oe.2.score else other_best_scr) acc) ∧
        ((l.enumFrom s).foldl
            (fun other_best_scr oe =>
              if oe.1 ≠ bestIdx then max other_best_scr oe.2.score else other_best_scr) acc = acc ∨
          ∃ j a, l[j]? = some a ∧ s + j ≠ bestIdx ∧
            a.score = (l.enumFrom s).foldl
              (fun other_best_scr oe =>
                if oe.1 ≠ bestIdx then max other_best_scr oe.2.score else other_best_scr) acc) := by
  intro l
  induction l with
  | nil =>
    intro s acc
    refine ⟨le_refl _, ?_, Or.inl rfl⟩
    intro j a h
    simp at h
  | cons b t ih =>
    intro s acc
    simp only [List.enumFrom_cons, List.foldl_cons]
    obtain ⟨h1, h2, h3⟩ := ih (s + 1) (if s ≠ bestIdx then max acc b.score else acc)
    have hacc : acc ≤ (if s ≠ bestIdx then max acc b.score else acc) := by
      split_ifs
      · exact le_max_left _ _
      · exact le_refl _
    refine ⟨le_trans hacc h1, ?_, ?_⟩
    · intro j a hj hne
      cases j with
      | zero =>
        simp only [List.getElem?_cons_zero, Option.some.injEq] at hj
        subst hj
        have hs : s ≠ bestIdx := by simpa using hne
        refine le_trans ?_ h1
        rw [if_pos hs]
        exact le_max_right _ _
      | succ j =>
        simp only [List.getElem?_cons_succ] at hj
        exact h2 j a hj (by omega)
    · have hc : (if s ≠ bestIdx then max acc b.score else acc) = acc ∨
          (s ≠ bestIdx ∧ (if s ≠ bestIdx then max acc b.score else acc) = b.score) := by
        by_cases hs : s ≠ bestIdx
        · rw [if_pos hs]
          rcases le_total acc b.score with hle | hle
          · exact Or.inr ⟨hs, max_eq_right hle⟩
          · exact Or.inl (max_eq_left hle)
        · rw [if_neg hs]
          exact Or.inl rfl
      rcases h3 with h3 | ⟨j, a, hj, hne, ha⟩
      · rcases hc with hc | ⟨hs, hc⟩
        · exact Or.inl (h3.trans hc)
        · exact Or.inr ⟨0, b, by simp, by simpa using hs, (h3.trans hc).symm⟩
      · exact Or.inr ⟨j + 1, a, by simpa using hj, by omega, ha⟩

theorem otherBestScore_spec (alnMinScore_ : Int) (others : Alignments) (bestIdx : Nat) :
    alnMinScore_ ≤ otherBestScore alnMinScore_ others bestIdx ∧
      (∀ j a, others[j]? = some a → j ≠ bestIdx →
        a.score ≤ otherBestScore alnMinScore_ others bestIdx) ∧
      (otherBestScore alnMinScore_ others bestIdx = alnMinScore_ ∨
        ∃ j a, others[j]? = some a ∧ j ≠ bestIdx ∧
          a.score = otherBestScore alnMinScore_ others bestIdx) := by
  obtain ⟨h1, h2, h3⟩ := otherBestScore_fold_spec bestIdx others 0 alnMinScore_
  refine ⟨h1, fun j a hj hne => h2 j a hj (by omega), ?_⟩
  rcases h3 with h3 | ⟨j, a, hj, hne, ha⟩
  · exact Or.inl h3
  · exact Or.inr ⟨j, a, hj, by omega, ha⟩

theorem otherBestScore_same_value (alnMinScore_ : Int) (a : Alignment) :
    otherBestScore alnMinScore_ [a, a] 0 = max alnMinScore_ a.score := by
  simp [otherBestScore, List.enum, List.enumFrom]

/-- C23: when `findSecondBest` finds a second-best pair of combined score `s`,
the final `sub_count` is the count after the pair part plus the number of
alignments of the unpaired list at `readIdx` that are not unmapped and whose
score lies in `(listMax - snpCost, listMax]`, where
`listMax = s - otherEndBestScore + scaledUnpairedPenalty`; `otherEndBestScore`
is the maximum of `alnMinScore_` and the scores of the other-end candidates at
every position except the one the best pair uses (a candidate of equal value at
another position is not skipped), and `scaledUnpairedPenalty` is
`mapq2aln(snpCost, averageReadLength) * aln_cfg_unpaired_pen_` truncated to an
integer. -/
theorem findSecondBest_single_end_count (pb : PairBuilder) (ext : External)
    (averageReadLength : Int) (pairs : AlignmentPairs) (ua : UnpairedAlignments)
    (best : AlignmentPair) (readIdx : Bool) (sub_count : Int) :
    (∀ r, (findSecondBest pb ext averageReadLength pairs ua best readIdx sub_count).1 = some r →
        (findSecondBest pb ext averageReadLength pairs ua best readIdx sub_count).2
          = countNearSubPairs pairs (r.2.score - pb.snpCost) r.2.score sub_count
            + ((ua.get readIdx).countP
                (fun a => !a.unmapped &&
                  decide
                    (r.2.score
                        - otherBestScore pb.alnMinScore_ (ua.get (!readIdx)) (best.idx (!readIdx))
                        + truncQ (fl (mapq2aln ext.libm pb.snpCost (averageReadLength : ℚ)
                            * (pb.aln_cfg_unpaired_pen_ : ℚ))) - pb.snpCost < a.score ∧
                      a.score ≤ r.2.score
                        - otherBestScore pb.alnMinScore_ (ua.get (!readIdx)) (best.idx (!readIdx))
                        + truncQ (fl (mapq2aln ext.libm pb.snpCost (averageReadLength : ℚ)
                            * (pb.aln_cfg_unpaired_pen_ : ℚ))))) : Nat)) ∧
      pb.alnMinScore_
        ≤ otherBestScore pb.alnMinScore_ (ua.get (!readIdx)) (best.idx (!readIdx)) ∧
      (∀ j a, (ua.get (!readIdx))[j]? = some a → j ≠ best.idx (!readIdx) →
        a.score ≤ otherBestScore pb.alnMinScore_ (ua.get (!readIdx)) (best.idx (!readIdx))) ∧
      (otherBestScore pb.alnMinScore_ (ua.get (!readIdx)) (best.idx (!readIdx))
          = pb.alnMinScore_ ∨
        ∃ j a, (ua.get (!readIdx))[j]? = some a ∧ j ≠ best.idx (!readIdx) ∧
          a.score
            = otherBestScore pb.alnMinScore_ (ua.get (!readIdx)) (best.idx (!readIdx))) ∧
      (∀ a : Alignment, otherBestScore pb.alnMinScore_ [a, a] 0 = max pb.alnMinScore_ a.score) := by
  obtain ⟨h1, h2, h3⟩ :=
    otherBestScore_spec pb.alnMinScore_ (ua.get (!readIdx)) (best.idx (!readIdx))
  refine ⟨?_, h1, h2, h3, otherBestScore_same_value pb.alnMinScore_⟩
  intro r h
  rw [findSecondBest_eq_of_loop_some pb ext averageReadLength pairs ua best readIdx sub_count r h,
    countNearSubSingle_eq]

/-- Witness of C23: pairs scoring 100 and 90 over the overlapping pools; the
second-best pair is the one scoring 90, and the other-end best score skips
position 0, used by the best pair, and is the score 45 at position 1. -/
theorem findSecondBest_single_end_count_witness :
    (findSecondBest snp6PairBuilder exampleExternal 150 (twoPairs 90) overlapPools topPair
        false 0).1 = some (1, otherPair 90) ∧
      otherBestScore snp6PairBuilder.alnMinScore_ (overlapPools.get (!false))
        (topPair.idx (!false)) = 45 ∧
      (findSecondBest snp6PairBuilder exampleExternal 150 (twoPairs 90) overlapPools topPair
          false 0).2
        = countNearSubPairs (twoPairs 90) ((otherPair 90).score - snp6PairBuilder.snpCost)
            (otherPair 90).score 0
          + ((overlapPools.get false).countP
              (fun a => !a.unmapped &&
                decide
                  ((otherPair 90).score
                      - otherBestScore snp6PairBuilder.alnMinScore_ (overlapPools.get (!false))
                          (topPair.idx (!false))
                      + truncQ (fl (mapq2aln exampleExternal.libm snp6PairBuilder.snpCost
                            ((150 : Int) : ℚ)
                          * (snp6PairBuilder.aln_cfg_unpaired_pen_ : ℚ)))
                      - snp6PairBuilder.snpCost < a.score ∧
                    a.score ≤ (otherPair 90).score
                      - otherBestScore snp6PairBuilder.alnMinScore_ (overlapPools.get (!false))
                          (topPair.idx (!false))
                      + truncQ (fl (mapq2aln exampleExternal.libm snp6PairBuilder.snpCost
                            ((150 : Int) : ℚ)
                          * (snp6PairBuilder.aln_cfg_unpaired_pen_ : ℚ))))) : Nat) :=
  ⟨example_second_best_90, by decide,
    (findSecondBest_single_end_count snp6PairBuilder exampleExternal 150 (twoPairs 90)
      overlapPools topPair false 0).1 (1, otherPair 90) example_second_best_90⟩
/-! ## The final MAPQ can be negative -/

theorem updateEndMapq_mapq_of_mapped (pb : PairBuilder) (ext : External)
    (averageReadLength : Int) (pairs : AlignmentPairs) (ua : UnpairedAlignments)
    (best : AlignmentPair) (readIdx : Bool)
    (hv : best.idx readIdx < (ua.get readIdx).length)
    (hm : (best.alnAt ua readIdx).unmapped = false) :
    (best.alnAt (updateEndMapq pb ext averageReadLength pairs ua best readIdx) readIdx).mapq
      = computeMapq pb.snpCost best.score
          (max pb.alnMinScore_
            (match (findSecondBest pb ext averageReadLength pairs ua best readIdx 0).1 with
              | some r => r.2.score
              | none => ext.INVALID_SCORE))
          ((max pb.aln_cfg_mapq_min_len_ averageReadLength : Int) : ℚ)
        - subMapqPenalty ext.libm
            (findSecondBest pb ext averageReadLength pairs ua best readIdx 0).2 := by
  unfold updateEndMapq
  rw [if_neg (by simp [hm])]
  simp only
  rw [alnAt_modifyAt_same _ _ _ _ (by rw [length_get_modifyAt]; exact hv),
    alnAt_modifyAt_same _ _ _ _ hv, findSecondBestScore_outputs]

theorem example_tie_second_best :
    (findSecondBest examplePairBuilder exampleExternal 150 tiePairs tiePools topPair
      false 0).1 = some (1, otherPair 100) := by
  decide

theorem example_scaled_unpaired_pen :
    truncQ (fl (mapq2aln exampleExternal.libm examplePairBuilder.snpCost ((150 : Int) : ℚ)
      * (examplePairBuilder.aln_cfg_unpaired_pen_ : ℚ))) = 27 := by
  have h : mapq2aln exampleExternal.libm examplePairBuilder.snpCost ((150 : Int) : ℚ)
      = 6193139209184149 / 18014398509481984 := by
    rw [← mapq2aln_example]
    simp only [exampleExternal, examplePairBuilder]
    norm_num
  rw [h]
  simp only [examplePairBuilder]
  rw [fl_eq_of_bounds (e := 4) (by norm_num [abs_of_pos]) (by norm_num [abs_of_pos])]
  unfold roundHalfEven truncQ
  norm_num [zpow_neg]

theorem example_tie_sub_count :
    (findSecondBest examplePairBuilder exampleExternal 150 tiePairs tiePools topPair
      false 0).2 = 2 := by
  rw [findSecondBest_snd_of_some _ _ _ _ _ _ _ _ _ example_tie_second_best,
    example_scaled_unpaired_pen]
  decide

theorem example_tie_penalty : subMapqPenalty exampleExternal.libm 2 = 3 := by
  rw [subMapqPenalty_eq, if_neg (by norm_num)]
  have : fl (3 * exampleExternal.libm.log2 ((2 : Int) : ℚ)) = ((3 : Int) : ℚ) := by
    rw [← fl_intCast 3 (by norm_num)]
    simp only [exampleExternal, exampleLibm]
    norm_num
  rw [this, truncQ_intCast]

/-- C22: the final MAPQ is not clamped at 0.  Two distinct pairs over
overlapping, non-duplicate candidates tie at the maximum combined score 100;
`pickBest` chooses the first; for its mapped end 0 the second-best pair is the
other one, with the same score, so the base MAPQ is 0; both pairs fall in the
near-suboptimal window, so `sub_count` is 2 and the penalty is 3; and
`updateEndMapq` writes the MAPQ `-3`. -/
theorem updateEndMapq_negative_mapq :
    (pickBest examplePairBuilder exampleExternal exampleReadPair tiePairs tiePools).1 = some 0 ∧
      tiePairs[0]? = some topPair ∧
      (topPair.alnAt tiePools false).unmapped = false ∧
      topPair.score = (otherPair 100).score ∧
      exampleExternal.isDuplicate (topPair.alnAt tiePools false)
        ((otherPair 100).alnAt tiePools false) = false ∧
      exampleExternal.isOverlap (topPair.alnAt tiePools false)
        ((otherPair 100).alnAt tiePools false) = true ∧
      (findSecondBest examplePairBuilder exampleExternal 150 tiePairs tiePools topPair
        false 0).1 = some (1, otherPair 100) ∧
      computeMapq examplePairBuilder.snpCost topPair.score
        (max examplePairBuilder.alnMinScore_ (otherPair 100).score)
        ((max examplePairBuilder.aln_cfg_mapq_min_len_ 150 : Int) : ℚ) = 0 ∧
      (findSecondBest examplePairBuilder exampleExternal 150 tiePairs tiePools topPair
        false 0).2 = 2 ∧
      subMapqPenalty exampleExternal.libm 2 = 3 ∧
      (topPair.alnAt
        (updateEndMapq examplePairBuilder exampleExternal 150 tiePairs tiePools topPair false)
        false).mapq = -3 ∧
      (topPair.alnAt
        (updateEndMapq examplePairBuilder exampleExternal 150 tiePairs tiePools topPair false)
        false).mapq < 0 := by
  have hbase : computeMapq examplePairBuilder.snpCost topPair.score
      (max examplePairBuilder.alnMinScore_ (otherPair 100).score)
      ((max examplePairBuilder.aln_cfg_mapq_min_len_ 150 : Int) : ℚ) = 0 := by
    have hmax : max examplePairBuilder.alnMinScore_ (otherPair 100).score = topPair.score := by
      decide
    unfold computeMapq
    simp only
    rw [hmax, sub_self, zero_mul]
    rfl
  have hmapq : (topPair.alnAt
      (updateEndMapq examplePairBuilder exampleExternal 150 tiePairs tiePools topPair false)
      false).mapq = -3 := by
    rw [updateEndMapq_mapq_of_mapped _ _ _ _ _ _ _ (by decide) (by decide),
      example_tie_second_best, example_tie_sub_count, example_tie_penalty]
    simp only
    rw [hbase]
    rfl
  refine ⟨by decide, rfl, by decide, rfl, by decide, by decide, example_tie_second_best, hbase,
    example_tie_sub_count, example_tie_penalty, hmapq, ?_⟩
  rw [hmapq]
  decide
/-! ## What `pickBest` writes -/

theorem pickBest_cases (pb : PairBuilder) (ext : External) (readPair : ReadPair)
    (pairs : AlignmentPairs) (ua : UnpairedAlignments) :
    pickBest pb ext readPair pairs ua = (none, ua) ∨
      ∃ i p, pairs[i]? = some p ∧
        pickBest pb ext readPair pairs ua
          = (some i, updateMapq pb ext (truncQ readPair.length) pairs ua p) := by
  by_cases hne : pairs = []
  · subst hne
    exact Or.inl rfl
  · obtain ⟨i0, p0, hmax, hfm⟩ := max_element_spec pairs hne
    have hemp : pairs.isEmpty = false := by
      cases pairs with
      | nil => exact absurd rfl hne
      | cons a t => rfl
    unfold pickBest
    rw [hemp]
    simp only [Bool.false_eq_true, if_false, hmax]
    split_ifs
    · exact Or.inl rfl
    · exact Or.inr ⟨i0, p0, hfm.1, rfl⟩

theorem map_modify_of_invariant {β : Type} (g : Alignment → β) (f : Alignment → Alignment)
    (hf : ∀ a, g (f a) = g a) :
    ∀ (l : Alignments) (n : Nat), (l.modify f n).map g = l.map g := by
  intro l
  induction l with
  | nil => intro n; simp
  | cons a t ih =>
    intro n
    cases n with
    | zero => simp [hf]
    | succ k => simp [ih k]

theorem bool_eq_or_eq_not (r r' : Bool) : r' = r ∨ r' = !r := by
  cases r <;> cases r' <;> simp

theorem updateEndMapq_frame (pb : PairBuilder) (ext : External) (averageReadLength : Int)
    (pairs : AlignmentPairs) (ua : UnpairedAlignments) (best : AlignmentPair) (r r' : Bool) :
    ((updateEndMapq pb ext averageReadLength pairs ua best r).get r').map Alignment.frame
      = (ua.get r').map Alignment.frame := by
  rcases bool_eq_or_eq_not r r' with h | h
  · subst h
    unfold updateEndMapq
    split_ifs
    · rw [get_modifyAt_same]
      apply map_modify_of_invariant
      intro a
      rfl
    · simp only
      rw [get_modifyAt_same, get_modifyAt_same]
      refine Eq.trans (map_modify_of_invariant _ _ (fun a => ?_) _ _)
        (map_modify_of_invariant _ _ (fun a => ?_) _ _)
      · rfl
      · rfl
  · subst h
    rw [updateEndMapq_get_other]

theorem updateEndMapq_getElem?_ne (pb : PairBuilder) (ext : External) (averageReadLength : Int)
    (pairs : AlignmentPairs) (ua : UnpairedAlignments) (best : AlignmentPair) (r r' : Bool)
    (j : Nat) (hj : j ≠ best.idx r') :
    ((updateEndMapq pb ext averageReadLength pairs ua best r).get r')[j]? = (ua.get r')[j]? := by
  rcases bool_eq_or_eq_not r r' with h | h
  · subst h
    unfold updateEndMapq
    split_ifs
    · exact getElem?_modifyAt_ne _ _ _ _ _ hj
    · simp only
      rw [getElem?_modifyAt_ne _ _ _ _ _ hj, getElem?_modifyAt_ne _ _ _ _ _ hj]
  · subst h
    rw [updateEndMapq_get_other]

theorem updateMapq_frame (pb : PairBuilder) (ext : External) (readLength : Int)
    (pairs : AlignmentPairs) (ua : UnpairedAlignments) (best : AlignmentPair) (r : Bool) :
    ((updateMapq pb ext readLength pairs ua best).get r).map Alignment.frame
      = (ua.get r).map Alignment.frame := by
  unfold updateMapq
  simp only
  rw [updateEndMapq_frame, updateEndMapq_frame]

theorem updateMapq_getElem?_ne (pb : PairBuilder) (ext : External) (readLength : Int)
    (pairs : AlignmentPairs) (ua : UnpairedAlignments) (best : AlignmentPair) (r : Bool)
    (j : Nat) (hj : j ≠ best.idx r) :
    ((updateMapq pb ext readLength pairs ua best).get r)[j]? = (ua.get r)[j]? := by
  unfold updateMapq
  simp only
  rw [updateEndMapq_getElem?_ne _ _ _ _ _ _ _ _ _ hj, updateEndMapq_getElem?_ne _ _ _ _ _ _ _ _ _ hj]

theorem pickBest_frame_map (pb : PairBuilder) (ext : External) (readPair : ReadPair)
    (pairs : AlignmentPairs) (ua : UnpairedAlignments) (r : Bool) :
    ((pickBest pb ext readPair pairs ua).2.get r).map Alignment.frame
      = (ua.get r).map Alignment.frame := by
  rcases pickBest_cases pb ext readPair pairs ua with h | ⟨i, p, _, h⟩
  · rw [h]
  · rw [h]
    exact updateMapq_frame _ _ _ _ _ _ _

theorem getElem?_of_map_frame_eq {l l' : Alignments}
    (h : l'.map Alignment.frame = l.map Alignment.frame) (j : Nat) (a : Alignment)
    (hj : l[j]? = some a) : ∃ a', l'[j]? = some a' ∧ a'.frame = a.frame := by
  have e := congrArg (fun x => x[j]?) h
  simp only [List.getElem?_map, hj, Option.map_some'] at e
  cases hl : l'[j]? with
  | none => rw [hl] at e; simp at e
  | some a' =>
    rw [hl] at e
    exact ⟨a', rfl, by simpa using e⟩

theorem getD_frame_of_map_frame_eq {l l' : Alignments}
    (h : l'.map Alignment.frame = l.map Alignment.frame) (i : Nat) :
    (l'.getD i default).frame = (l.getD i default).frame := by
  have key : ∀ x : Alignments,
      (x.getD i default).frame
        = ((x.map Alignment.frame)[i]?).getD (default : Alignment).frame := by
    intro x
    rw [List.getD_eq_getElem?_getD, List.getElem?_map]
    cases x[i]? <;> rfl
  rw [key l', key l, h]

/-- C21: `pickBest` writes nothing but the MAPQ and XS of the two alignments
of the pair it returns.  Each pool keeps its length, and the alignment at
every position keeps its position, strand, score, unmapped flag and
ineligibility flag, so every candidate pair, which is only read, still refers
to alignments with the same such fields; when a pair is returned, the
alignments at all pool positions other than the two it uses are unchanged,
MAPQ and XS included; and when `none` is returned the pools are unchanged
altogether. -/
theorem pickBest_frame (pb : PairBuilder) (ext : External) (readPair : ReadPair)
    (pairs : AlignmentPairs) (ua : UnpairedAlignments) :
    (∀ r, ((pickBest pb ext readPair pairs ua).2.get r).length = (ua.get r).length) ∧
      (∀ (r : Bool) (j : Nat) (a : Alignment), (ua.get r)[j]? = some a →
        ∃ a' : Alignment, ((pickBest pb ext readPair pairs ua).2.get r)[j]? = some a' ∧
          a'.position = a.position ∧ a'.reverseComplement = a.reverseComplement ∧
          a'.score = a.score ∧ a'.unmapped = a.unmapped ∧ a'.ineligible = a.ineligible) ∧
      (∀ p ∈ pairs, ∀ r,
        (p.alnAt (pickBest pb ext readPair pairs ua).2 r).frame = (p.alnAt ua r).frame) ∧
      (∀ i, (pickBest pb ext readPair pairs ua).1 = some i →
        ∃ p, pairs[i]? = some p ∧
          ∀ (r : Bool) (j : Nat), j ≠ p.idx r →
            ((pickBest pb ext readPair pairs ua).2.get r)[j]? = (ua.get r)[j]?) ∧
      ((pickBest pb ext readPair pairs ua).1 = none →
        (pickBest pb ext readPair pairs ua).2 = ua) := by
  refine ⟨?_, ?_, ?_, ?_, ?_⟩
  · intro r
    have := congrArg List.length (pickBest_frame_map pb ext readPair pairs ua r)
    simpa using this
  · intro r j a hj
    obtain ⟨a', h1, h2⟩ :=
      getElem?_of_map_frame_eq (pickBest_frame_map pb ext readPair pairs ua r) j a hj
    simp only [Alignment.frame, Prod.mk.injEq] at h2
    exact ⟨a', h1, h2⟩
  · intro p _ r
    exact getD_frame_of_map_frame_eq (pickBest_frame_map pb ext readPair pairs ua r) _
  · intro i hi
    rcases pickBest_cases pb ext readPair pairs ua with h | ⟨i0, p, hp, h⟩
    · rw [h] at hi
      cases hi
    · rw [h] at hi ⊢
      have : i0 = i := Option.some.inj hi
      subst this
      exact ⟨p, hp, fun r j hj => updateMapq_getElem?_ne _ _ _ _ _ _ _ _ hj⟩
  · intro hn
    rcases pickBest_cases pb ext readPair pairs ua with h | ⟨i0, p, hp, h⟩
    · rw [h]
    · rw [h] at hn
      cases hn

/-- Witness of C21: the tied pairs over `tiePools`; `pickBest` returns
position 0, whose pair uses position 0 of each pool, and position 1 of each
pool is unchanged. -/
theorem pickBest_frame_witness :
    (pickBest examplePairBuilder exampleExternal exampleReadPair tiePairs tiePools).1 = some 0 ∧
      ∃ p, tiePairs[0]? = some p ∧
        ∀ (r : Bool) (j : Nat), j ≠ p.idx r →
          ((pickBest examplePairBuilder exampleExternal exampleReadPair tiePairs tiePools).2.get
            r)[j]? = (tiePools.get r)[j]? :=
  ⟨by decide,
    (pickBest_frame examplePairBuilder exampleExternal exampleReadPair tiePairs tiePools).2.2.2.1
      0 (by decide)⟩

end Dragmap
